import Mathlib

/-!
# CA Policy Manager: the policy table view-model of `static/js/main.js`

A shallow embedding of the module-level state of `main.js` (`selectedPolicyIds`,
`allPolicies`, `currentSortColumn`, `currentSortDirection`), of `refreshPolicies`
(lines 328-350), of `sortPolicies` (lines 353-394) with its comparator (lines
363-387), of the selection functions
(`togglePolicySelection`, `toggleSelectAll`, lines 476-500 and 764-772), of the two
bulk loops (`bulkDeletePolicies`, lines 672-761, and `deployAllTemplates`, lines
882-961) and of the recommendation deploy (lines 1163-1231).

JavaScript values are embedded as follows.

* Strings are sequences of UTF-16 code units (`JSString`); `<` on two strings is
  the code-unit lexicographic order of ECMAScript (`strLt`).
* Numbers are `NaN`, the two infinities, or a finite value (`JSNum`); every finite
  double is a rational, and the order of finite doubles is the order of the
  rationals, so finite numbers are carried by `ℚ`.
* Attribute values are the primitive JSON values and `undefined` (a missing
  property): `JSVal`.
* An item is an object, read by `a[column]` (`Item.get`); a column names a data
  attribute, and properties inherited from `Object.prototype` are not modelled.
* The built-ins whose result is a table of the runtime are fields of `Host`:
  `String.prototype.toLowerCase`, `Date.parse` and the string-to-number conversion.
  Every general theorem holds for every host; `refHost` is a small reference host
  used to evaluate concrete examples.
* `Array.prototype.sort` is embedded as a stable insertion sort (`arraySort`) that
  calls the comparator as `compareFn(later, earlier)`, the orientation V8 uses.
  ECMAScript fixes the result of `sort` only for a comparator that is a consistent
  comparison on the elements; for those every conforming engine returns the result
  of `arraySort`.
* A thrown `TypeError` is the `Except.error` of the comparator; `sortPolicies`
  returns the state it leaves behind together with the exception, if any.
* The DOM is reduced to the rows of `#policiesTableBody` that show a policy
  (`policiesTableBody`): the sequence last passed to `displayPolicies`, and none
  once a failed reload has written its error row; the sort icons are not modelled.
* A `Set` is embedded by its members in insertion order.
* An `async` function is embedded by its own steps in program order: each `await`
  of a request is answered by the backend, a state machine `Backend` that may answer
  every request differently. Handlers of other events that the runtime may run while
  the function waits are not part of the embedding, and `refreshPolicies()`, which
  the functions call without waiting for it, is recorded as requested.
  `refreshPolicies` itself is embedded by what it does once the answer to its
  request has arrived (`PoliciesLoad`); a body whose `success` is truthy carries
  the array `policies`.
* A bulk run is observed through its `Event`s: the calls of `addLog` (type and
  template literal, without the time stamp), the requests, the counter updates and
  the writes to the progress bar. Toasts are not modelled.
* The progress percentage is computed in double precision: a double is the rational
  it denotes and `roundDouble` rounds a rational to the nearest double (IEEE 754
  binary64, ties to even); ECMAScript division and multiplication are the exact
  operation followed by that rounding.
-/

namespace CAPolicyManager

/-! ## JavaScript values -/

/-- A JavaScript string: its UTF-16 code units. -/
abbrev JSString := List Nat

/-- The UTF-16 code units of one Unicode scalar value. -/
def utf16Units (c : Char) : List Nat :=
  if c.toNat < 0x10000 then [c.toNat]
  else [0xD800 + (c.toNat - 0x10000) / 0x400, 0xDC00 + (c.toNat - 0x10000) % 0x400]

/-- The JavaScript string written as the given literal. -/
def js (s : String) : JSString := s.toList.flatMap utf16Units

/-- ECMAScript `IsLessThan` on two strings: lexicographic on code units, a proper
initial segment being smaller. -/
def strLt : JSString → JSString → Bool
  | [], [] => false
  | [], _ :: _ => true
  | _ :: _, [] => false
  | a :: as, b :: bs => if a < b then true else if b < a then false else strLt as bs

/-- A JavaScript number. -/
inductive JSNum where
  | nan
  | negInf
  | fin (q : ℚ)
  | posInf
deriving DecidableEq

/-- ECMAScript `Number::lessThan`, with `undefined` (a `NaN` operand) read as false. -/
def numLt : JSNum → JSNum → Bool
  | .nan, _ => false
  | _, .nan => false
  | .negInf, .negInf => false
  | .negInf, _ => true
  | _, .negInf => false
  | .posInf, _ => false
  | .fin _, .posInf => true
  | .fin x, .fin y => decide (x < y)

/-- The values an attribute of an item can have: a missing property reads as
`undefined`. -/
inductive JSVal where
  | undefined
  | null
  | bool (b : Bool)
  | num (n : JSNum)
  | str (s : JSString)
deriving DecidableEq

/-- The exception a JavaScript operation can throw here: calling a property that
is not a function (`bVal.toLowerCase is not a function`). -/
inductive JSError where
  | typeError
deriving DecidableEq

/-- The built-ins of the runtime that are tables rather than algorithms. -/
structure Host where
  /-- The method `String.prototype.toLowerCase`. -/
  toLowerCase : JSString → JSString
  /-- The function `Date.parse`: the time value of a date string, `NaN` when
  unparseable. -/
  dateParse : JSString → JSNum
  /-- The conversion `StringToNumber`. -/
  stringToNumber : JSString → JSNum

/-- ECMAScript `ToBoolean`. -/
def truthy : JSVal → Bool
  | .undefined => false
  | .null => false
  | .bool b => b
  | .num .nan => false
  | .num (.fin q) => decide (q ≠ 0)
  | .num _ => true
  | .str s => !s.isEmpty

/-- ECMAScript `ToNumber` on a primitive. -/
def toNumber (h : Host) : JSVal → JSNum
  | .undefined => .nan
  | .null => .fin 0
  | .bool b => .fin (if b then 1 else 0)
  | .num n => n
  | .str s => h.stringToNumber s

/-- ECMAScript `TimeClip`: a time value is an integral number of milliseconds of
magnitude at most 8.64e15. -/
def timeClip : JSNum → JSNum
  | .fin q => if |q| ≤ 8640000000000000 then .fin (Int.tdiv q.num q.den) else .nan
  | _ => .nan

/-- The expression `new Date(v).getTime()` for a primitive `v`. -/
def dateGetTime (h : Host) : JSVal → JSNum
  | .str s => h.dateParse s
  | v => timeClip (toNumber h v)

/-- ECMAScript `a < b` on primitives: two strings compare as strings, anything
else as numbers. -/
def jsLt (h : Host) : JSVal → JSVal → Bool
  | .str s, .str t => strLt s t
  | a, b => numLt (toNumber h a) (toNumber h b)

/-- The call `v.toLowerCase()`: only a string has the method. -/
def callToLowerCase (h : Host) : JSVal → Except JSError JSVal
  | .str s => .ok (.str (h.toLowerCase s))
  | _ => .error .typeError

/-- The test `typeof v === 'string'`. -/
def isString : JSVal → Bool
  | .str _ => true
  | _ => false

/-! ## Items and module state -/

/-- A policy object: its own properties. -/
structure Item where
  props : List (String × JSVal)
deriving DecidableEq

/-- The property read `a[column]`. -/
def Item.get (a : Item) (column : String) : JSVal :=
  match a.props.lookup column with
  | some v => v
  | none => .undefined

/-- The two values of `currentSortDirection`, `'asc'` and `'desc'`. -/
inductive SortDirection where
  | asc
  | desc
deriving DecidableEq

/-- The module-level state of `main.js` read or written by the policy table, and
the rows of the table body. -/
structure State where
  selectedPolicyIds : List JSVal
  allPolicies : List Item
  currentSortColumn : Option String
  currentSortDirection : SortDirection
  policiesTableBody : List Item
deriving DecidableEq

/-- The state at page load (`main.js` lines 3-8), with an empty table. -/
def State.initial : State :=
  { selectedPolicyIds := [], allPolicies := [], currentSortColumn := none,
    currentSortDirection := .asc, policiesTableBody := [] }

/-! ## The comparator of `sortPolicies` -/

/-- The test `column === 'createdDateTime' || column === 'modifiedDateTime'`. -/
def isDateColumn (column : String) : Bool :=
  column == "createdDateTime" || column == "modifiedDateTime"

/-- Lines 368-369: `if (v === null || v === undefined) v = ''`. -/
def coerceNullish : JSVal → JSVal
  | .undefined => .str []
  | .null => .str []
  | v => v

/-- Lines 372-375 for one operand: `v ? new Date(v).getTime() : 0` in a date
column, the value itself otherwise. -/
def coerceDate (h : Host) (column : String) (v : JSVal) : JSVal :=
  if isDateColumn column then
    .num (if truthy v then dateGetTime h v else .fin 0)
  else v

/-- Lines 364-375 for one operand: the property read, the null coercion and the
date conversion. -/
def coerceValue (h : Host) (column : String) (a : Item) : JSVal :=
  coerceDate h column (coerceNullish (a.get column))

/-- Lines 364-381: the two values the comparator compares. The lower-casing is
guarded by the type of `aVal` alone and is applied to both operands. -/
def coerceOperands (h : Host) (column : String) (a b : Item) :
    Except JSError (JSVal × JSVal) :=
  let aVal := coerceValue h column a
  let bVal := coerceValue h column b
  if isString aVal then do
    let aLow ← callToLowerCase h aVal
    let bLow ← callToLowerCase h bVal
    pure (aLow, bLow)
  else pure (aVal, bVal)

/-- Lines 384-386: the three-way result on the coerced values. -/
def compareValues (h : Host) (dir : SortDirection) (aVal bVal : JSVal) : Int :=
  if jsLt h aVal bVal then (if dir = .asc then -1 else 1)
  else if jsLt h bVal aVal then (if dir = .asc then 1 else -1)
  else 0

/-- The arrow function passed to `sort` (lines 363-387), reading the direction
`sortPolicies` has just set. -/
def compareFn (h : Host) (column : String) (dir : SortDirection) (a b : Item) :
    Except JSError Int := do
  let (aVal, bVal) ← coerceOperands h column a b
  pure (compareValues h dir aVal bVal)

/-! ## `Array.prototype.sort` -/

/-- One insertion step: `x` goes before the first element it compares below. -/
def insertM {α ε : Type} (cmp : α → α → Except ε Int) (x : α) :
    List α → Except ε (List α)
  | [] => pure [x]
  | y :: ys => do
    let c ← cmp x y
    if c < 0 then pure (x :: y :: ys)
    else do
      let rest ← insertM cmp x ys
      pure (y :: rest)

/-- The insertion loop over the elements not yet placed. -/
def sortLoop {α ε : Type} (cmp : α → α → Except ε Int) :
    List α → List α → Except ε (List α)
  | acc, [] => pure acc
  | acc, x :: xs => do
    let acc1 ← insertM cmp x acc
    sortLoop cmp acc1 xs

/-- The call `[...xs].sort(cmp)`: a stable sort of a copy; an exception of the
comparator propagates. -/
def arraySort {α ε : Type} (cmp : α → α → Except ε Int) (xs : List α) :
    Except ε (List α) :=
  sortLoop cmp [] xs

/-! ## `sortPolicies` -/

/-- What a call leaves behind: the state, and the exception if one was thrown. -/
structure Outcome where
  state : State
  thrown : Option JSError
deriving DecidableEq

/-- Lines 355-360: the update of the sort state. -/
def setSort (column : String) (s : State) : State :=
  if s.currentSortColumn = some column then
    { s with currentSortDirection :=
        if s.currentSortDirection = .asc then .desc else .asc }
  else
    { s with currentSortColumn := some column, currentSortDirection := .asc }

/-- The constant `sortedPolicies` of line 363, for the direction in force. -/
def sortedPolicies (h : Host) (column : String) (dir : SortDirection)
    (items : List Item) : Except JSError (List Item) :=
  arraySort (compareFn h column dir) items

/-- The function `sortPolicies(column)` (lines 353-394). The sort state is written
first; if the comparator throws, the table keeps its rows. -/
def sortPolicies (h : Host) (column : String) (s : State) : Outcome :=
  let s1 := setSort column s
  match sortedPolicies h column s1.currentSortDirection s1.allPolicies with
  | .ok sorted => { state := { s1 with policiesTableBody := sorted }, thrown := none }
  | .error e => { state := s1, thrown := some e }

/-! ## A reference host -/

/-- Lower-casing of the ASCII letters; agrees with `toLowerCase` on ASCII strings. -/
def asciiToLowerCase (s : JSString) : JSString :=
  s.map (fun u => if 65 ≤ u ∧ u ≤ 90 then u + 32 else u)

/-- The value of a string of ASCII decimal digits, if it is one. -/
def digitsValue : JSString → Option Nat
  | [] => none
  | us => us.foldl (fun acc u =>
      match acc with
      | some n => if 48 ≤ u ∧ u ≤ 57 then some (10 * n + (u - 48)) else none
      | none => none) (some 0)

/-- Days from 1970-01-01 to the given day of the proleptic Gregorian calendar. -/
def daysFromCivil (y m d : Int) : Int :=
  let y1 := if m ≤ 2 then y - 1 else y
  let era := y1 / 400
  let yoe := y1 - era * 400
  let mp := (m + 9) % 12
  let doy := (153 * mp + 2) / 5 + d - 1
  let doe := yoe * 365 + yoe / 4 - yoe / 100 + doy
  era * 146097 + doe - 719468

/-- The length of a month. -/
def daysInMonth (y m : Nat) : Nat :=
  if m = 2 then (if (y % 4 = 0 ∧ y % 100 ≠ 0) ∨ y % 400 = 0 then 29 else 28)
  else if m = 4 ∨ m = 6 ∨ m = 9 ∨ m = 11 then 30 else 31

/-- The date-only form `YYYY-MM-DD` of the ECMAScript date string format, read as
UTC midnight; any other string is `NaN` here. -/
def isoDateParse (s : JSString) : JSNum :=
  match s with
  | [y1, y2, y3, y4, 45, m1, m2, 45, d1, d2] =>
    match digitsValue [y1, y2, y3, y4], digitsValue [m1, m2], digitsValue [d1, d2] with
    | some y, some m, some d =>
      if 1 ≤ m ∧ m ≤ 12 ∧ 1 ≤ d ∧ d ≤ daysInMonth y m then
        .fin ((daysFromCivil y m d * 86400000 : Int) : ℚ)
      else .nan
    | _, _, _ => .nan
  | _ => .nan

/-- The empty string is 0, a string of decimal digits its value; any other string
is `NaN` here. -/
def decimalToNumber (s : JSString) : JSNum :=
  match s with
  | [] => .fin 0
  | us =>
    match digitsValue us with
    | some n => .fin (n : ℚ)
    | none => .nan

/-- A reference host: it agrees with ECMAScript on ASCII strings
(`toLowerCase`), on calendar dates written `YYYY-MM-DD` and on strings that are no
date in any form (`Date.parse`), and on the empty string and unsigned decimal
integers below 2^53 (`StringToNumber`). Only such inputs are evaluated with it. -/
def refHost : Host :=
  { toLowerCase := asciiToLowerCase, dateParse := isoDateParse,
    stringToNumber := decimalToNumber }

/-- An item from its properties. -/
def mkItem (props : List (String × JSVal)) : Item := { props := props }

/-- The values of one column of a sequence of items. -/
def column (c : String) (items : List Item) : List JSVal :=
  items.map (fun a => a.get c)

/-! ## The sort on a comparator that does not throw -/

/-- Insertion with a pure test "`x` compares below `y`". -/
def insertBy {α : Type} (lt : α → α → Bool) (x : α) : List α → List α
  | [] => [x]
  | y :: ys => if lt x y then x :: y :: ys else y :: insertBy lt x ys

/-- The insertion loop with a pure test. -/
def sortBy {α : Type} (lt : α → α → Bool) : List α → List α → List α
  | acc, [] => acc
  | acc, x :: xs => sortBy lt (insertBy lt x acc) xs

/-- The comparator returns a number on `a`, `b`, negative exactly when `lt a b`. -/
def Agrees {α ε : Type} (cmp : α → α → Except ε Int) (lt : α → α → Bool) (a b : α) :
    Prop :=
  ∃ r : Int, cmp a b = .ok r ∧ (r < 0 ↔ lt a b = true)

/-- On the elements of `D` the test is a strict weak order: asymmetric, and its
complement is transitive. -/
structure StrictWeakOn {α : Type} (lt : α → α → Bool) (D : α → Prop) : Prop where
  asymm : ∀ a b, D a → D b → lt a b = true → lt b a = false
  ntrans : ∀ a b c, D a → D b → D c → lt b a = false → lt c b = false → lt c a = false

/-- No later element compares below an earlier one. -/
def SortedBy {α : Type} (lt : α → α → Bool) (l : List α) : Prop :=
  l.Pairwise (fun a b => lt b a = false)

/-! ## Keys of the comparison -/

/-- The value the comparator finally compares for one item when the lower-casing
applies to strings only: the coerced value, lower-cased if it is a string. -/
def finalKey (h : Host) (column : String) (a : Item) : JSVal :=
  match coerceValue h column a with
  | .str s => .str (h.toLowerCase s)
  | v => v

/-- The test "`x` goes before `y`" in the given direction. -/
def orderedLt (h : Host) (dir : SortDirection) (x y : JSVal) : Bool :=
  match dir with
  | .asc => jsLt h x y
  | .desc => jsLt h y x

/-- The test "`a` goes before `b`" on items. -/
def itemLt (h : Host) (column : String) (dir : SortDirection) (a b : Item) : Bool :=
  orderedLt h dir (finalKey h column a) (finalKey h column b)

/-- The coerced value of the item is a string. -/
def StringKeyed (h : Host) (column : String) (a : Item) : Prop :=
  isString (coerceValue h column a) = true

/-- The coerced value of the item is a number or a boolean, and not `NaN`. -/
def NumberKeyed (h : Host) (column : String) (a : Item) : Prop :=
  isString (coerceValue h column a) = false ∧
    toNumber h (coerceValue h column a) ≠ .nan

/-- The comparator is a consistent comparison on the collection: the coerced
values are all strings, or all numbers or booleans none of which is `NaN`. -/
def ConsistentColumn (h : Host) (column : String) (items : List Item) : Prop :=
  (∀ a ∈ items, StringKeyed h column a) ∨ (∀ a ∈ items, NumberKeyed h column a)

instance (h : Host) (column : String) (a : Item) : Decidable (StringKeyed h column a) :=
  inferInstanceAs (Decidable (isString (coerceValue h column a) = true))

instance (h : Host) (column : String) (a : Item) : Decidable (NumberKeyed h column a) :=
  inferInstanceAs (Decidable (isString (coerceValue h column a) = false ∧
    toNumber h (coerceValue h column a) ≠ .nan))

instance (h : Host) (column : String) (items : List Item) :
    Decidable (ConsistentColumn h column items) :=
  inferInstanceAs (Decidable ((∀ a ∈ items, StringKeyed h column a) ∨
    (∀ a ∈ items, NumberKeyed h column a)))

/-- The value is a string, `null` or `undefined`. -/
def stringOrNullish : JSVal → Bool
  | .undefined => true
  | .null => true
  | .str _ => true
  | _ => false

/-- The value is `null` or `undefined`. -/
def nullish : JSVal → Bool
  | .undefined => true
  | .null => true
  | _ => false

/-- The value is neither `null` nor `undefined` nor the empty string. -/
def nonEmptyValue : JSVal → Bool
  | .undefined => false
  | .null => false
  | .str s => !s.isEmpty
  | _ => true

/-- The order `a <= b` of two numbers; `NaN` is not below anything. -/
def numLe (a b : JSNum) : Bool :=
  numLt a b || (decide (a ≠ .nan) && decide (a = b))

/-- The lower-cased value of the column, `null` and `undefined` taken as the empty
string. -/
def lowerKey (h : Host) (column : String) (a : Item) : JSString :=
  match a.get column with
  | .str s => h.toLowerCase s
  | _ => h.toLowerCase []

/-- The value is missing, `null`, empty, or a date string the host parses. -/
def parseableDate (h : Host) : JSVal → Bool
  | .undefined => true
  | .null => true
  | .str s => s.isEmpty || decide (h.dateParse s ≠ .nan)
  | _ => false

/-- The timestamp of the value of the column, a missing, `null` or empty value
taken as 0. -/
def timestampKey (h : Host) (column : String) (a : Item) : JSNum :=
  match a.get column with
  | .str s => if s.isEmpty then .fin 0 else h.dateParse s
  | _ => .fin 0

/-- A state holding the given collection, otherwise as at page load. -/
def stateOf (items : List Item) : State :=
  { State.initial with allPolicies := items }

/-! ## Concrete collections -/

/-- Two policies named `"Banana"` and `"apple"`. -/
def bananaItems : List Item :=
  [mkItem [("displayName", .str (js "Banana"))],
   mkItem [("displayName", .str (js "apple"))]]

/-- Three policies with ids 1, 2, 3 modified on 2023-01-01, never, and 2022-01-01. -/
def modifiedItems : List Item :=
  [mkItem [("id", .num (.fin 1)), ("modifiedDateTime", .str (js "2023-01-01"))],
   mkItem [("id", .num (.fin 2)), ("modifiedDateTime", .null)],
   mkItem [("id", .num (.fin 3)), ("modifiedDateTime", .str (js "2022-01-01"))]]

/-- A policy with a numeric `priority` followed by one without the attribute. -/
def mixedItems : List Item :=
  [mkItem [("id", .str (js "p1")), ("priority", .num (.fin 5))],
   mkItem [("id", .str (js "p2"))]]

/-- A policy whose `priority` is `null` followed by one whose `priority` is -3. -/
def negativeItems : List Item :=
  [mkItem [("id", .str (js "p1")), ("priority", .null)],
   mkItem [("id", .str (js "p2")), ("priority", .num (.fin (-3)))]]

/-- A policy without creation date followed by one created on 1969-12-31. -/
def epochItems : List Item :=
  [mkItem [("id", .str (js "p1")), ("createdDateTime", .null)],
   mkItem [("id", .str (js "p2")), ("createdDateTime", .str (js "1969-12-31"))]]

/-- Four policies, the third with a modification date that is no date. -/
def unparseableItems : List Item :=
  [mkItem [("id", .str (js "p1")), ("modifiedDateTime", .str (js "2023-01-10"))],
   mkItem [("id", .str (js "p2")), ("modifiedDateTime", .str (js "2023-01-09"))],
   mkItem [("id", .str (js "p3")), ("modifiedDateTime", .str (js "unknown"))],
   mkItem [("id", .str (js "p4")), ("modifiedDateTime", .str (js "2023-01-01"))]]

/-- Two policies with the same name in different case, and a third. -/
def tiedItems : List Item :=
  [mkItem [("id", .str (js "p1")), ("displayName", .str (js "MFA"))],
   mkItem [("id", .str (js "p2")), ("displayName", .str (js "Block"))],
   mkItem [("id", .str (js "p3")), ("displayName", .str (js "mfa"))]]

/-- A named policy, a policy without name and a policy whose name is `null`. -/
def unnamedItems : List Item :=
  [mkItem [("id", .str (js "p1")), ("displayName", .str (js "Block legacy"))],
   mkItem [("id", .str (js "p2"))],
   mkItem [("id", .str (js "p3")), ("displayName", .null)]]

/-! ## Selection of policies -/

/-- The method `Set.prototype.has` on the insertion-ordered members of a set. -/
def setHas (members : List JSVal) (v : JSVal) : Bool :=
  decide (v ∈ members)

/-- The method `Set.prototype.add`: a new member goes last, a member stays. -/
def setAdd (members : List JSVal) (v : JSVal) : List JSVal :=
  if setHas members v then members else members ++ [v]

/-- The method `Set.prototype.delete`. -/
def setDelete (members : List JSVal) (v : JSVal) : List JSVal :=
  members.filter (fun m => decide (m ≠ v))

/-- The function `togglePolicySelection(policyId)` (lines 476-483); the bulk
operations bar only shows the size of the set. -/
def togglePolicySelection (policyId : JSVal) (s : State) : State :=
  if setHas s.selectedPolicyIds policyId then
    { s with selectedPolicyIds := setDelete s.selectedPolicyIds policyId }
  else
    { s with selectedPolicyIds := setAdd s.selectedPolicyIds policyId }

/-- The function `toggleSelectAll()` (lines 486-500). The checkboxes of class
`policy-checkbox` are those of the rows `displayPolicies` rendered, in row order;
`idText v` is the text the attribute `data-policy-id` holds for a policy whose id is
`v`, and `checked` the state of the header checkbox. -/
def toggleSelectAll (idText : JSVal → JSString) (checked : Bool) (s : State) : State :=
  let selected := s.policiesTableBody.foldl
    (fun sel row => if checked then setAdd sel (.str (idText (row.get "id"))) else sel) []
  { s with selectedPolicyIds := selected }

/-- The function `selectAllPoliciesGlobal()` (lines 764-767). -/
def selectAllPoliciesGlobal (idText : JSVal → JSString) (s : State) : State :=
  toggleSelectAll idText true s

/-- The function `deselectAllPoliciesGlobal()` (lines 769-772). -/
def deselectAllPoliciesGlobal (idText : JSVal → JSString) (s : State) : State :=
  toggleSelectAll idText false s

/-- The attribute text of an id that is a string free of markup characters: the
string itself. -/
def plainIdText : JSVal → JSString
  | .str t => t
  | _ => []

/-! ## Double-precision arithmetic of the progress percentage -/

/-- The nearest integer, a tie going to the even one. -/
def roundHalfEven (x : ℚ) : ℤ :=
  if x - ⌊x⌋ < 1 / 2 then ⌊x⌋
  else if 1 / 2 < x - ⌊x⌋ then ⌊x⌋ + 1
  else if ⌊x⌋ % 2 = 0 then ⌊x⌋ else ⌊x⌋ + 1

/-- The exponent of the binade of a positive number, not below the exponent of the
smallest normal double. -/
def binade (q : ℚ) : ℤ := max (Int.log 2 q) (-1022)

/-- The spacing of the doubles in the binade of `q`: 53 significant bits. -/
def ulp (q : ℚ) : ℚ := (2 : ℚ) ^ (binade q - 52)

/-- The double nearest to `q` (IEEE 754 binary64, round to nearest, ties to even),
for `0 ≤ q` below the overflow threshold. -/
def roundDouble (q : ℚ) : ℚ := roundHalfEven (q / ulp q) * ulp q

/-- The function `Math.round` on a finite number: the nearest integer, a tie going
up. -/
def mathRound (x : ℚ) : ℤ := ⌊x + 1 / 2⌋

/-- The expression `Math.round((completed / total) * 100)` (lines 741 and 942): a
correctly rounded division, a correctly rounded multiplication, then `Math.round`.
The counters are integers below 2^53 and are doubles themselves. -/
def percentComplete (completed total : Nat) : ℤ :=
  mathRound (roundDouble (roundDouble ((completed : ℚ) / (total : ℚ)) * 100))

/-! ## Bulk runs -/

/-- The `type` argument of `addLog`. -/
inductive LogType where
  | info
  | success
  | error
  | warning
deriving DecidableEq

/-- One piece of a template literal: literal text, an interpolated value before
its conversion to a string, or the message of a caught engine exception. -/
inductive Part where
  | text (t : JSString)
  | value (v : JSVal)
  | thrownMessage (e : JSError)
deriving DecidableEq

/-- One call of `addLog(message, type)`; the time stamp is not part of it. -/
structure LogLine where
  type : LogType
  message : List Part
deriving DecidableEq

/-- How one action ends: the response body `data` with its `success` and `error`
fields, or an exception thrown by `fetch` or `response.json()` with its message. -/
inductive ActionResult where
  | responded (success error : JSVal)
  | threw (message : JSVal)
deriving DecidableEq

/-- The action failed: the request threw, or `data.success` is not truthy. -/
def ActionResult.failed : ActionResult → Bool
  | .responded success _ => !truthy success
  | .threw _ => true

/-- The reason of a failure: `data.error`, or `error.message`. -/
def ActionResult.reason : ActionResult → JSVal
  | .responded _ error => error
  | .threw message => message

/-- The backend: it answers one request for `x` in the state it is in and moves to
a new state. -/
abbrev Backend (σ α : Type) := σ → α → ActionResult × σ

/-- What a bulk run does, in program order. -/
inductive Event (α : Type) where
  | progressReset
  | log (line : LogLine)
  | request (x : α)
  | counted (succeeded failed : Nat)
  | completedIs (completed : Nat)
  | progress (percent : ℤ)
deriving DecidableEq

/-- The literal texts in which the two bulk loops differ. -/
structure BulkText where
  announce : JSString
  succeededText : JSString
  failedText : JSString
  errorText : JSString
  startHead : JSString
  startTail : JSString
  summaryHead : JSString

/-- The texts of `bulkDeletePolicies`. -/
def bulkDeleteText : BulkText :=
  { announce := js "Deleting: ",
    succeededText := js "âœ“ Successfully deleted: ",
    failedText := js "âœ— Failed to delete ",
    errorText := js "âœ— Error deleting ",
    startHead := js "Starting bulk delete of ",
    startTail := js " policies...",
    summaryHead := js "\n=== Bulk Delete Complete ===" }

/-- The texts of `deployAllTemplates`. -/
def deployText : BulkText :=
  { announce := js "Deploying: ",
    succeededText := js "âœ“ Successfully deployed: ",
    failedText := js "âœ— Failed to deploy ",
    errorText := js "âœ— Error deploying ",
    startHead := js "Starting deployment of ",
    startTail := js " templates...",
    summaryHead := js "\n=== Deployment Complete ===" }

/-- A counter as a JavaScript number. -/
def natVal (n : Nat) : JSVal := .num (.fin (n : ℚ))

/-- The line announcing an item (lines 721 and 917). -/
def announceLine (t : BulkText) (name : JSVal) : LogLine :=
  { type := .info, message := [.text t.announce, .value name, .text (js "...")] }

/-- The line recording the outcome of an item (lines 731, 734, 738 and 930, 933,
937). -/
def resultLine (t : BulkText) (name : JSVal) : ActionResult → LogLine
  | .responded success error =>
    if truthy success then
      { type := .success, message := [.text t.succeededText, .value name] }
    else
      { type := .error,
        message := [.text t.failedText, .value name, .text (js ": "), .value error] }
  | .threw message =>
    { type := .error,
      message := [.text t.errorText, .value name, .text (js ": "), .value message] }

/-- The line opening a run (lines 711 and 912). -/
def startLine (t : BulkText) (total : Nat) : LogLine :=
  { type := .info,
    message := [.text t.startHead, .value (natVal total), .text t.startTail] }

/-- The two lines of the final summary (lines 747-748 and 948-949). -/
def summaryLines (t : BulkText) (total succeeded failed : Nat) : List LogLine :=
  [{ type := .info, message := [.text t.summaryHead] },
   { type := if succeeded = total then .success else .warning,
     message := [.text (js "Total: "), .value (natVal total),
       .text (js " | Succeeded: "), .value (natVal succeeded),
       .text (js " | Failed: "), .value (natVal failed)] }]

/-- The line of the outer `catch` (lines 758 and 957). -/
def fatalLine (what : Part) : LogLine :=
  { type := .error, message := [.text (js "Fatal error: "), what] }

/-- The counters `succeeded` and `failed` after the outcome of one item. -/
def countOutcome (r : ActionResult) (succeeded failed : Nat) : Nat × Nat :=
  if r.failed then (succeeded, failed + 1) else (succeeded + 1, failed)

/-- One pass of the loop body for an item named `name`, answered by `r`, with the
counters standing at `completed`, `succeeded`, `failed`: the announcement, the
request, the counter update, the result line, then `completed++` and the progress
bar. -/
def itemEvents {α : Type} (t : BulkText) (total : Nat) (name : JSVal) (x : α)
    (r : ActionResult) (completed succeeded failed : Nat) : List (Event α) :=
  [.log (announceLine t name),
   .request x,
   .counted (countOutcome r succeeded failed).1 (countOutcome r succeeded failed).2,
   .log (resultLine t name r),
   .completedIs (completed + 1),
   .progress (percentComplete (completed + 1) total)]

/-- Where a loop stands when it ends or is left by an exception that the inner
`try` does not catch. -/
structure LoopResult (σ α : Type) where
  world : σ
  completed : Nat
  succeeded : Nat
  failed : Nat
  events : List (Event α)
  fatal : Option JSError

/-- The `for` loops of lines 715-744 and 915-945. `nameOf` is the name shown for an
item; in `bulkDeletePolicies` it is computed before the inner `try`, so an exception
of it leaves the loop. -/
def bulkLoop {σ α : Type} (t : BulkText) (nameOf : α → Except JSError JSVal)
    (backend : Backend σ α) (total : Nat) :
    σ → Nat → Nat → Nat → List α → LoopResult σ α
  | w, c, s, f, [] =>
    { world := w, completed := c, succeeded := s, failed := f, events := [],
      fatal := none }
  | w, c, s, f, x :: xs =>
    match nameOf x with
    | .error e =>
      { world := w, completed := c, succeeded := s, failed := f, events := [],
        fatal := some e }
    | .ok name =>
      let rest := bulkLoop t nameOf backend total (backend w x).2 (c + 1)
        (countOutcome (backend w x).1 s f).1 (countOutcome (backend w x).1 s f).2 xs
      { rest with events := itemEvents t total name x (backend w x).1 c s f ++ rest.events }

/-- The answers the backend gives to the requests of a run, in order. -/
def responses {σ α : Type} (backend : Backend σ α) : σ → List α → List ActionResult
  | _, [] => []
  | w, x :: xs => (backend w x).1 :: responses backend (backend w x).2 xs

/-- The strict equality `a === b` on primitives. -/
def strictEq (a b : JSVal) : Bool :=
  match a, b with
  | .num .nan, _ => false
  | _, .num .nan => false
  | a, b => decide (a = b)

/-- The call `policyId.substring(0, 8)`: only a string has the method. -/
def substring08 : JSVal → Except JSError JSVal
  | .str t => .ok (.str (t.take 8))
  | _ => .error .typeError

/-- Line 717: the display name of the policy with that id if it is truthy, else
the first eight code units of the id. -/
def policyName (allPolicies : List Item) (policyId : JSVal) : Except JSError JSVal :=
  let displayName :=
    match allPolicies.find? (fun p => strictEq (p.get "id") policyId) with
    | some p => p.get "displayName"
    | none => .undefined
  if truthy displayName then .ok displayName else substring08 policyId

/-- The expression `item.display_name || item.name` of `deployAllTemplates`. -/
def templateName (item : Item) : Except JSError JSVal :=
  .ok (if truthy (item.get "display_name") then item.get "display_name"
    else item.get "name")

/-- What a bulk operation leaves behind: the module state, the backend state, the
counters, the events in program order, whether the run started, whether it was
left by an exception, and whether `refreshPolicies()` was called at the end. -/
structure BulkOutcome (σ α : Type) where
  state : State
  world : σ
  started : Bool
  total : Nat
  completed : Nat
  succeeded : Nat
  failed : Nat
  events : List (Event α)
  fatal : Bool
  refreshRequested : Bool

/-- A call that returns before the run starts. -/
def notStarted {σ α : Type} (s : State) (w : σ) (events : List (Event α)) :
    BulkOutcome σ α :=
  { state := s, world := w, started := false, total := 0, completed := 0,
    succeeded := 0, failed := 0, events := events, fatal := false,
    refreshRequested := false }

/-- The function `bulkDeletePolicies()` (lines 672-761). `confirmAnswer` is the
answer to `confirm`; the requests go to `DELETE /api/policies/<id>`. -/
def bulkDeletePolicies {σ : Type} (backend : Backend σ JSVal) (confirmAnswer : Bool)
    (s : State) (w : σ) : BulkOutcome σ JSVal :=
  if s.selectedPolicyIds.length = 0 then notStarted s w []
  else if !confirmAnswer then notStarted s w []
  else
    let policyIds := s.selectedPolicyIds
    let total := policyIds.length
    let loop := bulkLoop bulkDeleteText (policyName s.allPolicies) backend total w 0 0 0
      policyIds
    match loop.fatal with
    | some e =>
      { state := s, world := loop.world, started := true, total := total,
        completed := loop.completed, succeeded := loop.succeeded, failed := loop.failed,
        events := [.progressReset, .log (startLine bulkDeleteText total)] ++ loop.events
          ++ [.log (fatalLine (.thrownMessage e))],
        fatal := true, refreshRequested := false }
    | none =>
      { state := if 0 < loop.succeeded then { s with selectedPolicyIds := [] } else s,
        world := loop.world, started := true, total := total,
        completed := loop.completed, succeeded := loop.succeeded, failed := loop.failed,
        events := [.progressReset, .log (startLine bulkDeleteText total)] ++ loop.events
          ++ (summaryLines bulkDeleteText total loop.succeeded loop.failed).map .log,
        fatal := false, refreshRequested := decide (0 < loop.succeeded) }

/-- The answer to `GET /api/templates` in `deployAllTemplates`: an exception, a
body whose `success` is not truthy, or the array `templates`. -/
inductive TemplatesLoad where
  | threw (message : JSVal)
  | refused
  | loaded (templates : List Item)

/-- The function `deployAllTemplates()` (lines 882-961). The requests go to
`POST /api/templates/deploy` with the `template` of the item as body. -/
def deployAllTemplates {σ : Type} (backend : Backend σ Item) (confirmAnswer : Bool)
    (load : TemplatesLoad) (s : State) (w : σ) : BulkOutcome σ Item :=
  if !confirmAnswer then notStarted s w []
  else
    match load with
    | .threw message =>
      { state := s, world := w, started := false, total := 0, completed := 0,
        succeeded := 0, failed := 0,
        events := [.progressReset, .log (fatalLine (.value message))], fatal := true,
        refreshRequested := false }
    | .refused =>
      notStarted s w [.progressReset,
        .log { type := .error, message := [.text (js "Failed to load templates")] }]
    | .loaded allTemplates =>
      let total := allTemplates.length
      let loop := bulkLoop deployText templateName backend total w 0 0 0 allTemplates
      match loop.fatal with
      | some e =>
        { state := s, world := loop.world, started := true, total := total,
          completed := loop.completed, succeeded := loop.succeeded,
          failed := loop.failed,
          events := [.progressReset, .log (startLine deployText total)] ++ loop.events
            ++ [.log (fatalLine (.thrownMessage e))],
          fatal := true, refreshRequested := false }
      | none =>
        { state := s, world := loop.world, started := true, total := total,
          completed := loop.completed, succeeded := loop.succeeded,
          failed := loop.failed,
          events := [.progressReset, .log (startLine deployText total)] ++ loop.events
            ++ (summaryLines deployText total loop.succeeded loop.failed).map .log,
          fatal := false, refreshRequested := decide (0 < loop.succeeded) }

/-- The lines of the console, in order. -/
def logLines {α : Type} (events : List (Event α)) : List LogLine :=
  events.filterMap (fun e => match e with
    | .log line => some line
    | _ => none)

/-- The items on which the action was invoked, in order. -/
def requestsOf {α : Type} (events : List (Event α)) : List α :=
  events.filterMap (fun e => match e with
    | .request x => some x
    | _ => none)

/-- The percentages written to the progress bar after an item, in order. -/
def progressReports {α : Type} (events : List (Event α)) : List ℤ :=
  events.filterMap (fun e => match e with
    | .progress p => some p
    | _ => none)

/-! ## Recommendations -/

/-- The module state of the report view: `selectedRecommendations` (the indices,
in insertion order) and `allRecommendations`. -/
structure ReportState where
  selectedRecommendations : List Nat
  allRecommendations : List Item
deriving DecidableEq

/-- What a recommendation deploy leaves behind: the state, the bodies `indices` of
the requests sent to `POST /api/report/deploy-recommendations`, the answers
received, and whether `refreshPolicies()` was called. -/
structure BatchOutcome where
  state : ReportState
  requests : List (List Nat)
  answers : List ActionResult
  refreshRequested : Bool
deriving DecidableEq

/-- The function `deploySelectedRecommendations()` (lines 1163-1196). -/
def deploySelectedRecommendations (backend : List Nat → ActionResult)
    (confirmAnswer : Bool) (r : ReportState) : BatchOutcome :=
  if r.selectedRecommendations.length = 0 then
    { state := r, requests := [], answers := [], refreshRequested := false }
  else if !confirmAnswer then
    { state := r, requests := [], answers := [], refreshRequested := false }
  else
    let indices := r.selectedRecommendations
    match backend indices with
    | .responded success error =>
      if truthy success then
        { state := { r with selectedRecommendations := [] }, requests := [indices],
          answers := [.responded success error], refreshRequested := true }
      else
        { state := r, requests := [indices], answers := [.responded success error],
          refreshRequested := false }
    | .threw message =>
      { state := r, requests := [indices], answers := [.threw message],
        refreshRequested := false }

/-- The function `deployAllRecommendations()` (lines 1199-1231). -/
def deployAllRecommendations (backend : List Nat → ActionResult)
    (confirmAnswer : Bool) (r : ReportState) : BatchOutcome :=
  if r.allRecommendations.length = 0 then
    { state := r, requests := [], answers := [], refreshRequested := false }
  else if !confirmAnswer then
    { state := r, requests := [], answers := [], refreshRequested := false }
  else
    let indices := List.range r.allRecommendations.length
    match backend indices with
    | .responded success error =>
      { state := r, requests := [indices], answers := [.responded success error],
        refreshRequested := truthy success }
    | .threw message =>
      { state := r, requests := [indices], answers := [.threw message],
        refreshRequested := false }

/-! ## The events of a run that is not left by an exception -/

/-- The name shown for an item when `nameOf` returns one. -/
def shownName {α : Type} (nameOf : α → Except JSError JSVal) (x : α) : JSVal :=
  match nameOf x with
  | .ok name => name
  | .error _ => .undefined

/-- The counters `succeeded` and `failed` after a sequence of outcomes. -/
def tally : List ActionResult → Nat → Nat → Nat × Nat
  | [], s, f => (s, f)
  | r :: rs, s, f => tally rs (countOutcome r s f).1 (countOutcome r s f).2

/-- The events of the passes of the loop over items paired with their answers,
the counters starting at `c`, `s`, `f`. -/
def runEvents {α : Type} (t : BulkText) (nameOf : α → Except JSError JSVal)
    (total : Nat) : Nat → Nat → Nat → List (α × ActionResult) → List (Event α)
  | _, _, _, [] => []
  | c, s, f, (x, r) :: rest =>
    itemEvents t total (shownName nameOf x) x r c s f ++
      runEvents t nameOf total (c + 1) (countOutcome r s f).1 (countOutcome r s f).2 rest

/-- The lines of a log that `addLog` wrote with type `'error'`. -/
def errorLines (lines : List LogLine) : List LogLine :=
  lines.filter (fun l => decide (l.type = .error))

/-- A backend whose answers alternate: the requests numbered 0, 2, 4, ... succeed,
the others throw a network error. Its state is the number of requests served. -/
def alternatingBackend (α : Type) : Backend Nat α :=
  fun k _ =>
    (if k % 2 = 0 then .responded (.bool true) .undefined
      else .threw (.str (js "Failed to fetch")), k + 1)

/-- A backend that refuses every request with `success: false`. -/
def refusingBackend (α : Type) : Backend Unit α :=
  fun w _ => (.responded (.bool false) (.str (js "Forbidden")), w)

/-- Three policies of which the first two are selected, in the order `p2`, `p1`. -/
def selectionState : State :=
  { selectedPolicyIds := [.str (js "p2"), .str (js "p1")],
    allPolicies := tiedItems, currentSortColumn := none, currentSortDirection := .asc,
    policiesTableBody := tiedItems }

/-- A template with a display name. -/
def firstTemplate : Item :=
  mkItem [("name", .str (js "mfa-admins")), ("display_name", .str (js "Require MFA")),
    ("template", .str (js "t1"))]

/-- A template without display name. -/
def secondTemplate : Item :=
  mkItem [("name", .str (js "block-legacy")), ("template", .str (js "t2"))]

/-- Two templates. -/
def twoTemplates : List Item := [firstTemplate, secondTemplate]

/-- Forty templates. -/
def fortyTemplates : List Item :=
  List.replicate 40 (mkItem [("name", .str (js "baseline"))])

/-- A report state with five recommendations of which those numbered 3 and 1 are
selected, in that order. -/
def reportState : ReportState :=
  { selectedRecommendations := [3, 1],
    allRecommendations := List.replicate 5 (mkItem [("policy_category", .str (js "mfa"))]) }

/-- A report state with five recommendations of which none is selected. -/
def unselectedReport : ReportState :=
  { selectedRecommendations := [],
    allRecommendations := List.replicate 5 (mkItem [("policy_category", .str (js "mfa"))]) }

/-- A state with one selected policy. -/
def oneSelected : State :=
  { selectedPolicyIds := [.str (js "p1")], allPolicies := tiedItems,
    currentSortColumn := none, currentSortDirection := .asc,
    policiesTableBody := tiedItems }

/-- The two lines an item adds to the log: its announcement and its result. -/
def itemLines {α : Type} (t : BulkText) (nameOf : α → Except JSError JSVal)
    (p : α × ActionResult) : List LogLine :=
  [announceLine t (shownName nameOf p.1), resultLine t (shownName nameOf p.1) p.2]

/-- The percentages of a run over `n` items. -/
def percentages (n : Nat) : List ℤ :=
  (List.range n).map (fun i => percentComplete (i + 1) n)

/-- A backend of the report view that accepts every batch. -/
def acceptingBatch : List Nat → ActionResult :=
  fun _ => .responded (.bool true) .undefined

/-! ## Reload of the policies and reachable states -/

/-- The answer to `GET /api/policies` in `refreshPolicies`: an exception of `fetch`
or `response.json()`, a body whose `success` is not truthy with its `error`, or a
body with the array `policies`. -/
inductive PoliciesLoad where
  | threw (message : JSVal)
  | refused (error : JSVal)
  | loaded (policies : List Item)

/-- The function `refreshPolicies()` (lines 328-350) once the answer has arrived. A
successful load assigns `allPolicies` and calls `displayPolicies` on the loaded
array; a failed one replaces the table body by a row with the error, which shows
no policy. -/
def refreshPolicies (load : PoliciesLoad) (s : State) : State :=
  match load with
  | .loaded policies => { s with allPolicies := policies, policiesTableBody := policies }
  | .refused _ => { s with policiesTableBody := [] }
  | .threw _ => { s with policiesTableBody := [] }

/-- The policies a load brings, none when it fails. -/
def PoliciesLoad.items : PoliciesLoad → List Item
  | .loaded policies => policies
  | _ => []

/-- The states the page reaches from page load through `refreshPolicies`,
`sortPolicies`, a click on the checkbox of a rendered row (`togglePolicySelection`
with the id written in the `onchange` attribute of that row, read back like
`data-policy-id`), `toggleSelectAll` and `bulkDeletePolicies`, together with the
items of all the collections loaded on the way. The reload that a bulk delete asks
for at its end is a `refresh` step of its own. -/
inductive Reachable (h : Host) (idText : JSVal → JSString) : List Item → State → Prop where
  | start : Reachable h idText [] State.initial
  | refresh (seen : List Item) (s : State) (load : PoliciesLoad) :
      Reachable h idText seen s →
      Reachable h idText (seen ++ load.items) (refreshPolicies load s)
  | sort (seen : List Item) (s : State) (column : String) :
      Reachable h idText seen s →
      Reachable h idText seen (sortPolicies h column s).state
  | toggle (seen : List Item) (s : State) (row : Item) :
      Reachable h idText seen s → row ∈ s.policiesTableBody →
      Reachable h idText seen (togglePolicySelection (.str (idText (row.get "id"))) s)
  | toggleAll (seen : List Item) (s : State) (checked : Bool) :
      Reachable h idText seen s →
      Reachable h idText seen (toggleSelectAll idText checked s)
  | bulkDelete (seen : List Item) (s : State) (σ : Type) (backend : Backend σ JSVal)
      (confirmAnswer : Bool) (w : σ) :
      Reachable h idText seen s →
      Reachable h idText seen (bulkDeletePolicies backend confirmAnswer s w).state

/-- Every selected id is the id of an item of the collection. -/
def SelectionWithin (items : List Item) (s : State) : Prop :=
  ∀ m ∈ s.selectedPolicyIds, ∃ p ∈ items, p.get "id" = m

instance (items : List Item) (s : State) : Decidable (SelectionWithin items s) :=
  inferInstanceAs (Decidable (∀ m ∈ s.selectedPolicyIds, ∃ p ∈ items, p.get "id" = m))

/-- The policy `p1`, named `"MFA"`. -/
def mfaPolicy : Item :=
  mkItem [("id", .str (js "p1")), ("displayName", .str (js "MFA"))]

/-- The state after the three policies `p1`, `p2`, `p3` were loaded. -/
def loadedState : State :=
  refreshPolicies (.loaded tiedItems) State.initial

/-- The state after the checkbox of `p1` was then ticked. -/
def tickedState : State :=
  togglePolicySelection (.str (plainIdText (mfaPolicy.get "id"))) loadedState

/-- The state after a reload then brought only `p2` and `p3` (`p1` was deleted
elsewhere). -/
def staleState : State :=
  refreshPolicies (.loaded (tiedItems.drop 1)) tickedState

/-- The policies `"Banana"`, `"apple"` with the sort state standing at
`displayName`, ascending. -/
def sortedBananaState : State :=
  (sortPolicies refHost "displayName" (stateOf bananaItems)).state

/-- A policy modified on 2023-01-09. -/
def newerPolicy : Item :=
  mkItem [("id", .str (js "p2")), ("modifiedDateTime", .str (js "2023-01-09"))]

/-- A policy whose modification date is no date. -/
def undatedPolicy : Item :=
  mkItem [("id", .str (js "p3")), ("modifiedDateTime", .str (js "unknown"))]

/-- A policy modified on 2023-01-01. -/
def olderPolicy : Item :=
  mkItem [("id", .str (js "p4")), ("modifiedDateTime", .str (js "2023-01-01"))]

/-- The comparator returns 0 on `a`, `b` in ascending direction. -/
def comparesEqual (h : Host) (column : String) (a b : Item) : Bool :=
  match compareFn h column .asc a b with
  | .ok r => decide (r = 0)
  | .error _ => false

/-- A policy modified on 2023-01-01 followed by one whose modification date is no
date. -/
def undatedPair : List Item := [olderPolicy, undatedPolicy]

/-! # Theorems -/

/-! ## The sort loop on a comparator that does not throw -/

section SortTheory

variable {α ε : Type}

theorem insertM_eq_insertBy (cmp : α → α → Except ε Int) (lt : α → α → Bool) (x : α)
    (acc : List α) (hx : ∀ y ∈ acc, Agrees cmp lt x y) :
    insertM cmp x acc = .ok (insertBy lt x acc) := by
  induction acc with
  | nil => rfl
  | cons y ys ih =>
    obtain ⟨r, hr, hlt⟩ := hx y (List.mem_cons_self y ys)
    have ih1 := ih (fun z hz => hx z (List.mem_cons_of_mem y hz))
    by_cases hneg : r < 0
    · have hl : lt x y = true := hlt.mp hneg
      simp [insertM, insertBy, hr, hneg, hl, bind, Except.bind, pure, Except.pure]
    · have hl : lt x y = false := by
        cases hb : lt x y with
        | false => rfl
        | true => exact absurd (hlt.mpr hb) hneg
      simp [insertM, insertBy, hr, hneg, hl, ih1, bind, Except.bind, pure, Except.pure]

theorem mem_insertBy (lt : α → α → Bool) (x z : α) (acc : List α) :
    z ∈ insertBy lt x acc ↔ z = x ∨ z ∈ acc := by
  induction acc with
  | nil => simp [insertBy]
  | cons y ys ih =>
    unfold insertBy
    split
    · simp
    · simp only [List.mem_cons, ih]
      tauto

theorem sortLoop_eq_sortBy (cmp : α → α → Except ε Int) (lt : α → α → Bool)
    (xs acc : List α)
    (hagree : ∀ a ∈ acc ++ xs, ∀ b ∈ acc ++ xs, Agrees cmp lt a b) :
    sortLoop cmp acc xs = .ok (sortBy lt acc xs) := by
  induction xs generalizing acc with
  | nil => rfl
  | cons x xs ih =>
    have hins : insertM cmp x acc = .ok (insertBy lt x acc) :=
      insertM_eq_insertBy cmp lt x acc
        (fun y hy => hagree x (by simp) y (by simp [hy]))
    have hrest := ih (insertBy lt x acc) (by
      intro a ha b hb
      refine hagree a ?_ b ?_
      · simp only [List.mem_append, mem_insertBy] at ha
        simp only [List.mem_append, List.mem_cons]
        tauto
      · simp only [List.mem_append, mem_insertBy] at hb
        simp only [List.mem_append, List.mem_cons]
        tauto)
    simp [sortLoop, sortBy, hins, hrest, bind, Except.bind]

theorem arraySort_eq_sortBy (cmp : α → α → Except ε Int) (lt : α → α → Bool)
    (xs : List α) (hagree : ∀ a ∈ xs, ∀ b ∈ xs, Agrees cmp lt a b) :
    arraySort cmp xs = .ok (sortBy lt [] xs) :=
  sortLoop_eq_sortBy cmp lt xs [] (by simpa using hagree)

theorem insertBy_perm (lt : α → α → Bool) (x : α) (acc : List α) :
    (insertBy lt x acc).Perm (x :: acc) := by
  induction acc with
  | nil => exact List.Perm.refl _
  | cons y ys ih =>
    unfold insertBy
    split
    · exact List.Perm.refl _
    · exact ((List.Perm.cons y ih).trans (List.Perm.swap x y ys))

theorem sortBy_perm (lt : α → α → Bool) (xs acc : List α) :
    (sortBy lt acc xs).Perm (acc ++ xs) := by
  induction xs generalizing acc with
  | nil => simp [sortBy]
  | cons x xs ih =>
    refine (ih (insertBy lt x acc)).trans ?_
    refine ((insertBy_perm lt x acc).append_right xs).trans ?_
    simpa using (@List.perm_middle _ x acc xs).symm

theorem insertBy_sorted (lt : α → α → Bool) (D : α → Prop) (hD : StrictWeakOn lt D)
    (x : α) (acc : List α) (hx : D x) (hacc : ∀ y ∈ acc, D y)
    (hs : SortedBy lt acc) : SortedBy lt (insertBy lt x acc) := by
  induction acc with
  | nil => simp [insertBy, SortedBy]
  | cons y ys ih =>
    have hy : D y := hacc y (List.mem_cons_self y ys)
    have hys : ∀ z ∈ ys, D z := fun z hz => hacc z (List.mem_cons_of_mem y hz)
    have hs1 : (∀ z ∈ ys, lt z y = false) ∧ SortedBy lt ys := by
      simpa [SortedBy, List.pairwise_cons] using hs
    unfold insertBy
    cases hl : lt x y with
    | true =>
      simp only [if_true, SortedBy, List.pairwise_cons]
      refine ⟨?_, ?_⟩
      · intro z hz
        have hyx : lt y x = false := hD.asymm x y hx hy hl
        rcases List.mem_cons.mp hz with rfl | hz1
        · exact hyx
        · exact hD.ntrans x y z hx hy (hys z hz1) hyx (hs1.1 z hz1)
      · exact List.pairwise_cons.mp hs
    | false =>
      simp only [Bool.false_eq_true, if_false, SortedBy, List.pairwise_cons]
      refine ⟨?_, ih hys hs1.2⟩
      intro z hz
      rcases (mem_insertBy lt x z ys).mp hz with rfl | hz1
      · exact hl
      · exact hs1.1 z hz1

theorem sortBy_sorted (lt : α → α → Bool) (D : α → Prop) (hD : StrictWeakOn lt D)
    (xs acc : List α) (hxs : ∀ y ∈ xs, D y) (hacc : ∀ y ∈ acc, D y)
    (hs : SortedBy lt acc) : SortedBy lt (sortBy lt acc xs) := by
  induction xs generalizing acc with
  | nil => simpa [sortBy] using hs
  | cons x xs ih =>
    have hx : D x := hxs x (List.mem_cons_self x xs)
    refine ih (insertBy lt x acc) (fun y hy => hxs y (List.mem_cons_of_mem x hy)) ?_
      (insertBy_sorted lt D hD x acc hx hacc hs)
    intro y hy
    rcases (mem_insertBy lt x y acc).mp hy with rfl | hy1
    · exact hx
    · exact hacc y hy1

theorem insertBy_filter (lt : α → α → Bool) (D : α → Prop) (hD : StrictWeakOn lt D)
    (p : α → Bool)
    (hp : ∀ z w, D z → D w → p z = true → p w = true → lt z w = false)
    (x : α) (acc : List α) (hx : D x) (hacc : ∀ y ∈ acc, D y)
    (hs : SortedBy lt acc) :
    (insertBy lt x acc).filter p = acc.filter p ++ [x].filter p := by
  induction acc with
  | nil => simp [insertBy]
  | cons y ys ih =>
    have hy : D y := hacc y (List.mem_cons_self y ys)
    have hys : ∀ z ∈ ys, D z := fun z hz => hacc z (List.mem_cons_of_mem y hz)
    have hs1 : (∀ z ∈ ys, lt z y = false) ∧ SortedBy lt ys := by
      simpa [SortedBy, List.pairwise_cons] using hs
    unfold insertBy
    cases hl : lt x y with
    | true =>
      simp only [if_true]
      cases hpx : p x with
      | false => simp [List.filter_cons, hpx]
      | true =>
        have hnone : ∀ z ∈ y :: ys, p z = false := by
          intro z hz
          have hDz : D z := hacc z hz
          have hzy : lt z y = false := by
            rcases List.mem_cons.mp hz with rfl | hz1
            · cases hzz : lt z z with
              | false => rfl
              | true => exact absurd hzz (by simp [hD.asymm z z hDz hDz hzz])
            · exact hs1.1 z hz1
          cases hpz : p z with
          | false => rfl
          | true =>
            have hxz : lt x z = false := hp x z hx hDz hpx hpz
            have := hD.ntrans y z x hy hDz hx hzy hxz
            simp [hl] at this
        have hnil : (y :: ys).filter p = [] := List.filter_eq_nil_iff.mpr (by
          intro z hz
          simp [hnone z hz])
        rw [List.filter_cons, hpx]
        simp [hnil, List.filter_cons, hpx]
    | false =>
      simp only [Bool.false_eq_true, if_false]
      rw [List.filter_cons, List.filter_cons, ih hys hs1.2]
      split <;> simp

theorem sortBy_filter (lt : α → α → Bool) (D : α → Prop) (hD : StrictWeakOn lt D)
    (p : α → Bool)
    (hp : ∀ z w, D z → D w → p z = true → p w = true → lt z w = false)
    (xs acc : List α) (hxs : ∀ y ∈ xs, D y) (hacc : ∀ y ∈ acc, D y)
    (hs : SortedBy lt acc) :
    (sortBy lt acc xs).filter p = (acc ++ xs).filter p := by
  induction xs generalizing acc with
  | nil => simp [sortBy]
  | cons x xs ih =>
    have hx : D x := hxs x (List.mem_cons_self x xs)
    have hmem : ∀ y ∈ insertBy lt x acc, D y := by
      intro y hy
      rcases (mem_insertBy lt x y acc).mp hy with rfl | hy1
      · exact hx
      · exact hacc y hy1
    have step := ih (insertBy lt x acc)
      (fun y hy => hxs y (List.mem_cons_of_mem x hy)) hmem
      (insertBy_sorted lt D hD x acc hx hacc hs)
    simp only [sortBy]
    rw [step, List.filter_append, insertBy_filter lt D hD p hp x acc hx hacc hs]
    cases hpx : p x <;> simp [List.filter_append, List.filter_cons, hpx]

end SortTheory

/-! ## Order facts of the JavaScript comparison -/

theorem strLt_irrefl (a : JSString) : strLt a a = false := by
  induction a with
  | nil => rfl
  | cons x xs ih => simp [strLt, ih]

theorem strLt_asymm (a b : JSString) (h : strLt a b = true) : strLt b a = false := by
  induction a generalizing b with
  | nil => cases b <;> simp_all [strLt]
  | cons x xs ih =>
    cases b with
    | nil => simp [strLt] at h
    | cons y ys =>
      simp only [strLt] at h ⊢
      by_cases hxy : x < y
      · have : ¬ y < x := by omega
        simp [this, hxy]
      · by_cases hyx : y < x
        · simp [hxy, hyx] at h
        · simp only [hxy, hyx, if_false] at h ⊢
          exact ih ys h

theorem strLt_ntrans (a b c : JSString) (hba : strLt b a = false)
    (hcb : strLt c b = false) : strLt c a = false := by
  induction a generalizing b c with
  | nil => cases c <;> simp [strLt]
  | cons x xs ih =>
    cases c with
    | nil =>
      cases b with
      | nil => simp [strLt] at hba
      | cons y ys => simp [strLt] at hcb
    | cons z zs =>
      cases b with
      | nil => simp [strLt] at hba
      | cons y ys =>
        simp only [strLt] at hba hcb ⊢
        by_cases hzx : z < x
        · exfalso
          by_cases hyx : y < x
          · simp [hyx] at hba
          · by_cases hzy : z < y
            · simp [hzy] at hcb
            · omega
        · by_cases hxz : x < z
          · simp [hzx, hxz]
          · simp only [hzx, hxz, if_false]
            have hxz2 : x = z := by omega
            subst hxz2
            by_cases hyx : y < x
            · simp [hyx] at hba
            · by_cases hxy : x < y
              · simp [hxy, hyx] at hcb
              · simp only [hyx, hxy, if_false] at hba hcb
                exact ih ys zs hba hcb

theorem numLt_asymm (a b : JSNum) (h : numLt a b = true) : numLt b a = false := by
  cases a <;> cases b <;> simp_all [numLt]
  exact le_of_lt h

theorem numLt_ntrans (a b c : JSNum) (ha : a ≠ .nan) (hb : b ≠ .nan) (hc : c ≠ .nan)
    (hba : numLt b a = false) (hcb : numLt c b = false) : numLt c a = false := by
  cases a <;> cases b <;> cases c <;> simp_all [numLt]
  exact le_trans hba hcb

theorem jsLt_asymm (h : Host) (x y : JSVal) (hxy : jsLt h x y = true) :
    jsLt h y x = false := by
  cases x <;> cases y <;> simp only [jsLt] at hxy ⊢ <;>
    first
      | exact strLt_asymm _ _ hxy
      | exact numLt_asymm _ _ hxy

theorem jsLt_irrefl (h : Host) (x : JSVal) : jsLt h x x = false := by
  cases hx : jsLt h x x with
  | false => rfl
  | true => simpa [hx] using jsLt_asymm h x x hx

theorem compareValues_neg_iff (h : Host) (dir : SortDirection) (x y : JSVal) :
    compareValues h dir x y < 0 ↔ orderedLt h dir x y = true := by
  cases dir with
  | asc =>
    cases hxy : jsLt h x y <;> cases hyx : jsLt h y x <;>
      simp [compareValues, orderedLt, hxy, hyx]
  | desc =>
    cases hxy : jsLt h x y with
    | true =>
      have hyx := jsLt_asymm h x y hxy
      simp [compareValues, orderedLt, hxy, hyx]
    | false =>
      cases hyx : jsLt h y x <;> simp [compareValues, orderedLt, hxy, hyx]

theorem coerceOperands_string (h : Host) (column : String) (a b : Item)
    (ha : StringKeyed h column a) (hb : StringKeyed h column b) :
    coerceOperands h column a b = .ok (finalKey h column a, finalKey h column b) := by
  unfold StringKeyed at ha hb
  unfold coerceOperands finalKey
  cases hva : coerceValue h column a <;> simp [hva, isString] at ha
  cases hvb : coerceValue h column b <;> simp [hvb, isString] at hb
  simp [isString, callToLowerCase, bind, Except.bind, pure, Except.pure]

theorem coerceOperands_number (h : Host) (column : String) (a b : Item)
    (ha : isString (coerceValue h column a) = false) :
    coerceOperands h column a b = .ok (coerceValue h column a, coerceValue h column b) := by
  unfold coerceOperands
  simp [ha, pure, Except.pure]

theorem finalKey_number (h : Host) (column : String) (a : Item)
    (ha : isString (coerceValue h column a) = false) :
    finalKey h column a = coerceValue h column a := by
  unfold finalKey
  cases hva : coerceValue h column a <;> simp [hva, isString] at ha ⊢

theorem compareFn_eq_string (h : Host) (column : String) (dir : SortDirection)
    (a b : Item) (ha : StringKeyed h column a) (hb : StringKeyed h column b) :
    compareFn h column dir a b
      = .ok (compareValues h dir (finalKey h column a) (finalKey h column b)) := by
  simp [compareFn, coerceOperands_string h column a b ha hb, bind, Except.bind, pure,
    Except.pure]

theorem compareFn_eq_number (h : Host) (column : String) (dir : SortDirection)
    (a b : Item) (ha : NumberKeyed h column a) (hb : NumberKeyed h column b) :
    compareFn h column dir a b
      = .ok (compareValues h dir (finalKey h column a) (finalKey h column b)) := by
  simp [compareFn, coerceOperands_number h column a b ha.1,
    finalKey_number h column a ha.1, finalKey_number h column b hb.1, bind, Except.bind,
    pure, Except.pure]

theorem compareFn_agrees_string (h : Host) (column : String) (dir : SortDirection)
    (a b : Item) (ha : StringKeyed h column a) (hb : StringKeyed h column b) :
    Agrees (compareFn h column dir) (itemLt h column dir) a b :=
  ⟨_, compareFn_eq_string h column dir a b ha hb, compareValues_neg_iff h dir _ _⟩

theorem compareFn_agrees_number (h : Host) (column : String) (dir : SortDirection)
    (a b : Item) (ha : NumberKeyed h column a) (hb : NumberKeyed h column b) :
    Agrees (compareFn h column dir) (itemLt h column dir) a b :=
  ⟨_, compareFn_eq_number h column dir a b ha hb, compareValues_neg_iff h dir _ _⟩

theorem compareValues_eq_zero (h : Host) (dir : SortDirection) (x y : JSVal)
    (hz : compareValues h dir x y = 0) :
    orderedLt h dir x y = false ∧ orderedLt h dir y x = false := by
  cases dir <;> cases hxy : jsLt h x y <;> cases hyx : jsLt h y x <;>
    simp [compareValues, orderedLt, hxy, hyx] at hz ⊢

theorem itemLt_asymm (h : Host) (column : String) (dir : SortDirection) (a b : Item)
    (hab : itemLt h column dir a b = true) : itemLt h column dir b a = false := by
  cases dir <;> exact jsLt_asymm h _ _ hab

theorem jsLt_ntrans_string (h : Host) (x y z : JSVal) (hx : isString x = true)
    (hy : isString y = true) (hz : isString z = true) (hyx : jsLt h y x = false)
    (hzy : jsLt h z y = false) : jsLt h z x = false := by
  cases x <;> simp [isString] at hx
  cases y <;> simp [isString] at hy
  cases z <;> simp [isString] at hz
  simp only [jsLt] at hyx hzy ⊢
  exact strLt_ntrans _ _ _ hyx hzy

theorem jsLt_number (h : Host) (x y : JSVal) (hx : isString x = false) :
    jsLt h x y = numLt (toNumber h x) (toNumber h y) := by
  cases x <;> simp [isString] at hx <;> cases y <;> rfl

theorem jsLt_ntrans_number (h : Host) (x y z : JSVal)
    (hx : isString x = false ∧ toNumber h x ≠ .nan)
    (hy : isString y = false ∧ toNumber h y ≠ .nan)
    (hz : isString z = false ∧ toNumber h z ≠ .nan) (hyx : jsLt h y x = false)
    (hzy : jsLt h z y = false) : jsLt h z x = false := by
  rw [jsLt_number h _ _ hy.1] at hyx
  rw [jsLt_number h _ _ hz.1] at hzy ⊢
  exact numLt_ntrans _ _ _ hx.2 hy.2 hz.2 hyx hzy

theorem finalKey_string (h : Host) (column : String) (a : Item)
    (ha : StringKeyed h column a) : isString (finalKey h column a) = true := by
  unfold StringKeyed at ha
  unfold finalKey
  cases hva : coerceValue h column a <;> simp [hva, isString] at ha ⊢

theorem strictWeak_string (h : Host) (column : String) (dir : SortDirection) :
    StrictWeakOn (itemLt h column dir) (StringKeyed h column) := by
  refine ⟨fun a b _ _ hab => itemLt_asymm h column dir a b hab, ?_⟩
  intro a b c ha hb hc hba hcb
  have ka := finalKey_string h column a ha
  have kb := finalKey_string h column b hb
  have kc := finalKey_string h column c hc
  cases dir with
  | asc => exact jsLt_ntrans_string h _ _ _ ka kb kc hba hcb
  | desc => exact jsLt_ntrans_string h _ _ _ kc kb ka hcb hba

theorem strictWeak_number (h : Host) (column : String) (dir : SortDirection) :
    StrictWeakOn (itemLt h column dir) (NumberKeyed h column) := by
  refine ⟨fun a b _ _ hab => itemLt_asymm h column dir a b hab, ?_⟩
  intro a b c ha hb hc hba hcb
  have ka : isString (finalKey h column a) = false ∧ toNumber h (finalKey h column a) ≠ .nan := by
    rw [finalKey_number h column a ha.1]; exact ha
  have kb : isString (finalKey h column b) = false ∧ toNumber h (finalKey h column b) ≠ .nan := by
    rw [finalKey_number h column b hb.1]; exact hb
  have kc : isString (finalKey h column c) = false ∧ toNumber h (finalKey h column c) ≠ .nan := by
    rw [finalKey_number h column c hc.1]; exact hc
  cases dir with
  | asc => exact jsLt_ntrans_number h _ _ _ ka kb kc hba hcb
  | desc => exact jsLt_ntrans_number h _ _ _ kc kb ka hcb hba

/-- On a collection whose coerced values are all strings, or all numbers other
than `NaN`, the comparator never throws and the sort is the pure insertion sort by
`itemLt`, on which `itemLt` is a strict weak order on a domain holding every item. -/
theorem sortedPolicies_consistent (h : Host) (column : String) (dir : SortDirection)
    (items : List Item) (hc : ConsistentColumn h column items) :
    sortedPolicies h column dir items = .ok (sortBy (itemLt h column dir) [] items) ∧
      ∃ D : Item → Prop, StrictWeakOn (itemLt h column dir) D ∧ (∀ a ∈ items, D a) ∧
        ∀ a b, D a → D b → compareFn h column dir a b
          = .ok (compareValues h dir (finalKey h column a) (finalKey h column b)) := by
  rcases hc with hs | hn
  · refine ⟨?_, StringKeyed h column, strictWeak_string h column dir, hs,
      fun a b ha hb => compareFn_eq_string h column dir a b ha hb⟩
    exact arraySort_eq_sortBy _ _ items
      (fun a ha b hb => compareFn_agrees_string h column dir a b (hs a ha) (hs b hb))
  · refine ⟨?_, NumberKeyed h column, strictWeak_number h column dir, hn,
      fun a b ha hb => compareFn_eq_number h column dir a b ha hb⟩
    exact arraySort_eq_sortBy _ _ items
      (fun a ha b hb => compareFn_agrees_number h column dir a b (hn a ha) (hn b hb))

theorem sortBy_nil_sorted (h : Host) (column : String) (dir : SortDirection)
    (items : List Item) (hc : ConsistentColumn h column items) :
    SortedBy (itemLt h column dir) (sortBy (itemLt h column dir) [] items) := by
  obtain ⟨_, D, hD, hall, _⟩ := sortedPolicies_consistent h column dir items hc
  exact sortBy_sorted _ D hD items [] hall (by simp) (by simp [SortedBy])

/-- What `sortPolicies` leaves behind once the sort is known to return. -/
theorem sortPolicies_of_ok (h : Host) (column : String) (s : State) (sorted : List Item)
    (hs : sortedPolicies h column (setSort column s).currentSortDirection s.allPolicies
      = .ok sorted) :
    sortPolicies h column s =
      { state := { setSort column s with policiesTableBody := sorted }, thrown := none } := by
  have hall : (setSort column s).allPolicies = s.allPolicies := by
    unfold setSort; split <;> rfl
  unfold sortPolicies
  simp only [hall, hs]

/-! ## Coerced values of string and date columns -/

theorem isDateColumn_false (column : String)
    (hcol : column ≠ "createdDateTime" ∧ column ≠ "modifiedDateTime") :
    isDateColumn column = false := by
  simp [isDateColumn, hcol.1, hcol.2]

theorem isDateColumn_true (column : String)
    (hcol : column = "createdDateTime" ∨ column = "modifiedDateTime") :
    isDateColumn column = true := by
  rcases hcol with rfl | rfl <;> decide

theorem coerceValue_string_column (h : Host) (column : String) (a : Item)
    (hcol : isDateColumn column = false)
    (hv : stringOrNullish (a.get column) = true) :
    StringKeyed h column a ∧ finalKey h column a = .str (lowerKey h column a) := by
  unfold StringKeyed finalKey lowerKey coerceValue coerceDate
  cases hva : a.get column <;>
    simp [hva, stringOrNullish, hcol, coerceNullish, isString] at hv ⊢

theorem coerceValue_date_column (h : Host) (column : String) (a : Item)
    (hcol : isDateColumn column = true)
    (hv : parseableDate h (a.get column) = true) :
    coerceValue h column a = .num (timestampKey h column a) ∧
      timestampKey h column a ≠ .nan := by
  unfold timestampKey coerceValue coerceDate
  cases hva : a.get column with
  | undefined => simp [hcol, coerceNullish, truthy]
  | null => simp [hcol, coerceNullish, truthy]
  | bool b => simp [hva, parseableDate] at hv
  | num n => simp [hva, parseableDate] at hv
  | str s =>
    cases hs : s.isEmpty with
    | true => simp [hcol, coerceNullish, truthy, hs]
    | false =>
      have hp : h.dateParse s ≠ .nan := by
        simpa [hva, parseableDate, hs] using hv
      simp [hcol, coerceNullish, truthy, hs, dateGetTime, hp]

theorem numberKeyed_date_column (h : Host) (column : String) (a : Item)
    (hcol : isDateColumn column = true)
    (hv : parseableDate h (a.get column) = true) : NumberKeyed h column a := by
  obtain ⟨hk, hn⟩ := coerceValue_date_column h column a hcol hv
  unfold NumberKeyed
  rw [hk]
  exact ⟨rfl, hn⟩

theorem numLe_of_not_numLt (a b : JSNum) (ha : a ≠ .nan) (hb : b ≠ .nan)
    (hba : numLt b a = false) : numLe a b = true := by
  cases a <;> cases b <;> simp_all [numLt, numLe]
  exact lt_or_eq_of_le hba

/-- On a consistent column `sortPolicies` does not throw and displays the pure
insertion sort of `allPolicies` for the direction it has set. -/
theorem sortPolicies_consistent (h : Host) (column : String) (s : State)
    (hc : ConsistentColumn h column s.allPolicies) :
    (sortPolicies h column s).thrown = none ∧
    (sortPolicies h column s).state.policiesTableBody =
      sortBy (itemLt h column (sortPolicies h column s).state.currentSortDirection) []
        s.allPolicies := by
  have hok := (sortedPolicies_consistent h column
    (setSort column s).currentSortDirection s.allPolicies hc).1
  rw [sortPolicies_of_ok h column s _ hok]
  exact ⟨rfl, rfl⟩

theorem sortBy_nil_perm (h : Host) (column : String) (dir : SortDirection)
    (items : List Item) : (sortBy (itemLt h column dir) [] items).Perm items := by
  simpa using sortBy_perm (itemLt h column dir) items []

/-- Apart from the rows of the table, the state `sortPolicies` leaves behind is
the one `setSort` produces. -/
theorem sortPolicies_frame (h : Host) (column : String) (s : State) :
    (sortPolicies h column s).state.currentSortColumn
      = (setSort column s).currentSortColumn ∧
    (sortPolicies h column s).state.currentSortDirection
      = (setSort column s).currentSortDirection ∧
    (sortPolicies h column s).state.allPolicies = (setSort column s).allPolicies ∧
    (sortPolicies h column s).state.selectedPolicyIds
      = (setSort column s).selectedPolicyIds := by
  simp only [sortPolicies]
  split <;> exact ⟨rfl, rfl, rfl, rfl⟩

/-- On a string column the displayed sequence is a rearrangement of `allPolicies`
ordered by the lower-cased value, in the direction set. -/
theorem sortPolicies_lowercase_order (h : Host) (column : String) (s : State)
    (hcol : column ≠ "createdDateTime" ∧ column ≠ "modifiedDateTime")
    (hvals : ∀ a ∈ s.allPolicies, stringOrNullish (a.get column) = true) :
    (sortPolicies h column s).thrown = none ∧
    (sortPolicies h column s).state.policiesTableBody.Perm s.allPolicies ∧
    ((sortPolicies h column s).state.currentSortDirection = .asc →
      (sortPolicies h column s).state.policiesTableBody.Pairwise
        (fun a b => strLt (lowerKey h column b) (lowerKey h column a) = false)) ∧
    ((sortPolicies h column s).state.currentSortDirection = .desc →
      (sortPolicies h column s).state.policiesTableBody.Pairwise
        (fun a b => strLt (lowerKey h column a) (lowerKey h column b) = false)) := by
  have hd := isDateColumn_false column hcol
  have hkey : ∀ a ∈ s.allPolicies,
      StringKeyed h column a ∧ finalKey h column a = .str (lowerKey h column a) :=
    fun a ha => coerceValue_string_column h column a hd (hvals a ha)
  have hc : ConsistentColumn h column s.allPolicies := Or.inl (fun a ha => (hkey a ha).1)
  obtain ⟨hthrown, hbody⟩ := sortPolicies_consistent h column s hc
  rw [hbody]
  generalize (sortPolicies h column s).state.currentSortDirection = dir
  have hsorted := sortBy_nil_sorted h column dir s.allPolicies hc
  have hperm := sortBy_nil_perm h column dir s.allPolicies
  refine ⟨hthrown, hperm, ?_, ?_⟩
  · intro hdir
    subst hdir
    refine List.Pairwise.imp_of_mem ?_ hsorted
    intro a b ha hb hab
    have ka := (hkey a (hperm.mem_iff.mp ha)).2
    have kb := (hkey b (hperm.mem_iff.mp hb)).2
    simpa [itemLt, orderedLt, ka, kb, jsLt] using hab
  · intro hdir
    subst hdir
    refine List.Pairwise.imp_of_mem ?_ hsorted
    intro a b ha hb hab
    have ka := (hkey a (hperm.mem_iff.mp ha)).2
    have kb := (hkey b (hperm.mem_iff.mp hb)).2
    simpa [itemLt, orderedLt, ka, kb, jsLt] using hab

/-! ## Claims on `sortPolicies` -/

/-- C1 (as amended): for every column other than `createdDateTime` and
`modifiedDateTime` and every collection whose values in that column are strings,
`null` or `undefined`, `sortPolicies` does not throw and displays a rearrangement of
`allPolicies` ordered by the lower-cased value (`null` and `undefined` taken as the
empty string): non-decreasing when the direction is ascending, non-increasing when
it is descending. -/
theorem sortPolicies_sorted_by_lowercase (h : Host) (column : String) (s : State)
    (hcol : column ≠ "createdDateTime" ∧ column ≠ "modifiedDateTime")
    (hvals : ∀ a ∈ s.allPolicies, stringOrNullish (a.get column) = true) :
    (sortPolicies h column s).thrown = none ∧
    (sortPolicies h column s).state.policiesTableBody.Perm s.allPolicies ∧
    ((sortPolicies h column s).state.currentSortDirection = .asc →
      (sortPolicies h column s).state.policiesTableBody.Pairwise
        (fun a b => strLt (lowerKey h column b) (lowerKey h column a) = false)) ∧
    ((sortPolicies h column s).state.currentSortDirection = .desc →
      (sortPolicies h column s).state.policiesTableBody.Pairwise
        (fun a b => strLt (lowerKey h column a) (lowerKey h column b) = false)) :=
  sortPolicies_lowercase_order h column s hcol hvals

/-- C1, witness: the policies named `"Banana"` and `"apple"` are displayed in
ascending order as `"apple"`, `"Banana"`. -/
theorem sortPolicies_sorted_by_lowercase_witness :
    (("displayName" : String) ≠ "createdDateTime" ∧
      ("displayName" : String) ≠ "modifiedDateTime") ∧
    (∀ a ∈ (stateOf bananaItems).allPolicies,
      stringOrNullish (a.get "displayName") = true) ∧
    (sortPolicies refHost "displayName" (stateOf bananaItems)).state.currentSortDirection
      = .asc ∧
    (sortPolicies refHost "displayName" (stateOf bananaItems)).state.policiesTableBody.Pairwise
      (fun a b => strLt (lowerKey refHost "displayName" b)
        (lowerKey refHost "displayName" a) = false) ∧
    column "displayName"
      (sortPolicies refHost "displayName" (stateOf bananaItems)).state.policiesTableBody
      = [.str (js "apple"), .str (js "Banana")] :=
  ⟨by decide, by decide, by decide,
    (sortPolicies_sorted_by_lowercase refHost "displayName" (stateOf bananaItems)
      (by decide) (by decide)).2.2.1 (by decide),
    by decide⟩

/-- C1, counterexample to the claim as stated: sorted ascending by
`createdDateTime`, a policy created on 1969-12-31 is displayed before a policy
without creation date, although the empty string is below `"1969-12-31"`. -/
theorem sortPolicies_lowercase_counterexample :
    (∀ a ∈ (stateOf epochItems).allPolicies,
      stringOrNullish (a.get "createdDateTime") = true) ∧
    (sortPolicies refHost "createdDateTime" (stateOf epochItems)).thrown = none ∧
    (sortPolicies refHost "createdDateTime" (stateOf epochItems)).state.currentSortDirection
      = .asc ∧
    column "id"
      (sortPolicies refHost "createdDateTime" (stateOf epochItems)).state.policiesTableBody
      = [.str (js "p2"), .str (js "p1")] ∧
    ¬ (sortPolicies refHost "createdDateTime" (stateOf epochItems)).state.policiesTableBody.Pairwise
      (fun a b => strLt (lowerKey refHost "createdDateTime" b)
        (lowerKey refHost "createdDateTime" a) = false) := by
  decide

/-- C2: whatever the prior state, if `column` is the current sort column the call
flips the direction and keeps the column; otherwise the column becomes `column` and
the direction ascending. The update is made before the sort, so it also holds when
the comparator throws. -/
theorem sortPolicies_updates_sort_state (h : Host) (column : String) (s : State) :
    (s.currentSortColumn = some column →
      (sortPolicies h column s).state.currentSortColumn = s.currentSortColumn ∧
      (s.currentSortDirection = .asc →
        (sortPolicies h column s).state.currentSortDirection = .desc) ∧
      (s.currentSortDirection = .desc →
        (sortPolicies h column s).state.currentSortDirection = .asc)) ∧
    (s.currentSortColumn ≠ some column →
      (sortPolicies h column s).state.currentSortColumn = some column ∧
      (sortPolicies h column s).state.currentSortDirection = .asc) := by
  have hst := sortPolicies_frame h column s
  rw [hst.1, hst.2.1]
  refine ⟨fun hsame => ?_, fun hdiff => ?_⟩
  · refine ⟨by simp [setSort, hsame], fun hasc => ?_, fun hdesc => ?_⟩
    · simp [setSort, hsame, hasc]
    · simp [setSort, hsame, hdesc]
  · exact ⟨by simp [setSort, hdiff], by simp [setSort, hdiff]⟩

/-- C2, witness: from the page-load state a first call on `displayName` sets the
column ascending, and a second call on the same column flips it to descending. -/
theorem sortPolicies_updates_sort_state_witness :
    State.initial.currentSortColumn ≠ some "displayName" ∧
    ((sortPolicies refHost "displayName" State.initial).state.currentSortColumn
        = some "displayName" ∧
      (sortPolicies refHost "displayName" State.initial).state.currentSortDirection
        = .asc) ∧
    (sortPolicies refHost "displayName"
      (sortPolicies refHost "displayName" State.initial).state).state.currentSortDirection
        = .desc :=
  ⟨by decide,
    (sortPolicies_updates_sort_state refHost "displayName" State.initial).2 (by decide),
    ((sortPolicies_updates_sort_state refHost "displayName"
      (sortPolicies refHost "displayName" State.initial).state).1 (by decide)).2.1
      (by decide)⟩

/-- C3, the code at the failing input: with a numeric `priority` on the first
policy and none on the second, sorting by `priority` calls `toLowerCase` on the
number and throws a `TypeError`, for every host; the table is left as it was. -/
theorem sortPolicies_throws_on_mixed_types (h : Host) :
    compareFn h "priority" .asc (mkItem [("id", .str (js "p2"))])
      (mkItem [("id", .str (js "p1")), ("priority", .num (.fin 5))])
      = .error .typeError ∧
    (sortPolicies h "priority" (stateOf mixedItems)).thrown = some .typeError ∧
    (sortPolicies h "priority" (stateOf mixedItems)).state.policiesTableBody
      = (stateOf mixedItems).policiesTableBody := by
  refine ⟨rfl, rfl, rfl⟩

/-- C6: `sortPolicies` leaves `allPolicies` (same items, same order) and
`selectedPolicyIds` as they were, for every state and column, whether or not the
comparator throws. -/
theorem sortPolicies_preserves_collection (h : Host) (column : String) (s : State) :
    (sortPolicies h column s).state.allPolicies = s.allPolicies ∧
    (sortPolicies h column s).state.selectedPolicyIds = s.selectedPolicyIds := by
  have hset : (setSort column s).allPolicies = s.allPolicies ∧
      (setSort column s).selectedPolicyIds = s.selectedPolicyIds := by
    unfold setSort
    split <;> exact ⟨rfl, rfl⟩
  have hst := sortPolicies_frame h column s
  rw [hst.2.2.1, hst.2.2.2]
  exact hset

/-- C7: whenever the coercion of the two operands is defined (does not throw), the
comparator returns a number in both directions, the descending result is the
negation of the ascending one, and it is 0 in both directions when the two coerced
values are equal. -/
theorem compareFn_direction_flips_sign (h : Host) (column : String) (a b : Item)
    (x y : JSVal) (hdef : coerceOperands h column a b = .ok (x, y)) :
    ∃ r : Int, compareFn h column .asc a b = .ok r ∧
      compareFn h column .desc a b = .ok (-r) ∧
      (x = y → r = 0 ∧ -r = 0) := by
  refine ⟨compareValues h .asc x y, ?_, ?_, ?_⟩
  · simp [compareFn, hdef, bind, Except.bind, pure, Except.pure]
  · have hneg : compareValues h .desc x y = -compareValues h .asc x y := by
      cases hxy : jsLt h x y <;> cases hyx : jsLt h y x <;>
        simp [compareValues, hxy, hyx]
    simp [compareFn, hdef, bind, Except.bind, pure, Except.pure, hneg]
  · intro hxy
    subst hxy
    simp [compareValues, jsLt_irrefl]

/-- C7, witness: `"Banana"` against `"apple"` is 1 ascending and -1 descending. -/
theorem compareFn_direction_flips_sign_witness :
    coerceOperands refHost "displayName" (mkItem [("displayName", .str (js "Banana"))])
      (mkItem [("displayName", .str (js "apple"))])
      = .ok (.str (js "banana"), .str (js "apple")) ∧
    compareFn refHost "displayName" .asc (mkItem [("displayName", .str (js "Banana"))])
      (mkItem [("displayName", .str (js "apple"))]) = .ok 1 ∧
    compareFn refHost "displayName" .desc (mkItem [("displayName", .str (js "Banana"))])
      (mkItem [("displayName", .str (js "apple"))]) = .ok (-1) ∧
    ∃ r : Int, compareFn refHost "displayName" .asc
        (mkItem [("displayName", .str (js "Banana"))])
        (mkItem [("displayName", .str (js "apple"))]) = .ok r ∧
      compareFn refHost "displayName" .desc
        (mkItem [("displayName", .str (js "Banana"))])
        (mkItem [("displayName", .str (js "apple"))]) = .ok (-r) ∧
      ((JSVal.str (js "banana")) = .str (js "apple") → r = 0 ∧ -r = 0) :=
  ⟨rfl, rfl, rfl,
    compareFn_direction_flips_sign refHost "displayName"
      (mkItem [("displayName", .str (js "Banana"))])
      (mkItem [("displayName", .str (js "apple"))])
      (.str (js "banana")) (.str (js "apple")) rfl⟩

/-- C4 (as amended): in an ascending sort by a column other than `createdDateTime`
and `modifiedDateTime` whose values are all strings, `null` or `undefined`, no item
with a non-empty string value is displayed before an item whose value is `null` or
`undefined`. The host is only asked that `toLowerCase` keeps the empty string empty
and a non-empty string non-empty. -/
theorem sortPolicies_nullish_first_among_strings (h : Host) (column : String)
    (s : State) (hcol : column ≠ "createdDateTime" ∧ column ≠ "modifiedDateTime")
    (hvals : ∀ a ∈ s.allPolicies, stringOrNullish (a.get column) = true)
    (hempty : h.toLowerCase [] = [])
    (hnonempty : ∀ t : JSString, t ≠ [] → h.toLowerCase t ≠ [])
    (hasc : (sortPolicies h column s).state.currentSortDirection = .asc) :
    (sortPolicies h column s).thrown = none ∧
    (sortPolicies h column s).state.policiesTableBody.Perm s.allPolicies ∧
    (sortPolicies h column s).state.policiesTableBody.Pairwise
      (fun a b => ¬ (nonEmptyValue (a.get column) = true ∧
        nullish (b.get column) = true)) := by
  obtain ⟨hthrown, hperm, hsorted, _⟩ :=
    sortPolicies_lowercase_order h column s hcol hvals
  refine ⟨hthrown, hperm, ?_⟩
  refine List.Pairwise.imp_of_mem ?_ (hsorted hasc)
  intro a b hma _ hab hcontra
  obtain ⟨ha, hb⟩ := hcontra
  have hsa := hvals a (hperm.mem_iff.mp hma)
  have kb : lowerKey h column b = [] := by
    unfold lowerKey
    cases hvb : b.get column <;> simp [hvb, nullish] at hb ⊢ <;> exact hempty
  have ka : lowerKey h column a ≠ [] := by
    unfold lowerKey
    cases hva : a.get column with
    | str t =>
      have ht : t ≠ [] := by
        intro ht
        simp [hva, nonEmptyValue, ht] at ha
      simpa using hnonempty t ht
    | undefined => simp [hva, nonEmptyValue] at ha
    | null => simp [hva, nonEmptyValue] at ha
    | bool v => simp [hva, stringOrNullish] at hsa
    | num n => simp [hva, stringOrNullish] at hsa
  rw [kb] at hab
  cases hk : lowerKey h column a with
  | nil => exact ka hk
  | cons u us => simp [hk, strLt] at hab

/-- C4, witness: sorted ascending by `displayName`, a policy without name comes
before the named ones. -/
theorem sortPolicies_nullish_first_among_strings_witness :
    (("displayName" : String) ≠ "createdDateTime" ∧
      ("displayName" : String) ≠ "modifiedDateTime") ∧
    (∀ a ∈ (stateOf unnamedItems).allPolicies,
      stringOrNullish (a.get "displayName") = true) ∧
    column "id"
      (sortPolicies refHost "displayName" (stateOf unnamedItems)).state.policiesTableBody
      = [.str (js "p2"), .str (js "p3"), .str (js "p1")] ∧
    (sortPolicies refHost "displayName" (stateOf unnamedItems)).state.policiesTableBody.Pairwise
      (fun a b => ¬ (nonEmptyValue (a.get "displayName") = true ∧
        nullish (b.get "displayName") = true)) :=
  ⟨by decide, by decide, by decide,
    (sortPolicies_nullish_first_among_strings refHost "displayName" (stateOf unnamedItems)
      (by decide) (by decide) (by decide)
      (by
        intro t ht
        cases t with
        | nil => exact absurd rfl ht
        | cons u us => simp [refHost, asciiToLowerCase])
      (by decide)).2.2⟩

/-- C4, counterexample to the claim as stated: sorted ascending by `priority`, the
policy whose `priority` is -3 is displayed before the policy whose `priority` is
`null`, since -3 is below the number 0 the empty string converts to. -/
theorem sortPolicies_nullish_first_counterexample :
    (sortPolicies refHost "priority" (stateOf negativeItems)).thrown = none ∧
    (sortPolicies refHost "priority" (stateOf negativeItems)).state.currentSortDirection
      = .asc ∧
    column "priority"
      (sortPolicies refHost "priority" (stateOf negativeItems)).state.policiesTableBody
      = [.num (.fin (-3)), .null] ∧
    ¬ (sortPolicies refHost "priority" (stateOf negativeItems)).state.policiesTableBody.Pairwise
      (fun a b => ¬ (nonEmptyValue (a.get "priority") = true ∧
        nullish (b.get "priority") = true)) := by
  decide

/-- C5: when the column is `createdDateTime` or `modifiedDateTime` and every value
is missing, `null`, empty or a date string the host parses, an ascending
`sortPolicies` does not throw and displays a rearrangement of `allPolicies` that is
non-decreasing in the timestamp of the value, a missing, `null` or empty value
counting as timestamp 0. -/
theorem sortPolicies_sorted_by_timestamp (h : Host) (column : String) (s : State)
    (hcol : column = "createdDateTime" ∨ column = "modifiedDateTime")
    (hvals : ∀ a ∈ s.allPolicies, parseableDate h (a.get column) = true)
    (hasc : (sortPolicies h column s).state.currentSortDirection = .asc) :
    (sortPolicies h column s).thrown = none ∧
    (sortPolicies h column s).state.policiesTableBody.Perm s.allPolicies ∧
    (sortPolicies h column s).state.policiesTableBody.Pairwise
      (fun a b => numLe (timestampKey h column a) (timestampKey h column b) = true) := by
  have hd := isDateColumn_true column hcol
  have hc : ConsistentColumn h column s.allPolicies :=
    Or.inr (fun a ha => numberKeyed_date_column h column a hd (hvals a ha))
  obtain ⟨hthrown, hbody⟩ := sortPolicies_consistent h column s hc
  rw [hbody, hasc]
  have hsorted := sortBy_nil_sorted h column .asc s.allPolicies hc
  have hperm := sortBy_nil_perm h column .asc s.allPolicies
  refine ⟨hthrown, hperm, ?_⟩
  refine List.Pairwise.imp_of_mem ?_ hsorted
  intro a b ha hb hab
  obtain ⟨ka, na⟩ := coerceValue_date_column h column a hd
    (hvals a (hperm.mem_iff.mp ha))
  obtain ⟨kb, nb⟩ := coerceValue_date_column h column b hd
    (hvals b (hperm.mem_iff.mp hb))
  have fa : finalKey h column a = .num (timestampKey h column a) := by
    rw [finalKey_number h column a (by rw [ka]; rfl), ka]
  have fb : finalKey h column b = .num (timestampKey h column b) := by
    rw [finalKey_number h column b (by rw [kb]; rfl), kb]
  have hlt : numLt (timestampKey h column b) (timestampKey h column a) = false := by
    simpa [itemLt, orderedLt, fa, fb, jsLt, toNumber] using hab
  exact numLe_of_not_numLt _ _ na nb hlt

/-- C5, witness: the policies 1, 2, 3 modified on 2023-01-01, never and 2022-01-01
are displayed, sorted ascending by `modifiedDateTime`, in the id order 2, 3, 1. -/
theorem sortPolicies_sorted_by_timestamp_witness :
    (∀ a ∈ (stateOf modifiedItems).allPolicies,
      parseableDate refHost (a.get "modifiedDateTime") = true) ∧
    (sortPolicies refHost "modifiedDateTime" (stateOf modifiedItems)).state.currentSortDirection
      = .asc ∧
    column "id"
      (sortPolicies refHost "modifiedDateTime" (stateOf modifiedItems)).state.policiesTableBody
      = [.num (.fin 2), .num (.fin 3), .num (.fin 1)] ∧
    (sortPolicies refHost "modifiedDateTime" (stateOf modifiedItems)).state.policiesTableBody.map
      (timestampKey refHost "modifiedDateTime")
      = [.fin 0, .fin 1640995200000, .fin 1672531200000] ∧
    (sortPolicies refHost "modifiedDateTime" (stateOf modifiedItems)).state.policiesTableBody.Pairwise
      (fun a b => numLe (timestampKey refHost "modifiedDateTime" a)
        (timestampKey refHost "modifiedDateTime" b) = true) :=
  ⟨by decide, by decide, by decide, by decide,
    (sortPolicies_sorted_by_timestamp refHost "modifiedDateTime" (stateOf modifiedItems)
      (Or.inr rfl) (by decide) (by decide)).2.2⟩

/-- C8 (as amended): on every collection and column on which the comparator is a
consistent comparison (the coerced values are all strings, or all numbers or
booleans none of which is `NaN`), in the direction set by the call, `sortPolicies`
does not throw and any two items `a`, `b` the comparator returns 0 on appear in the
displayed sequence in the same relative order as in `allPolicies`. -/
theorem sortPolicies_stable_on_ties (h : Host) (column : String) (s : State)
    (a b : Item) (hc : ConsistentColumn h column s.allPolicies)
    (htie : compareFn h column (sortPolicies h column s).state.currentSortDirection a b
      = .ok 0) :
    (sortPolicies h column s).thrown = none ∧
    (sortPolicies h column s).state.policiesTableBody.filter
        (fun z => decide (z = a ∨ z = b))
      = s.allPolicies.filter (fun z => decide (z = a ∨ z = b)) := by
  obtain ⟨hthrown, hbody⟩ := sortPolicies_consistent h column s hc
  refine ⟨hthrown, ?_⟩
  rw [hbody]
  generalize (sortPolicies h column s).state.currentSortDirection = dir at htie ⊢
  obtain ⟨_, D, hD, hall, heq⟩ := sortedPolicies_consistent h column dir s.allPolicies hc
  have hirr : ∀ z, D z → itemLt h column dir z z = false := by
    intro z hz
    cases hzz : itemLt h column dir z z with
    | false => rfl
    | true => simpa [hzz] using hD.asymm z z hz hz hzz
  have hab : D a → D b →
      itemLt h column dir a b = false ∧ itemLt h column dir b a = false := by
    intro ha hb
    rw [heq a b ha hb] at htie
    exact compareValues_eq_zero h dir _ _ (by simpa using htie)
  have hfilter := sortBy_filter (itemLt h column dir) D hD
    (fun z => decide (z = a ∨ z = b))
    (by
      intro z w hz hw pz pw
      simp only [decide_eq_true_eq] at pz pw
      rcases pz with rfl | rfl <;> rcases pw with rfl | rfl
      · exact hirr _ hz
      · exact (hab hz hw).1
      · exact (hab hw hz).2
      · exact hirr _ hz)
    s.allPolicies [] hall (by simp) (by simp [SortedBy])
  simpa using hfilter

/-- C8, witness: sorted ascending by `displayName`, the policies `"MFA"` and
`"mfa"` tie and stay in their `allPolicies` order, after `"Block"`. -/
theorem sortPolicies_stable_on_ties_witness :
    ConsistentColumn refHost "displayName" (stateOf tiedItems).allPolicies ∧
    compareFn refHost "displayName" .asc
      (mkItem [("id", .str (js "p1")), ("displayName", .str (js "MFA"))])
      (mkItem [("id", .str (js "p3")), ("displayName", .str (js "mfa"))]) = .ok 0 ∧
    column "id"
      (sortPolicies refHost "displayName" (stateOf tiedItems)).state.policiesTableBody
      = [.str (js "p2"), .str (js "p1"), .str (js "p3")] ∧
    (sortPolicies refHost "displayName" (stateOf tiedItems)).state.policiesTableBody.filter
        (fun z => decide
          (z = mkItem [("id", .str (js "p1")), ("displayName", .str (js "MFA"))] ∨
           z = mkItem [("id", .str (js "p3")), ("displayName", .str (js "mfa"))]))
      = (stateOf tiedItems).allPolicies.filter
        (fun z => decide
          (z = mkItem [("id", .str (js "p1")), ("displayName", .str (js "MFA"))] ∨
           z = mkItem [("id", .str (js "p3")), ("displayName", .str (js "mfa"))])) :=
  ⟨by decide, rfl, by decide,
    (sortPolicies_stable_on_ties refHost "displayName" (stateOf tiedItems)
      (mkItem [("id", .str (js "p1")), ("displayName", .str (js "MFA"))])
      (mkItem [("id", .str (js "p3")), ("displayName", .str (js "mfa"))])
      (by decide) rfl).2⟩

/-- C8, counterexample to the claim as stated: sorted ascending by
`modifiedDateTime`, the policy `p3` whose date is no date and the policy `p4`
compare equal in both orders (a comparison with `NaN` is false), `p3` comes before
`p4` in `allPolicies`, and `p4` is displayed before `p3`. -/
theorem sortPolicies_stable_counterexample :
    compareFn refHost "modifiedDateTime" .asc
      (mkItem [("id", .str (js "p3")), ("modifiedDateTime", .str (js "unknown"))])
      (mkItem [("id", .str (js "p4")), ("modifiedDateTime", .str (js "2023-01-01"))])
      = .ok 0 ∧
    compareFn refHost "modifiedDateTime" .asc
      (mkItem [("id", .str (js "p4")), ("modifiedDateTime", .str (js "2023-01-01"))])
      (mkItem [("id", .str (js "p3")), ("modifiedDateTime", .str (js "unknown"))])
      = .ok 0 ∧
    column "id" (stateOf unparseableItems).allPolicies
      = [.str (js "p1"), .str (js "p2"), .str (js "p3"), .str (js "p4")] ∧
    (sortPolicies refHost "modifiedDateTime" (stateOf unparseableItems)).thrown = none ∧
    (sortPolicies refHost "modifiedDateTime" (stateOf unparseableItems)).state.currentSortDirection
      = .asc ∧
    column "id"
      (sortPolicies refHost "modifiedDateTime" (stateOf unparseableItems)).state.policiesTableBody
      = [.str (js "p4"), .str (js "p2"), .str (js "p1"), .str (js "p3")] ∧
    (sortPolicies refHost "modifiedDateTime" (stateOf unparseableItems)).state.policiesTableBody.filter
        (fun z => decide
          (z = mkItem [("id", .str (js "p3")), ("modifiedDateTime", .str (js "unknown"))] ∨
           z = mkItem [("id", .str (js "p4")),
             ("modifiedDateTime", .str (js "2023-01-01"))]))
      ≠ (stateOf unparseableItems).allPolicies.filter
        (fun z => decide
          (z = mkItem [("id", .str (js "p3")), ("modifiedDateTime", .str (js "unknown"))] ∨
           z = mkItem [("id", .str (js "p4")),
             ("modifiedDateTime", .str (js "2023-01-01"))])) :=
  ⟨rfl, rfl, by decide, by decide, by decide, by decide, by decide⟩

/-- C9: two runs of `sortPolicies` on the same column from states with the same
`allPolicies` that end in the same direction behave alike, whatever their selection
sets, their tables and their earlier sort states: either both throw the same
exception, or neither throws and both display the same ordered sequence. -/
theorem sortPolicies_deterministic (h : Host) (column : String) (s₁ s₂ : State)
    (hitems : s₁.allPolicies = s₂.allPolicies)
    (hdir : (sortPolicies h column s₁).state.currentSortDirection
      = (sortPolicies h column s₂).state.currentSortDirection) :
    (sortPolicies h column s₁).thrown = (sortPolicies h column s₂).thrown ∧
    ((sortPolicies h column s₁).thrown = none →
      (sortPolicies h column s₁).state.policiesTableBody
        = (sortPolicies h column s₂).state.policiesTableBody) := by
  have h1 := (sortPolicies_frame h column s₁).2.1
  have h2 := (sortPolicies_frame h column s₂).2.1
  have hd : (setSort column s₁).currentSortDirection
      = (setSort column s₂).currentSortDirection := by
    rw [← h1, ← h2]; exact hdir
  have ha1 : (setSort column s₁).allPolicies = s₁.allPolicies := by
    unfold setSort; split <;> rfl
  have ha2 : (setSort column s₂).allPolicies = s₂.allPolicies := by
    unfold setSort; split <;> rfl
  simp only [sortPolicies, ha1, ha2, hd, hitems]
  cases sortedPolicies h column (setSort column s₂).currentSortDirection s₂.allPolicies with
  | ok sorted => exact ⟨rfl, fun _ => rfl⟩
  | error e => exact ⟨rfl, fun hn => by simp at hn⟩

/-- C9, witness: the policies `"Banana"`, `"apple"` sorted by `displayName` once
from the page-load state and once from a state with a selection, a filled table
and the column already sorted descending: both runs end ascending and display
`"apple"`, `"Banana"`. -/
theorem sortPolicies_deterministic_witness :
    (sortPolicies refHost "displayName" (stateOf bananaItems)).state.currentSortDirection
      = (sortPolicies refHost "displayName"
        { selectedPolicyIds := [.str (js "p1")], allPolicies := bananaItems,
          currentSortColumn := some "displayName", currentSortDirection := .desc,
          policiesTableBody := tiedItems }).state.currentSortDirection ∧
    (sortPolicies refHost "displayName" (stateOf bananaItems)).thrown = none ∧
    (sortPolicies refHost "displayName" (stateOf bananaItems)).state.policiesTableBody
      = (sortPolicies refHost "displayName"
        { selectedPolicyIds := [.str (js "p1")], allPolicies := bananaItems,
          currentSortColumn := some "displayName", currentSortDirection := .desc,
          policiesTableBody := tiedItems }).state.policiesTableBody :=
  ⟨by decide, by decide,
    (sortPolicies_deterministic refHost "displayName" (stateOf bananaItems)
      { selectedPolicyIds := [.str (js "p1")], allPolicies := bananaItems,
        currentSortColumn := some "displayName", currentSortDirection := .desc,
        policiesTableBody := tiedItems } rfl (by decide)).2 (by decide)⟩

/-- C10: from any state whose current column is not `c` (the page-load state
included), three consecutive calls `sortPolicies(c)` leave the direction ascending,
then descending, then ascending, and the column equal to `c` after each. -/
theorem sortPolicies_three_calls (h : Host) (c : String) (s : State)
    (hc : s.currentSortColumn ≠ some c) :
    ((sortPolicies h c s).state.currentSortColumn = some c ∧
      (sortPolicies h c s).state.currentSortDirection = .asc) ∧
    ((sortPolicies h c (sortPolicies h c s).state).state.currentSortColumn = some c ∧
      (sortPolicies h c (sortPolicies h c s).state).state.currentSortDirection = .desc) ∧
    ((sortPolicies h c (sortPolicies h c (sortPolicies h c s).state).state).state.currentSortColumn
        = some c ∧
      (sortPolicies h c (sortPolicies h c (sortPolicies h c s).state).state).state.currentSortDirection
        = .asc) := by
  have f1 := sortPolicies_frame h c s
  have f2 := sortPolicies_frame h c (sortPolicies h c s).state
  have f3 := sortPolicies_frame h c (sortPolicies h c (sortPolicies h c s).state).state
  have c1 : (sortPolicies h c s).state.currentSortColumn = some c := by
    rw [f1.1]; simp [setSort, hc]
  have d1 : (sortPolicies h c s).state.currentSortDirection = .asc := by
    rw [f1.2.1]; simp [setSort, hc]
  have c2 : (sortPolicies h c (sortPolicies h c s).state).state.currentSortColumn
      = some c := by
    rw [f2.1]; simp [setSort, c1]
  have d2 : (sortPolicies h c (sortPolicies h c s).state).state.currentSortDirection
      = .desc := by
    rw [f2.2.1]; simp [setSort, c1, d1]
  have c3 : (sortPolicies h c
      (sortPolicies h c (sortPolicies h c s).state).state).state.currentSortColumn
      = some c := by
    rw [f3.1]; simp [setSort, c2]
  have d3 : (sortPolicies h c
      (sortPolicies h c (sortPolicies h c s).state).state).state.currentSortDirection
      = .asc := by
    rw [f3.2.1]; simp [setSort, c2, d2]
  exact ⟨⟨c1, d1⟩, ⟨c2, d2⟩, ⟨c3, d3⟩⟩

/-- C10, witness: three calls on `displayName` from the page-load state. -/
theorem sortPolicies_three_calls_witness :
    State.initial.currentSortColumn ≠ some "displayName" ∧
    (sortPolicies refHost "displayName" State.initial).state.currentSortDirection = .asc ∧
    (sortPolicies refHost "displayName"
      (sortPolicies refHost "displayName" State.initial).state).state.currentSortDirection
      = .desc ∧
    (sortPolicies refHost "displayName"
      (sortPolicies refHost "displayName"
        (sortPolicies refHost "displayName" State.initial).state).state).state.currentSortDirection
      = .asc :=
  ⟨by decide,
    (sortPolicies_three_calls refHost "displayName" State.initial (by decide)).1.2,
    (sortPolicies_three_calls refHost "displayName" State.initial (by decide)).2.1.2,
    (sortPolicies_three_calls refHost "displayName" State.initial (by decide)).2.2.2⟩

/-! ## Double-precision rounding is monotone -/

theorem floor_le_roundHalfEven (x : ℚ) : ⌊x⌋ ≤ roundHalfEven x := by
  unfold roundHalfEven
  split_ifs <;> omega

theorem roundHalfEven_le_floor_succ (x : ℚ) : roundHalfEven x ≤ ⌊x⌋ + 1 := by
  unfold roundHalfEven
  split_ifs <;> omega

theorem roundHalfEven_intCast (n : ℤ) : roundHalfEven (n : ℚ) = n := by
  unfold roundHalfEven
  simp

theorem roundHalfEven_near (x : ℚ) (m : ℤ) (h : |x - m| < 1 / 2) : roundHalfEven x = m := by
  rw [abs_lt] at h
  unfold roundHalfEven
  by_cases hm : (m : ℚ) ≤ x
  · have hf : ⌊x⌋ = m := Int.floor_eq_iff.mpr ⟨hm, by linarith⟩
    rw [hf]
    have hlt : x - (m : ℚ) < 1 / 2 := by linarith
    rw [if_pos hlt]
  · have hf : ⌊x⌋ = m - 1 := Int.floor_eq_iff.mpr ⟨by push_cast; linarith, by push_cast; linarith⟩
    rw [hf]
    have h1 : ¬ (x - ((m - 1 : ℤ) : ℚ) < 1 / 2) := by push_cast; linarith
    have h2 : 1 / 2 < x - ((m - 1 : ℤ) : ℚ) := by push_cast; linarith
    rw [if_neg h1, if_pos h2]
    omega

theorem roundHalfEven_mono {x y : ℚ} (h : x ≤ y) : roundHalfEven x ≤ roundHalfEven y := by
  have hfl : ⌊x⌋ ≤ ⌊y⌋ := Int.floor_mono h
  rcases lt_or_eq_of_le hfl with hlt | heq
  · calc roundHalfEven x ≤ ⌊x⌋ + 1 := roundHalfEven_le_floor_succ x
      _ ≤ ⌊y⌋ := hlt
      _ ≤ roundHalfEven y := floor_le_roundHalfEven y
  · unfold roundHalfEven
    rw [heq]
    have hxy : x - (⌊y⌋ : ℚ) ≤ y - (⌊y⌋ : ℚ) := by linarith
    split_ifs <;> first | omega | (exfalso; linarith)

theorem ulp_pos (q : ℚ) : 0 < ulp q := by
  unfold ulp
  positivity

theorem binade_mono {q r : ℚ} (hq : 0 < q) (h : q ≤ r) : binade q ≤ binade r := by
  unfold binade
  exact max_le_max (Int.log_mono_right hq h) le_rfl

theorem lt_zpow_binade_succ (q : ℚ) : q < (2 : ℚ) ^ (binade q + 1) := by
  have h1 : q < ((2 : ℕ) : ℚ) ^ (Int.log 2 q + 1) := Int.lt_zpow_succ_log_self (by norm_num) q
  have h2 : ((2 : ℕ) : ℚ) ^ (Int.log 2 q + 1) ≤ (2 : ℚ) ^ (binade q + 1) := by
    push_cast
    apply zpow_le_zpow_right₀ (by norm_num)
    unfold binade
    have := le_max_left (Int.log 2 q) (-1022)
    omega
  exact lt_of_lt_of_le h1 h2

theorem zpow_binade_le {q : ℚ} (hq : 0 < q) (hb : -1022 < binade q) :
    (2 : ℚ) ^ binade q ≤ q := by
  have hlog : binade q = Int.log 2 q := by
    unfold binade at hb ⊢
    rcases max_cases (Int.log 2 q) (-1022) with ⟨h, _⟩ | ⟨h, _⟩
    · exact h
    · rw [h] at hb; omega
  rw [hlog]
  have := Int.zpow_log_le_self (b := 2) (by norm_num) hq
  simpa using this

theorem roundDouble_nonneg {q : ℚ} (hq : 0 ≤ q) : 0 ≤ roundDouble q := by
  unfold roundDouble
  have hu := ulp_pos q
  have h0 : (0 : ℤ) ≤ roundHalfEven (q / ulp q) := by
    have : (0 : ℤ) ≤ ⌊q / ulp q⌋ := Int.floor_nonneg.mpr (div_nonneg hq hu.le)
    exact le_trans this (floor_le_roundHalfEven _)
  have : (0 : ℚ) ≤ (roundHalfEven (q / ulp q) : ℚ) := by exact_mod_cast h0
  positivity

theorem roundDouble_zero : roundDouble 0 = 0 := by
  unfold roundDouble
  simp [roundHalfEven]

theorem zpow_succ_split (e : ℤ) :
    (2 : ℚ) ^ (e + 1) = (((2 : ℤ) ^ 53 : ℤ) : ℚ) * (2 : ℚ) ^ (e - 52) := by
  have h53 : (((2 : ℤ) ^ 53 : ℤ) : ℚ) = (2 : ℚ) ^ (53 : ℤ) := by norm_num
  rw [h53, ← zpow_add₀ (by norm_num : (2 : ℚ) ≠ 0)]
  congr 1
  omega

theorem zpow_split (e : ℤ) :
    (2 : ℚ) ^ e = (((2 : ℤ) ^ 52 : ℤ) : ℚ) * (2 : ℚ) ^ (e - 52) := by
  have h52 : (((2 : ℤ) ^ 52 : ℤ) : ℚ) = (2 : ℚ) ^ (52 : ℤ) := by norm_num
  rw [h52, ← zpow_add₀ (by norm_num : (2 : ℚ) ≠ 0)]
  congr 1
  omega

theorem roundDouble_le_zpow (q : ℚ) : roundDouble q ≤ (2 : ℚ) ^ (binade q + 1) := by
  unfold roundDouble
  have hu := ulp_pos q
  have hlt := lt_zpow_binade_succ q
  have hdiv : q / ulp q ≤ (((2 : ℤ) ^ 53 : ℤ) : ℚ) := by
    rw [div_le_iff₀ hu]
    unfold ulp
    rw [← zpow_succ_split]
    exact hlt.le
  have hr : roundHalfEven (q / ulp q) ≤ (2 : ℤ) ^ 53 := by
    have := roundHalfEven_mono hdiv
    rwa [roundHalfEven_intCast] at this
  have hr' : (roundHalfEven (q / ulp q) : ℚ) ≤ (((2 : ℤ) ^ 53 : ℤ) : ℚ) := Int.cast_le.mpr hr
  calc (roundHalfEven (q / ulp q) : ℚ) * ulp q ≤ (((2 : ℤ) ^ 53 : ℤ) : ℚ) * ulp q :=
        mul_le_mul_of_nonneg_right hr' hu.le
    _ = (2 : ℚ) ^ (binade q + 1) := by
        unfold ulp
        rw [← zpow_succ_split]

theorem zpow_le_roundDouble {q : ℚ} (hq : 0 < q) (hb : -1022 < binade q) :
    (2 : ℚ) ^ binade q ≤ roundDouble q := by
  unfold roundDouble
  have hu := ulp_pos q
  have hle := zpow_binade_le hq hb
  have hdiv : (((2 : ℤ) ^ 52 : ℤ) : ℚ) ≤ q / ulp q := by
    rw [le_div_iff₀ hu]
    unfold ulp
    rw [← zpow_split]
    exact hle
  have hr : (2 : ℤ) ^ 52 ≤ roundHalfEven (q / ulp q) := by
    have := roundHalfEven_mono hdiv
    rwa [roundHalfEven_intCast] at this
  have hr' : (((2 : ℤ) ^ 52 : ℤ) : ℚ) ≤ (roundHalfEven (q / ulp q) : ℚ) := Int.cast_le.mpr hr
  calc (2 : ℚ) ^ binade q = (((2 : ℤ) ^ 52 : ℤ) : ℚ) * ulp q := by
        unfold ulp
        rw [← zpow_split]
    _ ≤ (roundHalfEven (q / ulp q) : ℚ) * ulp q := mul_le_mul_of_nonneg_right hr' hu.le

theorem roundDouble_mono {q r : ℚ} (hq : 0 ≤ q) (h : q ≤ r) :
    roundDouble q ≤ roundDouble r := by
  rcases eq_or_lt_of_le hq with h0 | hpos
  · rw [← h0, roundDouble_zero]
    exact roundDouble_nonneg (le_trans hq h)
  · have hb := binade_mono hpos h
    rcases eq_or_lt_of_le hb with heq | hlt
    · have hu : ulp q = ulp r := by unfold ulp; rw [heq]
      unfold roundDouble
      rw [hu]
      have hur := ulp_pos r
      have hdiv : q / ulp r ≤ r / ulp r := div_le_div_of_nonneg_right h hur.le
      have := roundHalfEven_mono hdiv
      have hc : (roundHalfEven (q / ulp r) : ℚ) ≤ (roundHalfEven (r / ulp r) : ℚ) := by
        exact_mod_cast this
      exact mul_le_mul_of_nonneg_right hc hur.le
    · have hr0 : 0 < r := lt_of_lt_of_le hpos h
      have hbr : -1022 < binade r := by
        have : -1022 ≤ binade q := by unfold binade; exact le_max_right _ _
        omega
      calc roundDouble q ≤ (2 : ℚ) ^ (binade q + 1) := roundDouble_le_zpow q
        _ ≤ (2 : ℚ) ^ binade r := zpow_le_zpow_right₀ (by norm_num) (by omega)
        _ ≤ roundDouble r := zpow_le_roundDouble hr0 hbr

theorem mathRound_mono {x y : ℚ} (h : x ≤ y) : mathRound x ≤ mathRound y := by
  unfold mathRound
  exact Int.floor_mono (by linarith)

theorem percentComplete_mono (i j total : Nat) (h : i ≤ j) :
    percentComplete i total ≤ percentComplete j total := by
  unfold percentComplete
  apply mathRound_mono
  have hq : (0 : ℚ) ≤ (i : ℚ) / (total : ℚ) := by positivity
  have hdiv : (i : ℚ) / (total : ℚ) ≤ (j : ℚ) / (total : ℚ) := by
    apply div_le_div_of_nonneg_right _ (by positivity)
    exact_mod_cast h
  have h1 := roundDouble_mono hq hdiv
  have h0 := roundDouble_nonneg hq
  apply roundDouble_mono (by positivity)
  linarith

theorem binade_eq (q : ℚ) (e : ℤ) (he : -1022 ≤ e) (h1 : (2 : ℚ) ^ e ≤ q)
    (h2 : q < (2 : ℚ) ^ (e + 1)) : binade q = e := by
  have hq : 0 < q := lt_of_lt_of_le (by positivity) h1
  have hlog : Int.log 2 q = e := by
    have ha : e ≤ Int.log 2 q :=
      (Int.zpow_le_iff_le_log (b := 2) (by norm_num) hq).mp (by simpa using h1)
    have hb : Int.log 2 q < e + 1 :=
      (Int.lt_zpow_iff_log_lt (b := 2) (by norm_num) hq).mp (by simpa using h2)
    omega
  unfold binade
  rw [hlog]
  exact max_eq_left he

theorem roundDouble_eq (q : ℚ) (e m : ℤ) (he : -1022 ≤ e) (h1 : (2 : ℚ) ^ e ≤ q)
    (h2 : q < (2 : ℚ) ^ (e + 1)) (hm : |q / (2 : ℚ) ^ (e - 52) - m| < 1 / 2) :
    roundDouble q = m * (2 : ℚ) ^ (e - 52) := by
  unfold roundDouble ulp
  rw [binade_eq q e he h1 h2, roundHalfEven_near _ m hm]

theorem mathRound_eq (x : ℚ) (n : ℤ) (h1 : (n : ℚ) ≤ x + 1 / 2) (h2 : x + 1 / 2 < n + 1) :
    mathRound x = n := by
  unfold mathRound
  exact Int.floor_eq_iff.mpr ⟨h1, h2⟩

theorem percentComplete_self (n : Nat) (hn : 1 ≤ n) : percentComplete n n = 100 := by
  unfold percentComplete
  have hn0 : (n : ℚ) ≠ 0 := by
    have : (0 : ℚ) < n := by exact_mod_cast hn
    exact ne_of_gt this
  rw [div_self hn0]
  have h1 : roundDouble 1 = 1 := by
    rw [roundDouble_eq 1 0 (2 ^ 52) (by norm_num) (by norm_num) (by norm_num)
      (by norm_num [abs_lt])]
    norm_num
  rw [h1]
  have h100 : roundDouble (1 * 100) = 100 := by
    rw [roundDouble_eq (1 * 100) 6 (100 * 2 ^ 46) (by norm_num) (by norm_num) (by norm_num)
      (by norm_num [abs_lt])]
    norm_num
  rw [h100]
  exact mathRound_eq 100 100 (by norm_num) (by norm_num)

theorem percentComplete_23_40 : percentComplete 23 40 = 57 := by
  unfold percentComplete
  have h1 : roundDouble ((23 : ℕ) / (40 : ℕ)) = 5179139571476070 * (2 : ℚ) ^ (-53 : ℤ) := by
    have := roundDouble_eq ((23 : ℕ) / (40 : ℕ)) (-1) 5179139571476070 (by norm_num)
      (by norm_num) (by norm_num) (by norm_num [abs_lt])
    simpa using this
  rw [h1]
  have h2 : roundDouble (5179139571476070 * (2 : ℚ) ^ (-53 : ℤ) * 100)
      = 8092405580431359 * (2 : ℚ) ^ (-47 : ℤ) := by
    have := roundDouble_eq (5179139571476070 * (2 : ℚ) ^ (-53 : ℤ) * 100) 5
      8092405580431359 (by norm_num) (by norm_num) (by norm_num) (by norm_num [abs_lt])
    simpa using this
  rw [h2]
  exact mathRound_eq _ 57 (by norm_num) (by norm_num)

/-! ## The loop of a bulk run -/

section BulkLoop

variable {σ α : Type}

theorem tally_failed (rs : List ActionResult) (s f : Nat) :
    (tally rs s f).2 = f + rs.countP ActionResult.failed ∧
    (tally rs s f).1 + rs.countP ActionResult.failed = s + rs.length := by
  induction rs generalizing s f with
  | nil => simp [tally]
  | cons r rs ih =>
    obtain ⟨h1, h2⟩ := ih (countOutcome r s f).1 (countOutcome r s f).2
    simp only [tally, List.countP_cons, List.length_cons]
    cases hr : r.failed <;> simp [countOutcome, hr] at h1 h2 ⊢ <;> omega

theorem responses_length (backend : Backend σ α) (w : σ) (xs : List α) :
    (responses backend w xs).length = xs.length := by
  induction xs generalizing w with
  | nil => rfl
  | cons x xs ih => simp [responses, ih]

theorem bulkLoop_spec (t : BulkText) (nameOf : α → Except JSError JSVal)
    (backend : Backend σ α) (total : Nat) (xs : List α) (w : σ) (c s f : Nat)
    (hname : ∀ x ∈ xs, ∃ n, nameOf x = .ok n) :
    (bulkLoop t nameOf backend total w c s f xs).fatal = none ∧
    (bulkLoop t nameOf backend total w c s f xs).completed = c + xs.length ∧
    (bulkLoop t nameOf backend total w c s f xs).succeeded
      = (tally (responses backend w xs) s f).1 ∧
    (bulkLoop t nameOf backend total w c s f xs).failed
      = (tally (responses backend w xs) s f).2 ∧
    (bulkLoop t nameOf backend total w c s f xs).events
      = runEvents t nameOf total c s f (xs.zip (responses backend w xs)) := by
  induction xs generalizing w c s f with
  | nil => simp [bulkLoop, tally, responses, runEvents]
  | cons x xs ih =>
    obtain ⟨n, hn⟩ := hname x (List.mem_cons_self x xs)
    obtain ⟨h1, h2, h3, h4, h5⟩ := ih (backend w x).2 (c + 1)
      (countOutcome (backend w x).1 s f).1 (countOutcome (backend w x).1 s f).2
      (fun y hy => hname y (List.mem_cons_of_mem x hy))
    simp only [bulkLoop, hn, responses, tally, List.zip_cons_cons, runEvents, shownName,
      List.length_cons]
    refine ⟨h1, ?_, h3, h4, ?_⟩
    · rw [h2]; omega
    · rw [h5]; rfl

theorem requestsOf_append (a b : List (Event α)) :
    requestsOf (a ++ b) = requestsOf a ++ requestsOf b := by
  simp [requestsOf, List.filterMap_append]

theorem logLines_append (a b : List (Event α)) :
    logLines (a ++ b) = logLines a ++ logLines b := by
  simp [logLines, List.filterMap_append]

theorem progressReports_append (a b : List (Event α)) :
    progressReports (a ++ b) = progressReports a ++ progressReports b := by
  simp [progressReports, List.filterMap_append]

theorem logLines_map_log (ls : List LogLine) :
    logLines (ls.map (Event.log : LogLine → Event α)) = ls := by
  induction ls with
  | nil => rfl
  | cons l ls ih =>
    simp only [logLines, List.map_cons, List.filterMap_cons] at ih ⊢
    rw [ih]

theorem requestsOf_map_log (ls : List LogLine) :
    requestsOf (ls.map (Event.log : LogLine → Event α)) = [] := by
  induction ls with
  | nil => rfl
  | cons l ls ih =>
    simp only [requestsOf, List.map_cons, List.filterMap_cons] at ih ⊢
    rw [ih]

theorem progressReports_map_log (ls : List LogLine) :
    progressReports (ls.map (Event.log : LogLine → Event α)) = [] := by
  induction ls with
  | nil => rfl
  | cons l ls ih =>
    simp only [progressReports, List.map_cons, List.filterMap_cons] at ih ⊢
    rw [ih]

theorem requestsOf_runEvents (t : BulkText) (nameOf : α → Except JSError JSVal)
    (total : Nat) (l : List (α × ActionResult)) (c s f : Nat) :
    requestsOf (runEvents t nameOf total c s f l) = l.map Prod.fst := by
  induction l generalizing c s f with
  | nil => rfl
  | cons p l ih =>
    obtain ⟨x, r⟩ := p
    simp only [runEvents, requestsOf_append, ih, List.map_cons]
    rfl

theorem logLines_runEvents (t : BulkText) (nameOf : α → Except JSError JSVal)
    (total : Nat) (l : List (α × ActionResult)) (c s f : Nat) :
    logLines (runEvents t nameOf total c s f l)
      = l.flatMap (fun p => [announceLine t (shownName nameOf p.1),
          resultLine t (shownName nameOf p.1) p.2]) := by
  induction l generalizing c s f with
  | nil => rfl
  | cons p l ih =>
    obtain ⟨x, r⟩ := p
    simp only [runEvents, logLines_append, ih, List.flatMap_cons]
    rfl

theorem progressReports_runEvents (t : BulkText) (nameOf : α → Except JSError JSVal)
    (total : Nat) (l : List (α × ActionResult)) (c s f : Nat) :
    progressReports (runEvents t nameOf total c s f l)
      = (List.range l.length).map (fun i => percentComplete (c + i + 1) total) := by
  induction l generalizing c s f with
  | nil => rfl
  | cons p l ih =>
    obtain ⟨x, r⟩ := p
    simp only [runEvents, progressReports_append, ih, List.length_cons, List.range_succ_eq_map,
      List.map_cons, List.map_map]
    have hseg : progressReports (itemEvents t total (shownName nameOf x) x r c s f)
        = [percentComplete (c + 1) total] := rfl
    rw [hseg]
    simp only [List.singleton_append, Nat.add_zero, List.cons.injEq, true_and]
    apply List.map_congr_left
    intro i _
    simp only [Function.comp]
    congr 1
    omega

end BulkLoop

theorem policyName_ok (allPolicies : List Item) (policyId : JSVal)
    (h : isString policyId = true) : ∃ n, policyName allPolicies policyId = .ok n := by
  cases policyId <;> simp [isString] at h
  unfold policyName
  simp only []
  split
  · exact ⟨_, rfl⟩
  · exact ⟨_, rfl⟩

theorem templateName_ok (item : Item) : ∃ n, templateName item = .ok n :=
  ⟨_, rfl⟩

/-- A bulk delete that starts over string ids runs to its end: its counters and
events are those of the loop between the opening and the summary. -/
theorem bulkDeletePolicies_run {σ : Type} (backend : Backend σ JSVal) (s : State) (w : σ)
    (hsel : s.selectedPolicyIds ≠ [])
    (hstr : ∀ id ∈ s.selectedPolicyIds, isString id = true) :
    (bulkDeletePolicies backend true s w).fatal = false ∧
    (bulkDeletePolicies backend true s w).started = true ∧
    (bulkDeletePolicies backend true s w).total = s.selectedPolicyIds.length ∧
    (bulkDeletePolicies backend true s w).completed = s.selectedPolicyIds.length ∧
    (bulkDeletePolicies backend true s w).succeeded
      = (tally (responses backend w s.selectedPolicyIds) 0 0).1 ∧
    (bulkDeletePolicies backend true s w).failed
      = (tally (responses backend w s.selectedPolicyIds) 0 0).2 ∧
    (bulkDeletePolicies backend true s w).events
      = [.progressReset, .log (startLine bulkDeleteText s.selectedPolicyIds.length)] ++
        runEvents bulkDeleteText (policyName s.allPolicies) s.selectedPolicyIds.length 0 0 0
          (s.selectedPolicyIds.zip (responses backend w s.selectedPolicyIds)) ++
        (summaryLines bulkDeleteText s.selectedPolicyIds.length
          (tally (responses backend w s.selectedPolicyIds) 0 0).1
          (tally (responses backend w s.selectedPolicyIds) 0 0).2).map .log := by
  obtain ⟨h1, h2, h3, h4, h5⟩ := bulkLoop_spec bulkDeleteText (policyName s.allPolicies)
    backend s.selectedPolicyIds.length s.selectedPolicyIds w 0 0 0
    (fun x hx => policyName_ok s.allPolicies x (hstr x hx))
  have hlen : s.selectedPolicyIds.length ≠ 0 := by
    intro h0
    exact hsel (List.length_eq_zero.mp h0)
  simp only [bulkDeletePolicies, hlen, if_false, Bool.not_true, Bool.false_eq_true, h1]
  refine ⟨trivial, trivial, trivial, ?_, h3, h4, ?_⟩
  · simpa using h2
  · simp only [h3, h4, h5]

/-- A template deploy that starts over the loaded templates runs to its end. -/
theorem deployAllTemplates_run {σ : Type} (backend : Backend σ Item)
    (templates : List Item) (s : State) (w : σ) :
    (deployAllTemplates backend true (.loaded templates) s w).fatal = false ∧
    (deployAllTemplates backend true (.loaded templates) s w).started = true ∧
    (deployAllTemplates backend true (.loaded templates) s w).total = templates.length ∧
    (deployAllTemplates backend true (.loaded templates) s w).completed
      = templates.length ∧
    (deployAllTemplates backend true (.loaded templates) s w).succeeded
      = (tally (responses backend w templates) 0 0).1 ∧
    (deployAllTemplates backend true (.loaded templates) s w).failed
      = (tally (responses backend w templates) 0 0).2 ∧
    (deployAllTemplates backend true (.loaded templates) s w).events
      = [.progressReset, .log (startLine deployText templates.length)] ++
        runEvents deployText templateName templates.length 0 0 0
          (templates.zip (responses backend w templates)) ++
        (summaryLines deployText templates.length
          (tally (responses backend w templates) 0 0).1
          (tally (responses backend w templates) 0 0).2).map .log := by
  obtain ⟨h1, h2, h3, h4, h5⟩ := bulkLoop_spec deployText templateName
    backend templates.length templates w 0 0 0
    (fun x _ => templateName_ok x)
  simp only [deployAllTemplates, Bool.not_true, Bool.false_eq_true, if_false, h1]
  refine ⟨trivial, trivial, trivial, ?_, h3, h4, ?_⟩
  · simpa using h2
  · simp only [h3, h4, h5]


section Windows

variable {α : Type}

theorem requestsOf_itemEvents (t : BulkText) (total : Nat) (name : JSVal) (x : α)
    (r : ActionResult) (c s f : Nat) :
    requestsOf (itemEvents t total name x r c s f) = [x] := rfl

theorem progressReports_itemEvents (t : BulkText) (total : Nat) (name : JSVal) (x : α)
    (r : ActionResult) (c s f : Nat) :
    progressReports (itemEvents t total name x r c s f)
      = [percentComplete (c + 1) total] := rfl

/-- In the events of the loop, the counter update and the result line of item `i`
come right before `completed++`, the progress report, and the announcement and the
request of item `i + 1`; the requests before that window are those of the items up
to `i`. -/
theorem runEvents_window (t : BulkText) (nameOf : α → Except JSError JSVal) (total : Nat) :
    ∀ (i : Nat) (l : List (α × ActionResult)) (c s f : Nat) (x x' : α)
      (r r' : ActionResult),
      l[i]? = some (x, r) → l[i + 1]? = some (x', r') →
      ∃ pre post, runEvents t nameOf total c s f l
          = pre ++ [.counted (tally ((l.take (i + 1)).map Prod.snd) s f).1
                (tally ((l.take (i + 1)).map Prod.snd) s f).2,
              .log (resultLine t (shownName nameOf x) r),
              .completedIs (c + i + 1),
              .progress (percentComplete (c + i + 1) total),
              .log (announceLine t (shownName nameOf x')),
              .request x'] ++ post ∧
        requestsOf pre = (l.take (i + 1)).map Prod.fst := by
  intro i
  induction i with
  | zero =>
    intro l c s f x x' r r' h0 h1
    match l, h0, h1 with
    | (a, ra) :: (b, rb) :: l2, h0, h1 =>
      simp only [List.getElem?_cons_zero, Option.some.injEq, Prod.mk.injEq] at h0
      simp only [List.getElem?_cons_succ, List.getElem?_cons_zero, Option.some.injEq,
        Prod.mk.injEq] at h1
      obtain ⟨ha, hra⟩ := h0
      obtain ⟨hb, hrb⟩ := h1
      subst ha hra hb hrb
      refine ⟨[.log (announceLine t (shownName nameOf a)), .request a],
        [.counted (countOutcome rb (countOutcome ra s f).1 (countOutcome ra s f).2).1
            (countOutcome rb (countOutcome ra s f).1 (countOutcome ra s f).2).2,
          .log (resultLine t (shownName nameOf b) rb),
          .completedIs (c + 1 + 1),
          .progress (percentComplete (c + 1 + 1) total)] ++
          runEvents t nameOf total (c + 1 + 1)
            (countOutcome rb (countOutcome ra s f).1 (countOutcome ra s f).2).1
            (countOutcome rb (countOutcome ra s f).1 (countOutcome ra s f).2).2 l2,
        ?_, rfl⟩
      simp [runEvents, itemEvents, tally]
  | succ i ih =>
    intro l c s f x x' r r' h0 h1
    match l, h0, h1 with
    | (y, ry) :: l', h0, h1 =>
      simp only [List.getElem?_cons_succ] at h0 h1
      obtain ⟨pre, post, heq, hreq⟩ := ih l' (c + 1) (countOutcome ry s f).1
        (countOutcome ry s f).2 x x' r r' h0 h1
      refine ⟨itemEvents t total (shownName nameOf y) y ry c s f ++ pre, post, ?_, ?_⟩
      · simp only [runEvents, heq, List.take_succ_cons, List.map_cons, tally,
          List.append_assoc]
        have hc : c + 1 + i + 1 = c + (i + 1) + 1 := by omega
        rw [hc]
      · rw [requestsOf_append, hreq, requestsOf_itemEvents]
        simp

/-- In the events of the loop, the progress report of item `i` comes right after
`completed` has become `i + 1`, and `i` reports come before it. -/
theorem runEvents_progress_window (t : BulkText) (nameOf : α → Except JSError JSVal)
    (total : Nat) :
    ∀ (i : Nat) (l : List (α × ActionResult)) (c s f : Nat), i < l.length →
      ∃ pre post, runEvents t nameOf total c s f l
          = pre ++ [.completedIs (c + i + 1),
              .progress (percentComplete (c + i + 1) total)] ++ post ∧
        (progressReports pre).length = i := by
  intro i
  induction i with
  | zero =>
    intro l c s f h0
    match l, h0 with
    | (x, r) :: l', _ =>
      refine ⟨[.log (announceLine t (shownName nameOf x)), .request x,
        .counted (countOutcome r s f).1 (countOutcome r s f).2,
        .log (resultLine t (shownName nameOf x) r)],
        runEvents t nameOf total (c + 1) (countOutcome r s f).1 (countOutcome r s f).2 l',
        ?_, rfl⟩
      simp [runEvents, itemEvents]
  | succ i ih =>
    intro l c s f h0
    match l, h0 with
    | (y, ry) :: l', h0 =>
      have hlt : i < l'.length := by simpa using h0
      obtain ⟨pre, post, heq, hlen⟩ := ih l' (c + 1) (countOutcome ry s f).1
        (countOutcome ry s f).2 hlt
      refine ⟨itemEvents t total (shownName nameOf y) y ry c s f ++ pre, post, ?_, ?_⟩
      · simp only [runEvents, heq, List.append_assoc]
        have hc : c + 1 + i + 1 = c + (i + 1) + 1 := by omega
        rw [hc]
      · rw [progressReports_append, progressReports_itemEvents]
        simp [hlen]

end Windows

/-! ## Claims on the bulk runs -/

/-- C11: a bulk delete over the `N` selected ids (strings, as `displayPolicies`
writes them) and a template deploy over the `N` loaded templates, from any state,
end with `completed = N`, `failed = K` and `succeeded = N - K`, where `K` is the
number of actions that threw or answered with a `success` that is not truthy; so
`succeeded + failed = total`. The backend may answer each request as it likes. -/
theorem bulk_run_tally {σ : Type} (deleteBackend : Backend σ JSVal)
    (deployBackend : Backend σ Item) (s : State) (templates : List Item) (w : σ) :
    (s.selectedPolicyIds ≠ [] → (∀ id ∈ s.selectedPolicyIds, isString id = true) →
      (bulkDeletePolicies deleteBackend true s w).total = s.selectedPolicyIds.length ∧
      (bulkDeletePolicies deleteBackend true s w).completed = s.selectedPolicyIds.length ∧
      (bulkDeletePolicies deleteBackend true s w).failed
        = (responses deleteBackend w s.selectedPolicyIds).countP ActionResult.failed ∧
      (bulkDeletePolicies deleteBackend true s w).succeeded
        = s.selectedPolicyIds.length
          - (responses deleteBackend w s.selectedPolicyIds).countP ActionResult.failed ∧
      (bulkDeletePolicies deleteBackend true s w).succeeded
          + (bulkDeletePolicies deleteBackend true s w).failed
        = (bulkDeletePolicies deleteBackend true s w).total) ∧
    ((deployAllTemplates deployBackend true (.loaded templates) s w).total
        = templates.length ∧
      (deployAllTemplates deployBackend true (.loaded templates) s w).completed
        = templates.length ∧
      (deployAllTemplates deployBackend true (.loaded templates) s w).failed
        = (responses deployBackend w templates).countP ActionResult.failed ∧
      (deployAllTemplates deployBackend true (.loaded templates) s w).succeeded
        = templates.length
          - (responses deployBackend w templates).countP ActionResult.failed ∧
      (deployAllTemplates deployBackend true (.loaded templates) s w).succeeded
          + (deployAllTemplates deployBackend true (.loaded templates) s w).failed
        = (deployAllTemplates deployBackend true (.loaded templates) s w).total) := by
  obtain ⟨_, _, t3, t4, t5, t6, _⟩ := deployAllTemplates_run deployBackend templates s w
  obtain ⟨df, ds⟩ := tally_failed (responses deleteBackend w s.selectedPolicyIds) 0 0
  obtain ⟨tf, ts⟩ := tally_failed (responses deployBackend w templates) 0 0
  rw [responses_length] at ds ts
  refine ⟨fun hsel hstr => ?_, ?_⟩
  · obtain ⟨_, _, d3, d4, d5, d6, _⟩ := bulkDeletePolicies_run deleteBackend s w hsel hstr
    rw [d3, d4, d5, d6]
    refine ⟨rfl, rfl, ?_, ?_, ?_⟩ <;> omega
  · rw [t3, t4, t5, t6]
    refine ⟨rfl, rfl, ?_, ?_, ?_⟩ <;> omega

/-- C11, witness: with a backend whose answers alternate between success and a
network error, the two selected policies end with one success and one failure, and
so do the two templates deployed from the state at page load, where no policy is
selected. -/
theorem bulk_run_tally_witness :
    selectionState.selectedPolicyIds ≠ [] ∧
    (∀ id ∈ selectionState.selectedPolicyIds, isString id = true) ∧
    (responses (alternatingBackend JSVal) 0 selectionState.selectedPolicyIds).countP
      ActionResult.failed = 1 ∧
    (bulkDeletePolicies (alternatingBackend JSVal) true selectionState 0).succeeded
      = 2 - (responses (alternatingBackend JSVal) 0
          selectionState.selectedPolicyIds).countP ActionResult.failed ∧
    (bulkDeletePolicies (alternatingBackend JSVal) true selectionState 0).succeeded = 1 ∧
    (bulkDeletePolicies (alternatingBackend JSVal) true selectionState 0).failed = 1 ∧
    (bulkDeletePolicies (alternatingBackend JSVal) true selectionState 0).completed = 2 ∧
    State.initial.selectedPolicyIds = [] ∧
    (deployAllTemplates (alternatingBackend Item) true (.loaded twoTemplates)
      State.initial 0).completed = twoTemplates.length ∧
    (deployAllTemplates (alternatingBackend Item) true (.loaded twoTemplates)
      State.initial 0).succeeded = 1 ∧
    (deployAllTemplates (alternatingBackend Item) true (.loaded twoTemplates)
      State.initial 0).failed = 1 :=
  ⟨by decide, by decide, by decide,
    ((bulk_run_tally (alternatingBackend JSVal) (alternatingBackend Item) selectionState
      twoTemplates 0).1 (by decide) (by decide)).2.2.2.1,
    by decide, by decide, by decide, by decide,
    (bulk_run_tally (alternatingBackend JSVal) (alternatingBackend Item) State.initial
      twoTemplates 0).2.2.1,
    by decide, by decide⟩

/-- C12: in a bulk delete over the selected ids (strings) and in a template deploy
over the loaded templates, from any state, the action is invoked once for every
input item, in input order, whatever the backend answers: the items requested are
the input sequence, and the run is not left by an exception. -/
theorem bulk_run_requests {σ : Type} (deleteBackend : Backend σ JSVal)
    (deployBackend : Backend σ Item) (s : State) (templates : List Item) (w : σ) :
    (s.selectedPolicyIds ≠ [] → (∀ id ∈ s.selectedPolicyIds, isString id = true) →
      requestsOf (bulkDeletePolicies deleteBackend true s w).events = s.selectedPolicyIds ∧
      (bulkDeletePolicies deleteBackend true s w).fatal = false) ∧
    (requestsOf (deployAllTemplates deployBackend true (.loaded templates) s w).events
        = templates ∧
      (deployAllTemplates deployBackend true (.loaded templates) s w).fatal = false) := by
  obtain ⟨t1, _, _, _, _, _, t7⟩ := deployAllTemplates_run deployBackend templates s w
  have hz : ∀ {α : Type} (backend : Backend σ α) (xs : List α),
      (xs.zip (responses backend w xs)).map Prod.fst = xs := by
    intro α backend xs
    exact List.map_fst_zip _ _ (by rw [responses_length])
  refine ⟨fun hsel hstr => ?_, ⟨?_, t1⟩⟩
  · obtain ⟨d1, _, _, _, _, _, d7⟩ := bulkDeletePolicies_run deleteBackend s w hsel hstr
    refine ⟨?_, d1⟩
    rw [d7, requestsOf_append, requestsOf_append, requestsOf_runEvents, requestsOf_map_log,
      hz]
    simp [requestsOf]
  · rw [t7, requestsOf_append, requestsOf_append, requestsOf_runEvents, requestsOf_map_log,
      hz]
    simp [requestsOf]

/-- C12, witness: every request refused, the requests are still `p2`, `p1`, and the
two templates when the deploy starts from the state at page load, where no policy
is selected. -/
theorem bulk_run_requests_witness :
    selectionState.selectedPolicyIds ≠ [] ∧
    (∀ id ∈ selectionState.selectedPolicyIds, isString id = true) ∧
    (bulkDeletePolicies (refusingBackend JSVal) true selectionState ()).failed = 2 ∧
    requestsOf (bulkDeletePolicies (refusingBackend JSVal) true selectionState ()).events
      = [.str (js "p2"), .str (js "p1")] ∧
    State.initial.selectedPolicyIds = [] ∧
    requestsOf (deployAllTemplates (refusingBackend Item) true (.loaded twoTemplates)
      State.initial ()).events = twoTemplates :=
  ⟨by decide, by decide, by decide,
    ((bulk_run_requests (refusingBackend JSVal) (refusingBackend Item) selectionState
      twoTemplates ()).1 (by decide) (by decide)).1,
    by decide,
    (bulk_run_requests (refusingBackend JSVal) (refusingBackend Item) State.initial
      twoTemplates ()).2.1⟩

section RunLog

variable {α : Type}

theorem logLines_run (t : BulkText) (nameOf : α → Except JSError JSVal) (total : Nat)
    (l : List (α × ActionResult)) (sc fc : Nat) :
    logLines ([.progressReset, .log (startLine t total)] ++
        runEvents t nameOf total 0 0 0 l ++ (summaryLines t total sc fc).map .log)
      = startLine t total :: l.flatMap (itemLines t nameOf) ++ summaryLines t total sc fc := by
  rw [logLines_append, logLines_append, logLines_runEvents, logLines_map_log]
  rfl

theorem length_flatMap_itemLines (t : BulkText) (nameOf : α → Except JSError JSVal)
    (l : List (α × ActionResult)) :
    (l.flatMap (itemLines t nameOf)).length = 2 * l.length := by
  induction l with
  | nil => rfl
  | cons p l ih =>
    simp only [List.flatMap_cons, List.length_append, ih, List.length_cons, itemLines,
      List.length_nil]
    omega

theorem length_zip_responses {σ : Type} (backend : Backend σ α) (w : σ) (xs : List α) :
    (xs.zip (responses backend w xs)).length = xs.length := by
  simp [List.length_zip, responses_length]

theorem resultLine_type (t : BulkText) (name : JSVal) (r : ActionResult) :
    (r.failed = true → (resultLine t name r).type = .error ∧
      Part.value r.reason ∈ (resultLine t name r).message) ∧
    (r.failed = false → (resultLine t name r).type = .success) := by
  cases r with
  | responded success error =>
    cases hs : truthy success <;>
      simp [resultLine, ActionResult.failed, ActionResult.reason, hs]
  | threw message => simp [resultLine, ActionResult.failed, ActionResult.reason]

theorem errorLines_append (a b : List LogLine) :
    errorLines (a ++ b) = errorLines a ++ errorLines b := by
  simp [errorLines]

theorem errorLines_flatMap_itemLines (t : BulkText) (nameOf : α → Except JSError JSVal)
    (l : List (α × ActionResult)) :
    errorLines (l.flatMap (itemLines t nameOf))
      = (l.filter (fun p => p.2.failed)).map
          (fun p => resultLine t (shownName nameOf p.1) p.2) := by
  induction l with
  | nil => rfl
  | cons p l ih =>
    rw [List.flatMap_cons, errorLines_append, ih]
    obtain ⟨hf, hs⟩ := resultLine_type t (shownName nameOf p.1) p.2
    cases hp : p.2.failed with
    | true =>
      have := (hf hp).1
      simp [errorLines, itemLines, announceLine, List.filter_cons, hp, this]
    | false =>
      have := hs hp
      simp [errorLines, itemLines, announceLine, List.filter_cons, hp, this]

theorem errorLines_summaryLines (t : BulkText) (total sc fc : Nat) :
    errorLines (summaryLines t total sc fc) = [] := by
  unfold errorLines summaryLines
  by_cases h : sc = total <;> simp [List.filter_cons, h]

theorem errorLines_run (t : BulkText) (nameOf : α → Except JSError JSVal) (total : Nat)
    (l : List (α × ActionResult)) (sc fc : Nat) :
    errorLines (startLine t total :: l.flatMap (itemLines t nameOf)
        ++ summaryLines t total sc fc)
      = (l.filter (fun p => p.2.failed)).map
          (fun p => resultLine t (shownName nameOf p.1) p.2) := by
  have hcons : startLine t total :: l.flatMap (itemLines t nameOf)
      ++ summaryLines t total sc fc
      = [startLine t total] ++ (l.flatMap (itemLines t nameOf)
        ++ summaryLines t total sc fc) := rfl
  rw [hcons, errorLines_append, errorLines_append, errorLines_flatMap_itemLines,
    errorLines_summaryLines]
  simp [errorLines, startLine]

theorem countP_failed_zip {σ : Type} (backend : Backend σ α) (w : σ) (xs : List α) :
    ((xs.zip (responses backend w xs)).filter (fun p => p.2.failed)).length
      = (responses backend w xs).countP ActionResult.failed := by
  have h : ∀ (ys : List α) (rs : List ActionResult), ys.length = rs.length →
      ((ys.zip rs).filter (fun p => p.2.failed)).length = rs.countP ActionResult.failed := by
    intro ys
    induction ys with
    | nil =>
      intro rs hlen
      cases rs with
      | nil => rfl
      | cons r rs => simp at hlen
    | cons y ys ih =>
      intro rs hlen
      cases rs with
      | nil => simp at hlen
      | cons r rs =>
        have := ih rs (by simpa using hlen)
        cases hr : r.failed <;>
          simp [List.zip_cons_cons, List.filter_cons, List.countP_cons, hr, this]
  exact h xs _ (responses_length backend w xs).symm

end RunLog


/-- C13 (as amended): the log of a bulk delete over `N` selected ids (strings), and
of a template deploy over `N` loaded templates from any state, holds exactly
`2 * N + 3` lines: the opening line, then for each item in input order its
announcement followed by its result line, then the two summary lines. So the result
lines are `N`, one per item, in input order. -/
theorem bulk_run_log {σ : Type} (deleteBackend : Backend σ JSVal)
    (deployBackend : Backend σ Item) (s : State) (templates : List Item) (w : σ) :
    (s.selectedPolicyIds ≠ [] → (∀ id ∈ s.selectedPolicyIds, isString id = true) →
      logLines (bulkDeletePolicies deleteBackend true s w).events
        = startLine bulkDeleteText s.selectedPolicyIds.length ::
            (s.selectedPolicyIds.zip (responses deleteBackend w s.selectedPolicyIds)).flatMap
              (itemLines bulkDeleteText (policyName s.allPolicies))
          ++ summaryLines bulkDeleteText s.selectedPolicyIds.length
              (bulkDeletePolicies deleteBackend true s w).succeeded
              (bulkDeletePolicies deleteBackend true s w).failed ∧
      (logLines (bulkDeletePolicies deleteBackend true s w).events).length
        = 2 * s.selectedPolicyIds.length + 3) ∧
    (logLines (deployAllTemplates deployBackend true (.loaded templates) s w).events
        = startLine deployText templates.length ::
            (templates.zip (responses deployBackend w templates)).flatMap
              (itemLines deployText templateName)
          ++ summaryLines deployText templates.length
              (deployAllTemplates deployBackend true (.loaded templates) s w).succeeded
              (deployAllTemplates deployBackend true (.loaded templates) s w).failed ∧
      (logLines (deployAllTemplates deployBackend true (.loaded templates) s w).events).length
        = 2 * templates.length + 3) := by
  obtain ⟨_, _, _, _, t5, t6, t7⟩ := deployAllTemplates_run deployBackend templates s w
  have hd := logLines_run bulkDeleteText (policyName s.allPolicies)
    s.selectedPolicyIds.length
    (s.selectedPolicyIds.zip (responses deleteBackend w s.selectedPolicyIds))
    (tally (responses deleteBackend w s.selectedPolicyIds) 0 0).1
    (tally (responses deleteBackend w s.selectedPolicyIds) 0 0).2
  have ht := logLines_run deployText templateName templates.length
    (templates.zip (responses deployBackend w templates))
    (tally (responses deployBackend w templates) 0 0).1
    (tally (responses deployBackend w templates) 0 0).2
  refine ⟨fun hsel hstr => ?_, ?_⟩
  · obtain ⟨_, _, _, _, d5, d6, d7⟩ := bulkDeletePolicies_run deleteBackend s w hsel hstr
    rw [d5, d6, d7, hd]
    refine ⟨rfl, ?_⟩
    rw [List.length_append, List.length_cons, length_flatMap_itemLines,
      length_zip_responses]
    simp only [summaryLines, List.length_cons, List.length_nil]
  · rw [t5, t6, t7, ht]
    refine ⟨rfl, ?_⟩
    rw [List.length_append, List.length_cons, length_flatMap_itemLines,
      length_zip_responses]
    simp only [summaryLines, List.length_cons, List.length_nil]

/-- C13, witness: the log of the bulk delete of the selected `p2`, `p1`, every
request refused: seven lines, the result lines naming `Block` then `MFA`; the log of
the deploy of two templates from the state at page load has seven lines too. -/
theorem bulk_run_log_witness :
    selectionState.selectedPolicyIds ≠ [] ∧
    (∀ id ∈ selectionState.selectedPolicyIds, isString id = true) ∧
    (logLines (bulkDeletePolicies (refusingBackend JSVal) true selectionState ()).events).length
      = 2 * 2 + 3 ∧
    logLines (bulkDeletePolicies (refusingBackend JSVal) true selectionState ()).events
      = [startLine bulkDeleteText 2,
         announceLine bulkDeleteText (.str (js "Block")),
         resultLine bulkDeleteText (.str (js "Block"))
           (.responded (.bool false) (.str (js "Forbidden"))),
         announceLine bulkDeleteText (.str (js "MFA")),
         resultLine bulkDeleteText (.str (js "MFA"))
           (.responded (.bool false) (.str (js "Forbidden"))),
         { type := .info, message := [.text bulkDeleteText.summaryHead] },
         { type := .warning,
           message := [.text (js "Total: "), .value (natVal 2),
             .text (js " | Succeeded: "), .value (natVal 0),
             .text (js " | Failed: "), .value (natVal 2)] }] ∧
    State.initial.selectedPolicyIds = [] ∧
    (logLines (deployAllTemplates (refusingBackend Item) true (.loaded twoTemplates)
      State.initial ()).events).length = 2 * twoTemplates.length + 3 :=
  ⟨by decide, by decide,
    ((bulk_run_log (refusingBackend JSVal) (refusingBackend Item) selectionState
      twoTemplates ()).1 (by decide) (by decide)).2,
    by decide, by decide,
    (bulk_run_log (refusingBackend JSVal) (refusingBackend Item) State.initial
      twoTemplates ()).2.2⟩

/-- C13, counterexample to the claim as stated: the bulk delete of one selected
policy writes five lines to the log, not one. -/
theorem bulk_run_log_counterexample :
    oneSelected.selectedPolicyIds.length = 1 ∧
    (bulkDeletePolicies (refusingBackend JSVal) true oneSelected ()).fatal = false ∧
    (logLines (bulkDeletePolicies (refusingBackend JSVal) true oneSelected ()).events).length
      = 5 ∧
    (logLines (bulkDeletePolicies (refusingBackend JSVal) true oneSelected ()).events).length
      ≠ oneSelected.selectedPolicyIds.length := by
  decide

/-- C14: in a completed bulk delete (over selected ids that are strings) or
template deploy (from any state) the lines of type `error` are exactly the result
lines of the failed items, one each and in input order, so their number is
`failed`; the result line of a failed item carries the reason (`data.error` or the
message of the thrown error) and the result line of a successful item has type
`success`. -/
theorem bulk_run_error_lines {σ : Type} (deleteBackend : Backend σ JSVal)
    (deployBackend : Backend σ Item) (s : State) (templates : List Item) (w : σ) :
    (s.selectedPolicyIds ≠ [] → (∀ id ∈ s.selectedPolicyIds, isString id = true) →
      errorLines (logLines (bulkDeletePolicies deleteBackend true s w).events)
        = ((s.selectedPolicyIds.zip (responses deleteBackend w s.selectedPolicyIds)).filter
            (fun p => p.2.failed)).map
            (fun p => resultLine bulkDeleteText
              (shownName (policyName s.allPolicies) p.1) p.2) ∧
      (errorLines (logLines (bulkDeletePolicies deleteBackend true s w).events)).length
        = (bulkDeletePolicies deleteBackend true s w).failed) ∧
    (errorLines (logLines (deployAllTemplates deployBackend true (.loaded templates) s w).events)
        = ((templates.zip (responses deployBackend w templates)).filter
            (fun p => p.2.failed)).map
            (fun p => resultLine deployText (shownName templateName p.1) p.2) ∧
      (errorLines
        (logLines (deployAllTemplates deployBackend true (.loaded templates) s w).events)).length
        = (deployAllTemplates deployBackend true (.loaded templates) s w).failed) ∧
    (∀ (t : BulkText) (name : JSVal) (r : ActionResult),
      (r.failed = true → (resultLine t name r).type = .error ∧
        Part.value r.reason ∈ (resultLine t name r).message) ∧
      (r.failed = false → (resultLine t name r).type = .success)) := by
  obtain ⟨_, _, _, _, _, t6, t7⟩ := deployAllTemplates_run deployBackend templates s w
  obtain ⟨df, _⟩ := tally_failed (responses deleteBackend w s.selectedPolicyIds) 0 0
  obtain ⟨tf, _⟩ := tally_failed (responses deployBackend w templates) 0 0
  refine ⟨fun hsel hstr => ?_, ?_, fun t name r => resultLine_type t name r⟩
  · obtain ⟨_, _, _, _, _, d6, d7⟩ := bulkDeletePolicies_run deleteBackend s w hsel hstr
    rw [d6, d7, logLines_run, errorLines_run]
    refine ⟨rfl, ?_⟩
    rw [List.length_map, countP_failed_zip, df]; omega
  · rw [t6, t7, logLines_run, errorLines_run]
    refine ⟨rfl, ?_⟩
    rw [List.length_map, countP_failed_zip, tf]; omega

/-- C14, witness: with answers alternating between success and a network error,
the log of the bulk delete of `p2`, `p1` has one line of type `error`, the result
line of `p1` carrying `Failed to fetch`; the log of the deploy of two templates from
the state at page load has as many lines of type `error` as deploys failed, one. -/
theorem bulk_run_error_lines_witness :
    selectionState.selectedPolicyIds ≠ [] ∧
    (∀ id ∈ selectionState.selectedPolicyIds, isString id = true) ∧
    (bulkDeletePolicies (alternatingBackend JSVal) true selectionState 0).failed = 1 ∧
    errorLines (logLines
        (bulkDeletePolicies (alternatingBackend JSVal) true selectionState 0).events)
      = [{ type := .error,
           message := [.text bulkDeleteText.errorText, .value (.str (js "MFA")),
             .text (js ": "), .value (.str (js "Failed to fetch"))] }] ∧
    (errorLines (logLines
        (bulkDeletePolicies (alternatingBackend JSVal) true selectionState 0).events)).length
      = (bulkDeletePolicies (alternatingBackend JSVal) true selectionState 0).failed ∧
    State.initial.selectedPolicyIds = [] ∧
    (deployAllTemplates (alternatingBackend Item) true (.loaded twoTemplates)
      State.initial 0).failed = 1 ∧
    (errorLines (logLines (deployAllTemplates (alternatingBackend Item) true
        (.loaded twoTemplates) State.initial 0).events)).length
      = (deployAllTemplates (alternatingBackend Item) true (.loaded twoTemplates)
        State.initial 0).failed :=
  ⟨by decide, by decide, by decide, by decide,
    ((bulk_run_error_lines (alternatingBackend JSVal) (alternatingBackend Item)
      selectionState twoTemplates 0).1 (by decide) (by decide)).2,
    by decide, by decide,
    (bulk_run_error_lines (alternatingBackend JSVal) (alternatingBackend Item)
      State.initial twoTemplates 0).2.1.2⟩


theorem take_zip_responses_fst {σ α : Type} (backend : Backend σ α) (w : σ) (xs : List α)
    (n : Nat) :
    ((xs.zip (responses backend w xs)).take n).map Prod.fst = xs.take n ∧
    ((xs.zip (responses backend w xs)).take n).map Prod.snd
      = (responses backend w xs).take n := by
  have hl : xs.length = (responses backend w xs).length := (responses_length backend w xs).symm
  constructor
  · rw [List.map_take, List.map_fst_zip _ _ (le_of_eq hl)]
  · rw [List.map_take, List.map_snd_zip _ _ (le_of_eq hl.symm)]

/-- The events of a completed run around the hand-over from item `i` to item
`i + 1`. -/
theorem run_window {α : Type} (t : BulkText) (nameOf : α → Except JSError JSVal)
    (total : Nat) (l : List (α × ActionResult)) (summary : List (Event α)) (i : Nat)
    (x x' : α) (r r' : ActionResult) (h0 : l[i]? = some (x, r))
    (h1 : l[i + 1]? = some (x', r')) :
    ∃ pre post,
      [.progressReset, .log (startLine t total)] ++ runEvents t nameOf total 0 0 0 l
          ++ summary
        = pre ++ [.counted (tally ((l.take (i + 1)).map Prod.snd) 0 0).1
              (tally ((l.take (i + 1)).map Prod.snd) 0 0).2,
            .log (resultLine t (shownName nameOf x) r),
            .completedIs (i + 1),
            .progress (percentComplete (i + 1) total),
            .log (announceLine t (shownName nameOf x')),
            .request x'] ++ post ∧
      requestsOf pre = (l.take (i + 1)).map Prod.fst := by
  obtain ⟨pre, post, heq, hreq⟩ := runEvents_window t nameOf total i l 0 0 0 x x' r r' h0 h1
  refine ⟨[.progressReset, .log (startLine t total)] ++ pre, post ++ summary, ?_, ?_⟩
  · rw [heq]
    simp only [Nat.zero_add, List.append_assoc]
  · rw [requestsOf_append, hreq]
    rfl

/-- C15: in the events of a bulk delete (over selected ids that are strings) or of
a template deploy (from any state), for every item `i` that has a successor, the counter update of item `i` (the counters then stand at the
tally of the first `i + 1` answers) and its result line come before the request of
item `i + 1`: they are followed by `completed++`, the progress report, the
announcement of item `i + 1` and only then its request, which is request number
`i + 2` of the run. -/
theorem bulk_run_handover {σ : Type} (deleteBackend : Backend σ JSVal)
    (deployBackend : Backend σ Item) (s : State) (templates : List Item) (w : σ) :
    (s.selectedPolicyIds ≠ [] → (∀ id ∈ s.selectedPolicyIds, isString id = true) →
      ∀ (i : Nat) (x x' : JSVal) (r r' : ActionResult),
      (s.selectedPolicyIds.zip (responses deleteBackend w s.selectedPolicyIds))[i]?
        = some (x, r) →
      (s.selectedPolicyIds.zip (responses deleteBackend w s.selectedPolicyIds))[i + 1]?
        = some (x', r') →
      ∃ pre post, (bulkDeletePolicies deleteBackend true s w).events
          = pre ++ [.counted
                (tally ((responses deleteBackend w s.selectedPolicyIds).take (i + 1)) 0 0).1
                (tally ((responses deleteBackend w s.selectedPolicyIds).take (i + 1)) 0 0).2,
              .log (resultLine bulkDeleteText (shownName (policyName s.allPolicies) x) r),
              .completedIs (i + 1),
              .progress (percentComplete (i + 1) s.selectedPolicyIds.length),
              .log (announceLine bulkDeleteText (shownName (policyName s.allPolicies) x')),
              .request x'] ++ post ∧
        requestsOf pre = s.selectedPolicyIds.take (i + 1)) ∧
    (∀ (i : Nat) (x x' : Item) (r r' : ActionResult),
      (templates.zip (responses deployBackend w templates))[i]? = some (x, r) →
      (templates.zip (responses deployBackend w templates))[i + 1]? = some (x', r') →
      ∃ pre post, (deployAllTemplates deployBackend true (.loaded templates) s w).events
          = pre ++ [.counted
                (tally ((responses deployBackend w templates).take (i + 1)) 0 0).1
                (tally ((responses deployBackend w templates).take (i + 1)) 0 0).2,
              .log (resultLine deployText (shownName templateName x) r),
              .completedIs (i + 1),
              .progress (percentComplete (i + 1) templates.length),
              .log (announceLine deployText (shownName templateName x')),
              .request x'] ++ post ∧
        requestsOf pre = templates.take (i + 1)) := by
  obtain ⟨_, _, _, _, _, _, t7⟩ := deployAllTemplates_run deployBackend templates s w
  constructor
  · intro hsel hstr i x x' r r' h0 h1
    obtain ⟨_, _, _, _, _, _, d7⟩ := bulkDeletePolicies_run deleteBackend s w hsel hstr
    obtain ⟨hf, hs⟩ := take_zip_responses_fst deleteBackend w s.selectedPolicyIds (i + 1)
    obtain ⟨pre, post, heq, hreq⟩ := run_window bulkDeleteText (policyName s.allPolicies)
      s.selectedPolicyIds.length _
      ((summaryLines bulkDeleteText s.selectedPolicyIds.length
        (tally (responses deleteBackend w s.selectedPolicyIds) 0 0).1
        (tally (responses deleteBackend w s.selectedPolicyIds) 0 0).2).map .log)
      i x x' r r' h0 h1
    refine ⟨pre, post, ?_, ?_⟩
    · rw [d7, heq, hs]
    · rw [hreq, hf]
  · intro i x x' r r' h0 h1
    obtain ⟨hf, hs⟩ := take_zip_responses_fst deployBackend w templates (i + 1)
    obtain ⟨pre, post, heq, hreq⟩ := run_window deployText templateName
      templates.length _
      ((summaryLines deployText templates.length
        (tally (responses deployBackend w templates) 0 0).1
        (tally (responses deployBackend w templates) 0 0).2).map .log)
      i x x' r r' h0 h1
    refine ⟨pre, post, ?_, ?_⟩
    · rw [t7, heq, hs]
    · rw [hreq, hf]

/-- C15, witness: in the bulk delete of `p2`, `p1` with alternating answers, the
counter update of `p2` (one success) and its result line come before the request
for `p1`, and only the request for `p2` comes before them; likewise for the two
templates deployed from the state at page load. -/
theorem bulk_run_handover_witness :
    selectionState.selectedPolicyIds ≠ [] ∧
    (∀ id ∈ selectionState.selectedPolicyIds, isString id = true) ∧
    (selectionState.selectedPolicyIds.zip
        (responses (alternatingBackend JSVal) 0 selectionState.selectedPolicyIds))[0]?
      = some (.str (js "p2"), .responded (.bool true) .undefined) ∧
    (selectionState.selectedPolicyIds.zip
        (responses (alternatingBackend JSVal) 0 selectionState.selectedPolicyIds))[0 + 1]?
      = some (.str (js "p1"), .threw (.str (js "Failed to fetch"))) ∧
    (∃ pre post,
      (bulkDeletePolicies (alternatingBackend JSVal) true selectionState 0).events
        = pre ++ [.counted
              (tally ((responses (alternatingBackend JSVal) 0
                selectionState.selectedPolicyIds).take (0 + 1)) 0 0).1
              (tally ((responses (alternatingBackend JSVal) 0
                selectionState.selectedPolicyIds).take (0 + 1)) 0 0).2,
            .log (resultLine bulkDeleteText
              (shownName (policyName selectionState.allPolicies) (.str (js "p2")))
              (.responded (.bool true) .undefined)),
            .completedIs (0 + 1),
            .progress (percentComplete (0 + 1) selectionState.selectedPolicyIds.length),
            .log (announceLine bulkDeleteText
              (shownName (policyName selectionState.allPolicies) (.str (js "p1")))),
            .request (.str (js "p1"))] ++ post ∧
      requestsOf pre = selectionState.selectedPolicyIds.take (0 + 1)) ∧
    State.initial.selectedPolicyIds = [] ∧
    ∃ pre post,
      (deployAllTemplates (alternatingBackend Item) true (.loaded twoTemplates)
          State.initial 0).events
        = pre ++ [.counted
              (tally ((responses (alternatingBackend Item) 0 twoTemplates).take (0 + 1)) 0 0).1
              (tally ((responses (alternatingBackend Item) 0 twoTemplates).take (0 + 1)) 0 0).2,
            .log (resultLine deployText (shownName templateName firstTemplate)
              (.responded (.bool true) .undefined)),
            .completedIs (0 + 1),
            .progress (percentComplete (0 + 1) twoTemplates.length),
            .log (announceLine deployText (shownName templateName secondTemplate)),
            .request secondTemplate] ++ post ∧
      requestsOf pre = twoTemplates.take (0 + 1) :=
  ⟨by decide, by decide, by decide, by decide,
    (bulk_run_handover (alternatingBackend JSVal) (alternatingBackend Item) selectionState
      twoTemplates 0).1 (by decide) (by decide) 0 (.str (js "p2")) (.str (js "p1"))
      (.responded (.bool true) .undefined) (.threw (.str (js "Failed to fetch")))
      (by decide) (by decide),
    by decide,
    (bulk_run_handover (alternatingBackend JSVal) (alternatingBackend Item) State.initial
      twoTemplates 0).2 0 firstTemplate secondTemplate
      (.responded (.bool true) .undefined) (.threw (.str (js "Failed to fetch")))
      (by decide) (by decide)⟩


theorem percentages_pairwise (n : Nat) : (percentages n).Pairwise (fun p q => p ≤ q) := by
  unfold percentages
  rw [List.pairwise_map]
  refine List.Pairwise.imp ?_ (List.pairwise_lt_range n)
  intro i j hij
  exact percentComplete_mono (i + 1) (j + 1) n (by omega)

theorem percentages_getLast (n : Nat) (hn : 1 ≤ n) : (percentages n).getLast? = some 100 := by
  unfold percentages
  rw [List.getLast?_map, List.getLast?_range]
  have h0 : n ≠ 0 := by omega
  simp only [h0, if_false, Option.map_some']
  have hc : n - 1 + 1 = n := by omega
  rw [hc, percentComplete_self n hn]

theorem progressReports_run {α : Type} (t : BulkText)
    (nameOf : α → Except JSError JSVal) (total : Nat) (l : List (α × ActionResult))
    (sc fc : Nat) :
    progressReports ([.progressReset, .log (startLine t total)] ++
        runEvents t nameOf total 0 0 0 l ++ (summaryLines t total sc fc).map .log)
      = (List.range l.length).map (fun i => percentComplete (i + 1) total) := by
  rw [progressReports_append, progressReports_append, progressReports_runEvents,
    progressReports_map_log]
  simp [progressReports]

theorem run_progress_window {α : Type} (t : BulkText) (nameOf : α → Except JSError JSVal)
    (total : Nat) (l : List (α × ActionResult)) (summary : List (Event α)) (i : Nat)
    (hi : i < l.length) :
    ∃ pre post,
      [.progressReset, .log (startLine t total)] ++ runEvents t nameOf total 0 0 0 l
          ++ summary
        = pre ++ [.completedIs (i + 1), .progress (percentComplete (i + 1) total)] ++ post ∧
      (progressReports pre).length = i := by
  obtain ⟨pre, post, heq, hlen⟩ := runEvents_progress_window t nameOf total i l 0 0 0 hi
  refine ⟨[.progressReset, .log (startLine t total)] ++ pre, post ++ summary, ?_, ?_⟩
  · rw [heq]
    simp only [Nat.zero_add, List.append_assoc]
  · rw [progressReports_append, List.length_append, hlen]
    simp [progressReports]

/-- C16 (as amended): a bulk delete over `N` selected ids (strings) and a template
deploy over `N` loaded templates, from any state, report progress exactly `N` times, once after each item
whatever its outcome: report `i` comes right after `completed` has become `i` and
shows `Math.round((i / N) * 100)` as double-precision arithmetic computes it; the
reported values are non-decreasing and the last one is 100 when `N >= 1`. -/
theorem bulk_run_progress {σ : Type} (deleteBackend : Backend σ JSVal)
    (deployBackend : Backend σ Item) (s : State) (templates : List Item) (w : σ) :
    (s.selectedPolicyIds ≠ [] → (∀ id ∈ s.selectedPolicyIds, isString id = true) →
      progressReports (bulkDeletePolicies deleteBackend true s w).events
        = (List.range s.selectedPolicyIds.length).map
            (fun i => percentComplete (i + 1) s.selectedPolicyIds.length) ∧
      (∀ i, i < s.selectedPolicyIds.length →
        ∃ pre post, (bulkDeletePolicies deleteBackend true s w).events
            = pre ++ [.completedIs (i + 1),
                .progress (percentComplete (i + 1) s.selectedPolicyIds.length)] ++ post ∧
          (progressReports pre).length = i) ∧
      (progressReports (bulkDeletePolicies deleteBackend true s w).events).Pairwise
        (fun p q => p ≤ q) ∧
      (progressReports (bulkDeletePolicies deleteBackend true s w).events).getLast?
        = some 100) ∧
    (progressReports (deployAllTemplates deployBackend true (.loaded templates) s w).events
        = (List.range templates.length).map
            (fun i => percentComplete (i + 1) templates.length) ∧
      (∀ i, i < templates.length →
        ∃ pre post, (deployAllTemplates deployBackend true (.loaded templates) s w).events
            = pre ++ [.completedIs (i + 1),
                .progress (percentComplete (i + 1) templates.length)] ++ post ∧
          (progressReports pre).length = i) ∧
      (progressReports
        (deployAllTemplates deployBackend true (.loaded templates) s w).events).Pairwise
        (fun p q => p ≤ q) ∧
      (1 ≤ templates.length →
        (progressReports
          (deployAllTemplates deployBackend true (.loaded templates) s w).events).getLast?
          = some 100)) := by
  obtain ⟨_, _, _, _, _, _, t7⟩ := deployAllTemplates_run deployBackend templates s w
  have ht : progressReports
      (deployAllTemplates deployBackend true (.loaded templates) s w).events
      = percentages templates.length := by
    rw [t7, progressReports_run, length_zip_responses]
    rfl
  refine ⟨fun hsel hstr => ?_, ⟨ht, ?_, ?_, ?_⟩⟩
  · obtain ⟨_, _, _, _, _, _, d7⟩ := bulkDeletePolicies_run deleteBackend s w hsel hstr
    have hd : progressReports (bulkDeletePolicies deleteBackend true s w).events
        = percentages s.selectedPolicyIds.length := by
      rw [d7, progressReports_run, length_zip_responses]
      rfl
    have hn : 1 ≤ s.selectedPolicyIds.length := by
      cases hl : s.selectedPolicyIds with
      | nil => exact absurd hl hsel
      | cons a l => simp
    refine ⟨hd, ?_, ?_, ?_⟩
    · intro i hi
      rw [d7]
      exact run_progress_window _ _ _ _ _ i (by rw [length_zip_responses]; exact hi)
    · rw [hd]; exact percentages_pairwise _
    · rw [hd]; exact percentages_getLast _ hn
  · intro i hi
    rw [t7]
    exact run_progress_window _ _ _ _ _ i (by rw [length_zip_responses]; exact hi)
  · rw [ht]; exact percentages_pairwise _
  · intro h1
    rw [ht]; exact percentages_getLast _ h1

/-- C16, witness: the bulk delete of two selected policies reports progress twice,
the last report being 100, and so does the deploy of two templates from the state
at page load. -/
theorem bulk_run_progress_witness :
    selectionState.selectedPolicyIds ≠ [] ∧
    (∀ id ∈ selectionState.selectedPolicyIds, isString id = true) ∧
    (progressReports
      (bulkDeletePolicies (alternatingBackend JSVal) true selectionState 0).events).length
      = 2 ∧
    (progressReports
      (bulkDeletePolicies (alternatingBackend JSVal) true selectionState 0).events).getLast?
      = some 100 ∧
    State.initial.selectedPolicyIds = [] ∧
    (progressReports (deployAllTemplates (alternatingBackend Item) true
      (.loaded twoTemplates) State.initial 0).events).length = 2 ∧
    (progressReports (deployAllTemplates (alternatingBackend Item) true
      (.loaded twoTemplates) State.initial 0).events).getLast? = some 100 :=
  ⟨by decide, by decide, by decide,
    ((bulk_run_progress (alternatingBackend JSVal) (alternatingBackend Item) selectionState
      twoTemplates 0).1 (by decide) (by decide)).2.2.2,
    by decide,
    by
      rw [(bulk_run_progress (alternatingBackend JSVal) (alternatingBackend Item)
        State.initial twoTemplates 0).2.1]
      simp [twoTemplates],
    (bulk_run_progress (alternatingBackend JSVal) (alternatingBackend Item) State.initial
      twoTemplates 0).2.2.2.2 (by decide)⟩

/-- C16, counterexample to the claim as stated: in a deploy of forty templates the
report after the 23rd item shows 57, while `round(100 * 23 / 40)`, the rounding of
57.5, is 58: the double `(23 / 40) * 100` is 57.49999999999999. -/
theorem bulk_run_progress_counterexample :
    fortyTemplates.length = 40 ∧
    (progressReports (deployAllTemplates (refusingBackend Item) true
      (.loaded fortyTemplates) selectionState ()).events)[22]? = some 57 ∧
    mathRound ((100 * 23 : ℚ) / 40) = 58 := by
  have hlen : fortyTemplates.length = 40 := by decide
  refine ⟨hlen, ?_, ?_⟩
  · obtain ⟨_, _, _, _, _, _, t7⟩ := deployAllTemplates_run (refusingBackend Item)
      fortyTemplates selectionState ()
    rw [t7, progressReports_run, length_zip_responses, hlen, List.getElem?_map,
      List.getElem?_range (by norm_num : 22 < 40)]
    simp only [Option.map_some']
    rw [percentComplete_23_40]
  · exact mathRound_eq _ 58 (by norm_num) (by norm_num)

/-! ## Claims on the recommendation deploy -/

/-- C17 (as amended): `deploySelectedRecommendations` and
`deployAllRecommendations` do not run an action per index: once confirmed, each
sends a single request whose body carries all the indices (the selected ones in
selection order, respectively `0, ..., n - 1`) and receives a single answer, the
success or failure of the whole batch. The first needs a selection and does not
read the recommendations; the second needs recommendations and does not read the
selection. -/
theorem recommendations_single_request (backend : List Nat → ActionResult)
    (r : ReportState) :
    (r.selectedRecommendations ≠ [] →
      (deploySelectedRecommendations backend true r).requests
        = [r.selectedRecommendations] ∧
      (deploySelectedRecommendations backend true r).answers
        = [backend r.selectedRecommendations]) ∧
    (r.allRecommendations ≠ [] →
      (deployAllRecommendations backend true r).requests
        = [List.range r.allRecommendations.length] ∧
      (deployAllRecommendations backend true r).answers
        = [backend (List.range r.allRecommendations.length)]) := by
  refine ⟨fun hsel => ?_, fun hall => ?_⟩
  · have h1 : r.selectedRecommendations.length ≠ 0 :=
      fun h0 => hsel (List.length_eq_zero.mp h0)
    simp only [deploySelectedRecommendations, h1, if_false, Bool.not_true,
      Bool.false_eq_true]
    cases hb : backend r.selectedRecommendations with
    | responded success error =>
      by_cases hs : truthy success = true <;> simp [hs]
    | threw message => simp
  · have h2 : r.allRecommendations.length ≠ 0 :=
      fun h0 => hall (List.length_eq_zero.mp h0)
    simp only [deployAllRecommendations, h2, if_false, Bool.not_true, Bool.false_eq_true]
    cases hb : backend (List.range r.allRecommendations.length) with
    | responded success error => simp
    | threw message => simp

/-- C17, witness: with the recommendations 3 and 1 selected out of five, one
request carries `[3, 1]`; with five recommendations of which none is selected,
deploying all sends one request carrying `[0, 1, 2, 3, 4]`. -/
theorem recommendations_single_request_witness :
    reportState.selectedRecommendations ≠ [] ∧
    (deploySelectedRecommendations acceptingBatch true reportState).requests = [[3, 1]] ∧
    (deploySelectedRecommendations acceptingBatch true reportState).answers
      = [acceptingBatch [3, 1]] ∧
    unselectedReport.selectedRecommendations = [] ∧
    unselectedReport.allRecommendations ≠ [] ∧
    (deployAllRecommendations acceptingBatch true unselectedReport).requests
      = [[0, 1, 2, 3, 4]] ∧
    (deployAllRecommendations acceptingBatch true unselectedReport).answers
      = [acceptingBatch [0, 1, 2, 3, 4]] :=
  ⟨by decide,
    ((recommendations_single_request acceptingBatch reportState).1 (by decide)).1,
    ((recommendations_single_request acceptingBatch reportState).1 (by decide)).2,
    by decide, by decide,
    ((recommendations_single_request acceptingBatch unselectedReport).2 (by decide)).1,
    ((recommendations_single_request acceptingBatch unselectedReport).2 (by decide)).2⟩

/-- C17, counterexample to the claim as stated: with two recommendations selected
and five available, each function sends one request and gets one answer, not one
per index. -/
theorem recommendations_counterexample :
    reportState.selectedRecommendations.length = 2 ∧
    (deploySelectedRecommendations acceptingBatch true reportState).requests.length = 1 ∧
    (deploySelectedRecommendations acceptingBatch true reportState).answers.length = 1 ∧
    reportState.allRecommendations.length = 5 ∧
    (deployAllRecommendations acceptingBatch true reportState).requests.length = 1 ∧
    (deployAllRecommendations acceptingBatch true reportState).answers.length = 1 := by
  decide

/-! ## Claims on the selection -/

theorem mem_setAdd (members : List JSVal) (v j : JSVal) :
    j ∈ setAdd members v ↔ j ∈ members ∨ j = v := by
  unfold setAdd setHas
  by_cases h : v ∈ members
  · simp only [h, decide_True, if_true]
    constructor
    · exact Or.inl
    · rintro (hj | rfl)
      · exact hj
      · exact h
  · simp [h]

theorem mem_setDelete (members : List JSVal) (v j : JSVal) :
    j ∈ setDelete members v ↔ j ∈ members ∧ j ≠ v := by
  simp [setDelete]

theorem mem_togglePolicySelection (id j : JSVal) (s : State) :
    j ∈ (togglePolicySelection id s).selectedPolicyIds ↔
      (j = id ∧ j ∉ s.selectedPolicyIds) ∨ (j ≠ id ∧ j ∈ s.selectedPolicyIds) := by
  unfold togglePolicySelection
  by_cases h : id ∈ s.selectedPolicyIds
  · simp only [setHas, h, decide_True, if_true, mem_setDelete]
    constructor
    · rintro ⟨hj, hne⟩
      exact Or.inr ⟨hne, hj⟩
    · rintro (⟨rfl, hn⟩ | ⟨hne, hj⟩)
      · exact absurd h hn
      · exact ⟨hj, hne⟩
  · simp only [setHas, h, decide_False, if_false, mem_setAdd, Bool.false_eq_true]
    constructor
    · rintro (hj | rfl)
      · refine Or.inr ⟨?_, hj⟩
        rintro rfl
        exact h hj
      · exact Or.inl ⟨rfl, h⟩
    · rintro (⟨rfl, _⟩ | ⟨_, hj⟩)
      · exact Or.inr rfl
      · exact Or.inl hj

/-- C18: `togglePolicySelection(id)` flips the membership of `id` and of nothing
else, and leaves `allPolicies`, the sort state and the table as they were. -/
theorem togglePolicySelection_flips (id j : JSVal) (s : State) :
    (j ∈ (togglePolicySelection id s).selectedPolicyIds ↔
      (j = id ∧ j ∉ s.selectedPolicyIds) ∨ (j ≠ id ∧ j ∈ s.selectedPolicyIds)) ∧
    (togglePolicySelection id s).allPolicies = s.allPolicies ∧
    (togglePolicySelection id s).currentSortColumn = s.currentSortColumn ∧
    (togglePolicySelection id s).currentSortDirection = s.currentSortDirection ∧
    (togglePolicySelection id s).policiesTableBody = s.policiesTableBody := by
  refine ⟨mem_togglePolicySelection id j s, ?_⟩
  unfold togglePolicySelection
  split <;> exact ⟨rfl, rfl, rfl, rfl⟩

/-- C19: calling `togglePolicySelection` twice with the same id leaves the
selection set with the members it had before the two calls. -/
theorem togglePolicySelection_twice (id j : JSVal) (s : State) :
    j ∈ (togglePolicySelection id (togglePolicySelection id s)).selectedPolicyIds ↔
      j ∈ s.selectedPolicyIds := by
  rw [mem_togglePolicySelection id j (togglePolicySelection id s),
    mem_togglePolicySelection id j s]
  by_cases hj : j = id <;> by_cases hm : j ∈ s.selectedPolicyIds <;> simp [hj, hm]

theorem mem_foldl_setAdd (idText : JSVal → JSString) (rows : List Item) (acc : List JSVal)
    (j : JSVal) :
    j ∈ rows.foldl (fun sel row => setAdd sel (.str (idText (row.get "id")))) acc ↔
      j ∈ acc ∨ ∃ row ∈ rows, JSVal.str (idText (row.get "id")) = j := by
  induction rows generalizing acc with
  | nil => simp
  | cons row rows ih =>
    rw [List.foldl_cons, ih]
    simp only [mem_setAdd, List.mem_cons, exists_eq_or_imp]
    constructor
    · rintro ((h | h) | h)
      · exact Or.inl h
      · exact Or.inr (Or.inl h.symm)
      · exact Or.inr (Or.inr h)
    · rintro (h | h | h)
      · exact Or.inl (Or.inl h)
      · exact Or.inl (Or.inr h.symm)
      · exact Or.inr h

/-- C20: whatever was selected before, after `selectAllPoliciesGlobal` the
selection set holds exactly the ids of the rows rendered in the table (ids being
strings that the attribute `data-policy-id` gives back unchanged), which are the
ids of all items of `allPolicies` whenever the table shows `allPolicies`; after
`deselectAllPoliciesGlobal` it is empty. -/
theorem selectAll_overwrites (idText : JSVal → JSString) (s : State) (j : JSVal)
    (hid : ∀ row ∈ s.policiesTableBody, JSVal.str (idText (row.get "id")) = row.get "id") :
    (j ∈ (selectAllPoliciesGlobal idText s).selectedPolicyIds ↔
      ∃ row ∈ s.policiesTableBody, row.get "id" = j) ∧
    (s.policiesTableBody.Perm s.allPolicies →
      (j ∈ (selectAllPoliciesGlobal idText s).selectedPolicyIds ↔
        ∃ p ∈ s.allPolicies, p.get "id" = j)) ∧
    (deselectAllPoliciesGlobal idText s).selectedPolicyIds = [] := by
  have hmem : j ∈ (selectAllPoliciesGlobal idText s).selectedPolicyIds ↔
      ∃ row ∈ s.policiesTableBody, row.get "id" = j := by
    simp only [selectAllPoliciesGlobal, toggleSelectAll, if_true]
    rw [mem_foldl_setAdd]
    simp only [List.not_mem_nil, false_or]
    constructor
    · rintro ⟨row, hrow, h⟩
      exact ⟨row, hrow, by rw [← hid row hrow]; exact h⟩
    · rintro ⟨row, hrow, h⟩
      exact ⟨row, hrow, by rw [hid row hrow]; exact h⟩
  refine ⟨hmem, ?_, ?_⟩
  · intro hperm
    rw [hmem]
    constructor
    · rintro ⟨row, hrow, h⟩
      exact ⟨row, hperm.mem_iff.mp hrow, h⟩
    · rintro ⟨row, hrow, h⟩
      exact ⟨row, hperm.mem_iff.mpr hrow, h⟩
  · unfold deselectAllPoliciesGlobal toggleSelectAll
    simp only []
    induction s.policiesTableBody with
    | nil => rfl
    | cons row rows ih => simp

/-- C20, witness: with `p2`, `p1` selected and the three policies `p1`, `p2`, `p3`
in the table, select-all leaves exactly `p1`, `p2`, `p3` selected and clear-all
leaves nothing. -/
theorem selectAll_overwrites_witness :
    (∀ row ∈ selectionState.policiesTableBody,
      JSVal.str (plainIdText (row.get "id")) = row.get "id") ∧
    (selectAllPoliciesGlobal plainIdText selectionState).selectedPolicyIds
      = [.str (js "p1"), .str (js "p2"), .str (js "p3")] ∧
    (JSVal.str (js "p3") ∈ (selectAllPoliciesGlobal plainIdText selectionState).selectedPolicyIds ↔
      ∃ row ∈ selectionState.policiesTableBody, row.get "id" = .str (js "p3")) ∧
    (deselectAllPoliciesGlobal plainIdText selectionState).selectedPolicyIds = [] :=
  ⟨by decide, by decide,
    (selectAll_overwrites plainIdText selectionState (.str (js "p3")) (by decide)).1,
    by decide⟩

/-! ## Claims on the reload, the reachable states and the comparator -/

theorem insertM_perm {α ε : Type} (cmp : α → α → Except ε Int) (x : α) (acc ys : List α)
    (hok : insertM cmp x acc = .ok ys) : ys.Perm (x :: acc) := by
  induction acc generalizing ys with
  | nil =>
    simp only [insertM, pure, Except.pure, Except.ok.injEq] at hok
    subst hok
    exact List.Perm.refl _
  | cons y rest ih =>
    simp only [insertM, bind, Except.bind] at hok
    split at hok
    · exact absurd hok (by simp)
    · split at hok
      · simp only [pure, Except.pure, Except.ok.injEq] at hok
        subst hok
        exact List.Perm.refl _
      · split at hok
        · exact absurd hok (by simp)
        · rename_i r hr
          simp only [pure, Except.pure, Except.ok.injEq] at hok
          subst hok
          exact ((ih r hr).cons y).trans (List.Perm.swap x y rest)

theorem sortLoop_perm {α ε : Type} (cmp : α → α → Except ε Int) (acc xs ys : List α)
    (hok : sortLoop cmp acc xs = .ok ys) : ys.Perm (acc ++ xs) := by
  induction xs generalizing acc ys with
  | nil =>
    simp only [sortLoop, pure, Except.pure, Except.ok.injEq] at hok
    subst hok
    simp
  | cons x rest ih =>
    simp only [sortLoop, bind, Except.bind] at hok
    split at hok
    · exact absurd hok (by simp)
    · rename_i acc1 h1
      refine (ih acc1 ys hok).trans ?_
      refine ((insertM_perm cmp x acc acc1 h1).append_right rest).trans ?_
      exact (@List.perm_middle _ x acc rest).symm

theorem arraySort_perm {α ε : Type} (cmp : α → α → Except ε Int) (xs ys : List α)
    (hok : arraySort cmp xs = .ok ys) : ys.Perm xs := by
  simpa using sortLoop_perm cmp [] xs ys hok

theorem sortPolicies_table_perm (h : Host) (column : String) (s : State)
    (hok : (sortPolicies h column s).thrown = none) :
    (sortPolicies h column s).state.policiesTableBody.Perm s.allPolicies := by
  have hall : (setSort column s).allPolicies = s.allPolicies := by
    unfold setSort; split <;> rfl
  simp only [sortPolicies] at hok ⊢
  split at hok
  · rename_i sorted hs
    simp only [hs]
    rw [hall] at hs
    exact arraySort_perm _ _ _ hs
  · simp at hok

theorem bulkDeletePolicies_state {σ : Type} (backend : Backend σ JSVal)
    (confirmAnswer : Bool) (s : State) (w : σ) :
    (bulkDeletePolicies backend confirmAnswer s w).state = s ∨
    (bulkDeletePolicies backend confirmAnswer s w).state
      = { s with selectedPolicyIds := [] } := by
  unfold bulkDeletePolicies
  split
  · exact Or.inl rfl
  · split
    · exact Or.inl rfl
    · simp only []
      split
      · exact Or.inl rfl
      · split
        · exact Or.inr rfl
        · exact Or.inl rfl

theorem bulkLoop_names_ok {σ α : Type} (t : BulkText) (nameOf : α → Except JSError JSVal)
    (backend : Backend σ α) (total : Nat) (xs : List α) (w : σ) (c s f : Nat)
    (hf : (bulkLoop t nameOf backend total w c s f xs).fatal = none) :
    ∀ x ∈ xs, ∃ n, nameOf x = .ok n := by
  induction xs generalizing w c s f with
  | nil => simp
  | cons y ys ih =>
    cases hn : nameOf y with
    | error e => simp [bulkLoop, hn] at hf
    | ok n =>
      simp only [bulkLoop, hn] at hf
      intro x hx
      rcases List.mem_cons.mp hx with rfl | hx1
      · exact ⟨n, hn⟩
      · exact ih _ _ _ _ hf x hx1

/-- A bulk delete that starts and is not left by an exception: its counters are
those of the answers, and the selection is cleared exactly when one succeeded. -/
theorem bulkDeletePolicies_done {σ : Type} (backend : Backend σ JSVal) (s : State)
    (w : σ) (hsel : s.selectedPolicyIds ≠ [])
    (hdone : (bulkDeletePolicies backend true s w).fatal = false) :
    (bulkDeletePolicies backend true s w).started = true ∧
    (bulkDeletePolicies backend true s w).completed
      = (bulkDeletePolicies backend true s w).total ∧
    (bulkDeletePolicies backend true s w).state
      = if 0 < (tally (responses backend w s.selectedPolicyIds) 0 0).1
        then { s with selectedPolicyIds := [] } else s := by
  have hlen : s.selectedPolicyIds.length ≠ 0 := by
    intro h0
    exact hsel (List.length_eq_zero.mp h0)
  have hfatal : (bulkLoop bulkDeleteText (policyName s.allPolicies) backend
      s.selectedPolicyIds.length w 0 0 0 s.selectedPolicyIds).fatal = none := by
    simp only [bulkDeletePolicies, hlen, if_false, Bool.not_true, Bool.false_eq_true]
      at hdone
    split at hdone
    · simp at hdone
    · assumption
  obtain ⟨h1, h2, h3, _, _⟩ := bulkLoop_spec bulkDeleteText (policyName s.allPolicies)
    backend s.selectedPolicyIds.length s.selectedPolicyIds w 0 0 0
    (bulkLoop_names_ok _ _ _ _ _ _ _ _ _ hfatal)
  simp only [bulkDeletePolicies, hlen, if_false, Bool.not_true, Bool.false_eq_true, h1, h3]
  refine ⟨trivial, ?_, trivial⟩
  simpa using h2

/-- C21: a successful `refreshPolicies` replaces `allPolicies` by the loaded
collection and leaves `selectedPolicyIds` as it was; a load that fails, by a
refusal of the server or by an exception, leaves both `allPolicies` and
`selectedPolicyIds` as they were. -/
theorem refreshPolicies_keeps_selection (s : State) (policies : List Item)
    (error message : JSVal) :
    (refreshPolicies (.loaded policies) s).allPolicies = policies ∧
    (refreshPolicies (.loaded policies) s).selectedPolicyIds = s.selectedPolicyIds ∧
    (refreshPolicies (.refused error) s).allPolicies = s.allPolicies ∧
    (refreshPolicies (.refused error) s).selectedPolicyIds = s.selectedPolicyIds ∧
    (refreshPolicies (.threw message) s).allPolicies = s.allPolicies ∧
    (refreshPolicies (.threw message) s).selectedPolicyIds = s.selectedPolicyIds :=
  ⟨rfl, rfl, rfl, rfl, rfl, rfl⟩

/-- C21, witness: with `p2`, `p1` selected, a reload that brings two other policies
replaces the collection and keeps the selection `p2`, `p1`. -/
theorem refreshPolicies_keeps_selection_witness :
    (refreshPolicies (.loaded bananaItems) selectionState).allPolicies = bananaItems ∧
    (refreshPolicies (.loaded bananaItems) selectionState).selectedPolicyIds
      = [.str (js "p2"), .str (js "p1")] ∧
    (refreshPolicies (.refused (.str (js "Forbidden"))) selectionState).allPolicies
      = tiedItems :=
  ⟨(refreshPolicies_keeps_selection selectionState bananaItems .null .null).1,
    (refreshPolicies_keeps_selection selectionState bananaItems .null .null).2.1,
    (refreshPolicies_keeps_selection selectionState bananaItems (.str (js "Forbidden"))
      .null).2.2.1⟩

/-- C26: after a bulk delete that started and ran to its end, the selection is empty
if at least one deletion succeeded, whatever the others did, and the state is the
one before the run if every deletion failed. -/
theorem bulkDeletePolicies_selection_after {σ : Type} (backend : Backend σ JSVal)
    (s : State) (w : σ) (hsel : s.selectedPolicyIds ≠ [])
    (hdone : (bulkDeletePolicies backend true s w).fatal = false) :
    (bulkDeletePolicies backend true s w).started = true ∧
    (bulkDeletePolicies backend true s w).completed
      = (bulkDeletePolicies backend true s w).total ∧
    ((∃ r ∈ responses backend w s.selectedPolicyIds, r.failed = false) →
      (bulkDeletePolicies backend true s w).state.selectedPolicyIds = []) ∧
    ((∀ r ∈ responses backend w s.selectedPolicyIds, r.failed = true) →
      (bulkDeletePolicies backend true s w).state = s) := by
  obtain ⟨h1, h2, h3⟩ := bulkDeletePolicies_done backend s w hsel hdone
  obtain ⟨_, ht⟩ := tally_failed (responses backend w s.selectedPolicyIds) 0 0
  rw [h3]
  refine ⟨h1, h2, ?_, ?_⟩
  · rintro ⟨r, hr, hf⟩
    have hlt : (responses backend w s.selectedPolicyIds).countP ActionResult.failed
        < (responses backend w s.selectedPolicyIds).length := by
      refine lt_of_le_of_ne (List.countP_le_length _) ?_
      intro heq
      have := (List.countP_eq_length.mp heq) r hr
      rw [hf] at this
      exact Bool.false_ne_true this
    have hpos : 0 < (tally (responses backend w s.selectedPolicyIds) 0 0).1 := by omega
    rw [if_pos hpos]
  · intro hall
    have heq := List.countP_eq_length.mpr hall
    have hz : ¬ 0 < (tally (responses backend w s.selectedPolicyIds) 0 0).1 := by omega
    rw [if_neg hz]

/-- C26, witness: with `p2`, `p1` selected, a run whose first deletion succeeds and
whose second fails leaves the selection empty, and a run whose deletions are all
refused leaves `p2`, `p1` selected. -/
theorem bulkDeletePolicies_selection_after_witness :
    (bulkDeletePolicies (alternatingBackend JSVal) true selectionState 0).fatal = false ∧
    (bulkDeletePolicies (alternatingBackend JSVal) true selectionState 0).state.selectedPolicyIds
      = [] ∧
    (bulkDeletePolicies (refusingBackend JSVal) true selectionState ()).fatal = false ∧
    (bulkDeletePolicies (refusingBackend JSVal) true selectionState ()).state
      = selectionState :=
  ⟨by decide,
    (bulkDeletePolicies_selection_after (alternatingBackend JSVal) selectionState 0
      (by decide) (by decide)).2.2.1
      ⟨.responded (.bool true) .undefined, by decide, by decide⟩,
    by decide,
    (bulkDeletePolicies_selection_after (refusingBackend JSVal) selectionState ()
      (by decide) (by decide)).2.2.2 (by decide)⟩

/-- C27: a successful `refreshPolicies` leaves `currentSortColumn` and
`currentSortDirection` as they were and shows the loaded collection in its loaded
order; the next `sortPolicies` on the column that was current flips the direction. -/
theorem refreshPolicies_keeps_sort_state (h : Host) (s : State) (policies : List Item)
    (column : String) (hcol : s.currentSortColumn = some column) :
    (refreshPolicies (.loaded policies) s).currentSortColumn = s.currentSortColumn ∧
    (refreshPolicies (.loaded policies) s).currentSortDirection
      = s.currentSortDirection ∧
    (refreshPolicies (.loaded policies) s).policiesTableBody = policies ∧
    (sortPolicies h column (refreshPolicies (.loaded policies) s)).state.currentSortColumn
      = some column ∧
    (sortPolicies h column (refreshPolicies (.loaded policies) s)).state.currentSortDirection
      = (if s.currentSortDirection = .asc then .desc else .asc) := by
  have hst := sortPolicies_frame h column (refreshPolicies (.loaded policies) s)
  refine ⟨rfl, rfl, rfl, ?_, ?_⟩
  · rw [hst.1]
    simp [setSort, refreshPolicies, hcol]
  · rw [hst.2.1]
    simp [setSort, refreshPolicies, hcol]

/-- C27, witness: the table stands sorted by `displayName`, ascending; a reload of
`"Banana"`, `"apple"` shows them in that order, which is not the ascending order of
the column, and the next sort by `displayName` is descending. -/
theorem refreshPolicies_keeps_sort_state_witness :
    sortedBananaState.currentSortColumn = some "displayName" ∧
    sortedBananaState.currentSortDirection = .asc ∧
    (refreshPolicies (.loaded bananaItems) sortedBananaState).currentSortDirection = .asc ∧
    (refreshPolicies (.loaded bananaItems) sortedBananaState).policiesTableBody
      = bananaItems ∧
    sortedPolicies refHost "displayName" .asc bananaItems = .ok bananaItems.reverse ∧
    (sortPolicies refHost "displayName"
      (refreshPolicies (.loaded bananaItems) sortedBananaState)).state.currentSortDirection
      = .desc :=
  ⟨by decide, by decide,
    (refreshPolicies_keeps_sort_state refHost sortedBananaState bananaItems "displayName"
      (by decide)).2.1,
    (refreshPolicies_keeps_sort_state refHost sortedBananaState bananaItems "displayName"
      (by decide)).2.2.1,
    rfl,
    (refreshPolicies_keeps_sort_state refHost sortedBananaState bananaItems "displayName"
      (by decide)).2.2.2.2⟩

/-- C23: whenever the comparator does not throw on the collection, the sequence
`sortPolicies` displays is a permutation of `allPolicies`: it has the same length
and every item occurs in it as many times as in `allPolicies`. -/
theorem sortPolicies_displays_permutation (h : Host) (column : String) (s : State)
    (hok : (sortPolicies h column s).thrown = none) :
    (sortPolicies h column s).state.policiesTableBody.Perm s.allPolicies ∧
    (sortPolicies h column s).state.policiesTableBody.length = s.allPolicies.length ∧
    ∀ a : Item, (sortPolicies h column s).state.policiesTableBody.count a
      = s.allPolicies.count a :=
  ⟨sortPolicies_table_perm h column s hok, (sortPolicies_table_perm h column s hok).length_eq,
    fun a => (sortPolicies_table_perm h column s hok).count_eq a⟩

/-- C23, witness: the sort of `"Banana"`, `"apple"` by `displayName` does not throw
and shows two rows, each policy once. -/
theorem sortPolicies_displays_permutation_witness :
    (sortPolicies refHost "displayName" (stateOf bananaItems)).thrown = none ∧
    (sortPolicies refHost "displayName" (stateOf bananaItems)).state.policiesTableBody.Perm
      bananaItems ∧
    (sortPolicies refHost "displayName" (stateOf bananaItems)).state.policiesTableBody.length
      = 2 :=
  ⟨by decide,
    (sortPolicies_displays_permutation refHost "displayName" (stateOf bananaItems)
      (by decide)).1,
    (sortPolicies_displays_permutation refHost "displayName" (stateOf bananaItems)
      (by decide)).2.1⟩

theorem compareValues_asc_swap (h : Host) (x y : JSVal) :
    compareValues h .asc y x = -compareValues h .asc x y := by
  cases hxy : jsLt h x y with
  | true =>
    have hyx := jsLt_asymm h x y hxy
    simp [compareValues, hxy, hyx]
  | false =>
    cases hyx : jsLt h y x <;> simp [compareValues, hxy, hyx]

theorem compareValues_asc_nonpos (h : Host) (x y : JSVal) :
    compareValues h .asc x y ≤ 0 ↔ jsLt h y x = false := by
  cases hxy : jsLt h x y with
  | true =>
    have hyx := jsLt_asymm h x y hxy
    simp [compareValues, hxy, hyx]
  | false =>
    cases hyx : jsLt h y x <;> simp [compareValues, hxy, hyx]

theorem compareValues_asc_ne_zero (h : Host) (x y : JSVal)
    (hne : compareValues h .asc x y ≠ 0) : jsLt h x y = true ∨ jsLt h y x = true := by
  cases hxy : jsLt h x y with
  | true => exact Or.inl rfl
  | false =>
    cases hyx : jsLt h y x with
    | true => exact Or.inr rfl
    | false => simp [compareValues, hxy, hyx] at hne

/-- On a domain where the comparator is a consistent comparison it is a total
preorder in ascending direction. -/
theorem compareFn_preorder_on (h : Host) (column : String) (D : Item → Prop)
    (hD : StrictWeakOn (itemLt h column .asc) D)
    (hcmp : ∀ a b, D a → D b → compareFn h column .asc a b
      = .ok (compareValues h .asc (finalKey h column a) (finalKey h column b)))
    (a b c : Item) (ha : D a) (hb : D b) (hc : D c) :
    compareFn h column .asc a a = .ok 0 ∧
    ∃ rab rba rbc rac : Int,
      compareFn h column .asc a b = .ok rab ∧ compareFn h column .asc b a = .ok rba ∧
      compareFn h column .asc b c = .ok rbc ∧ compareFn h column .asc a c = .ok rac ∧
      rab = -rba ∧ (rab ≤ 0 → rbc ≤ 0 → rac ≤ 0) := by
  refine ⟨?_, _, _, _, _, hcmp a b ha hb, hcmp b a hb ha, hcmp b c hb hc, hcmp a c ha hc,
    ?_, ?_⟩
  · rw [hcmp a a ha ha]
    simp [compareValues, jsLt_irrefl]
  · exact compareValues_asc_swap h (finalKey h column b) (finalKey h column a)
  · intro hab hbc
    rw [compareValues_asc_nonpos] at hab hbc ⊢
    exact hD.ntrans a b c ha hb hc hab hbc

/-- C24: in a column other than the two date columns, on items whose value is a
string, `null` or `undefined`, and in a date column on items whose value is
`null`, `undefined`, empty or a date string the host parses, the ascending
comparator is a total preorder: it returns 0 on an item and itself, its result on
`b`, `a` is the negation of that on `a`, `b`, and `cmp(a,b) <= 0` with
`cmp(b,c) <= 0` gives `cmp(a,c) <= 0`. -/
theorem compareFn_total_preorder (h : Host) (column : String) (a b c : Item)
    (hv : (isDateColumn column = false ∧
        ∀ x ∈ [a, b, c], stringOrNullish (x.get column) = true) ∨
      (isDateColumn column = true ∧
        ∀ x ∈ [a, b, c], parseableDate h (x.get column) = true)) :
    compareFn h column .asc a a = .ok 0 ∧
    ∃ rab rba rbc rac : Int,
      compareFn h column .asc a b = .ok rab ∧ compareFn h column .asc b a = .ok rba ∧
      compareFn h column .asc b c = .ok rbc ∧ compareFn h column .asc a c = .ok rac ∧
      rab = -rba ∧ (rab ≤ 0 → rbc ≤ 0 → rac ≤ 0) := by
  rcases hv with ⟨hcol, hs⟩ | ⟨hcol, hp⟩
  · have key : ∀ x ∈ [a, b, c], StringKeyed h column x :=
      fun x hx => (coerceValue_string_column h column x hcol (hs x hx)).1
    exact compareFn_preorder_on h column (StringKeyed h column)
      (strictWeak_string h column .asc)
      (fun x y hx hy => compareFn_eq_string h column .asc x y hx hy) a b c
      (key a (by simp)) (key b (by simp)) (key c (by simp))
  · have key : ∀ x ∈ [a, b, c], NumberKeyed h column x :=
      fun x hx => numberKeyed_date_column h column x hcol (hp x hx)
    exact compareFn_preorder_on h column (NumberKeyed h column)
      (strictWeak_number h column .asc)
      (fun x y hx hy => compareFn_eq_number h column .asc x y hx hy) a b c
      (key a (by simp)) (key b (by simp)) (key c (by simp))

/-- C24, witness: on the names `"MFA"`, `"Block"`, `"mfa"` the comparator returns 0
on `"MFA"` and itself, 1 on `"MFA"`, `"Block"` and 0 on `"MFA"`, `"mfa"`. -/
theorem compareFn_total_preorder_witness :
    compareFn refHost "displayName" .asc mfaPolicy mfaPolicy = .ok 0 ∧
    ∃ rab rba rbc rac : Int,
      compareFn refHost "displayName" .asc mfaPolicy
        (mkItem [("id", .str (js "p2")), ("displayName", .str (js "Block"))]) = .ok rab ∧
      compareFn refHost "displayName" .asc
        (mkItem [("id", .str (js "p2")), ("displayName", .str (js "Block"))]) mfaPolicy
          = .ok rba ∧
      compareFn refHost "displayName" .asc
        (mkItem [("id", .str (js "p2")), ("displayName", .str (js "Block"))])
        (mkItem [("id", .str (js "p3")), ("displayName", .null)]) = .ok rbc ∧
      compareFn refHost "displayName" .asc mfaPolicy
        (mkItem [("id", .str (js "p3")), ("displayName", .null)]) = .ok rac ∧
      rab = -rba ∧ (rab ≤ 0 → rbc ≤ 0 → rac ≤ 0) :=
  compareFn_total_preorder refHost "displayName" mfaPolicy
    (mkItem [("id", .str (js "p2")), ("displayName", .str (js "Block"))])
    (mkItem [("id", .str (js "p3")), ("displayName", .null)])
    (Or.inl ⟨by decide, by decide⟩)

/-- C24, counterexample: in the column `modifiedDateTime` the values `"2023-01-09"`,
`"unknown"`, `"2023-01-01"` are strings, yet the comparator returns 0 on the first
two, 0 on the last two and 1 on the first and the last: the timestamp of
`"unknown"` is `NaN`, which compares equal to everything. -/
theorem compareFn_preorder_counterexample :
    (∀ x ∈ [newerPolicy, undatedPolicy, olderPolicy],
      stringOrNullish (x.get "modifiedDateTime") = true) ∧
    compareFn refHost "modifiedDateTime" .asc newerPolicy undatedPolicy = .ok 0 ∧
    compareFn refHost "modifiedDateTime" .asc undatedPolicy olderPolicy = .ok 0 ∧
    compareFn refHost "modifiedDateTime" .asc newerPolicy olderPolicy = .ok 1 :=
  ⟨by decide, rfl, rfl, rfl⟩

/-- On a collection where the comparator is a consistent comparison and no two
items compare equal, the descending sort is the reverse of the ascending one. -/
theorem sortBy_desc_reverse (h : Host) (column : String) (items : List Item)
    (hc : ConsistentColumn h column items)
    (hd : items.Pairwise (fun a b => comparesEqual h column a b = false)) :
    sortBy (itemLt h column .desc) [] items
      = (sortBy (itemLt h column .asc) [] items).reverse := by
  obtain ⟨_, D, _, hall, hcmp⟩ := sortedPolicies_consistent h column .asc items hc
  have hA : (sortBy (itemLt h column .asc) [] items).Pairwise
      (fun a b => itemLt h column .asc b a = false) := sortBy_nil_sorted h column .asc items hc
  have hB : (sortBy (itemLt h column .desc) [] items).Pairwise
      (fun a b => itemLt h column .asc a b = false) := sortBy_nil_sorted h column .desc items hc
  have hB1 : (sortBy (itemLt h column .desc) [] items).reverse.Pairwise
      (fun a b => itemLt h column .asc b a = false) := List.pairwise_reverse.mpr hB
  have hperm : (sortBy (itemLt h column .asc) [] items).Perm
      (sortBy (itemLt h column .desc) [] items).reverse :=
    (sortBy_nil_perm h column .asc items).trans
      ((List.reverse_perm _).trans (sortBy_nil_perm h column .desc items)).symm
  have hR : items.Pairwise
      (fun a b => itemLt h column .asc a b = true ∨ itemLt h column .asc b a = true) := by
    refine List.Pairwise.imp_of_mem ?_ hd
    intro a b ha hb hab
    have hne : compareValues h .asc (finalKey h column a) (finalKey h column b) ≠ 0 := by
      simpa [comparesEqual, hcmp a b (hall a ha) (hall b hb)] using hab
    exact compareValues_asc_ne_zero h _ _ hne
  have hsymm : Symmetric
      (fun a b : Item => itemLt h column .asc a b = true ∨ itemLt h column .asc b a = true) :=
    fun _ _ hab => hab.symm
  have heq := List.Perm.eq_of_sorted ?_ hA hB1 hperm
  · rw [heq, List.reverse_reverse]
  · intro a b ha hb hba hab
    by_contra hne
    have ha1 : a ∈ items := (sortBy_nil_perm h column .asc items).mem_iff.mp ha
    have hb1 : b ∈ items :=
      (sortBy_nil_perm h column .desc items).mem_iff.mp (List.mem_reverse.mp hb)
    rcases hR.forall hsymm ha1 hb1 hne with h1 | h1
    · rw [hab] at h1
      exact Bool.false_ne_true h1
    · rw [hba] at h1
      exact Bool.false_ne_true h1

/-- C25: on every collection whose coerced values in the column are all strings, or
all numbers or booleans none of which is `NaN`, and in which the comparator returns
0 on no two items, the descending result is the exact reverse of the ascending
one; with ties it need not be: `"MFA"`, `"Block"`, `"mfa"` sort ascending as
`"Block"`, `"MFA"`, `"mfa"` and descending as `"MFA"`, `"mfa"`, `"Block"`. -/
theorem sortedPolicies_desc_reverses_asc :
    (∀ (h : Host) (column : String) (items : List Item),
      ConsistentColumn h column items →
      items.Pairwise (fun a b => comparesEqual h column a b = false) →
      ∃ asc : List Item, sortedPolicies h column .asc items = .ok asc ∧
        sortedPolicies h column .desc items = .ok asc.reverse) ∧
    ∃ asc desc : List Item, sortedPolicies refHost "displayName" .asc tiedItems = .ok asc ∧
      sortedPolicies refHost "displayName" .desc tiedItems = .ok desc ∧
      column "displayName" asc = [.str (js "Block"), .str (js "MFA"), .str (js "mfa")] ∧
      column "displayName" desc = [.str (js "MFA"), .str (js "mfa"), .str (js "Block")] ∧
      desc ≠ asc.reverse := by
  constructor
  · intro h column items hc hd
    refine ⟨sortBy (itemLt h column .asc) [] items,
      (sortedPolicies_consistent h column .asc items hc).1, ?_⟩
    rw [(sortedPolicies_consistent h column .desc items hc).1,
      sortBy_desc_reverse h column items hc hd]
  · exact ⟨_, _, rfl, rfl, by decide, by decide, by decide⟩

/-- C25, witness: `"Banana"`, `"apple"` sort ascending as `"apple"`, `"Banana"` and
descending as the reverse of that. -/
theorem sortedPolicies_desc_reverses_asc_witness :
    ConsistentColumn refHost "displayName" bananaItems ∧
    bananaItems.Pairwise (fun a b => comparesEqual refHost "displayName" a b = false) ∧
    ∃ asc : List Item, sortedPolicies refHost "displayName" .asc bananaItems = .ok asc ∧
      sortedPolicies refHost "displayName" .desc bananaItems = .ok asc.reverse :=
  ⟨by decide, by decide,
    sortedPolicies_desc_reverses_asc.1 refHost "displayName" bananaItems (by decide)
      (by decide)⟩

/-- C25, counterexample: the coerced values of `"2023-01-01"` and `"unknown"` in
`modifiedDateTime` are distinct, a timestamp and `NaN`; the comparator returns 0 on
them, so both directions keep the two policies in their `allPolicies` order and
the descending result is not the reverse of the ascending one. -/
theorem sortedPolicies_reverse_counterexample :
    (undatedPair.map (coerceValue refHost "modifiedDateTime")).Pairwise (fun x y => x ≠ y) ∧
    sortedPolicies refHost "modifiedDateTime" .asc undatedPair = .ok undatedPair ∧
    sortedPolicies refHost "modifiedDateTime" .desc undatedPair = .ok undatedPair ∧
    undatedPair ≠ undatedPair.reverse :=
  ⟨by decide, rfl, rfl, by decide⟩

theorem mem_toggleSelectAll (idText : JSVal → JSString) (checked : Bool) (s : State)
    (j : JSVal) (hj : j ∈ (toggleSelectAll idText checked s).selectedPolicyIds) :
    ∃ row ∈ s.policiesTableBody, JSVal.str (idText (row.get "id")) = j := by
  cases checked with
  | true =>
    simp only [toggleSelectAll, if_true] at hj
    rw [mem_foldl_setAdd] at hj
    simpa using hj
  | false =>
    have hnil : (toggleSelectAll idText false s).selectedPolicyIds = [] := by
      unfold toggleSelectAll
      simp only []
      induction s.policiesTableBody with
      | nil => rfl
      | cons row rows ih => simp
    rw [hnil] at hj
    simp at hj

theorem togglePolicySelection_rows (id : JSVal) (s : State) :
    (togglePolicySelection id s).allPolicies = s.allPolicies ∧
    (togglePolicySelection id s).policiesTableBody = s.policiesTableBody := by
  unfold togglePolicySelection
  split <;> exact ⟨rfl, rfl⟩

theorem sortPolicies_rows (h : Host) (column : String) (s : State) (r : Item)
    (hr : r ∈ (sortPolicies h column s).state.policiesTableBody) :
    r ∈ s.allPolicies ∨ r ∈ s.policiesTableBody := by
  have hall : (setSort column s).allPolicies = s.allPolicies := by
    unfold setSort; split <;> rfl
  have htab : (setSort column s).policiesTableBody = s.policiesTableBody := by
    unfold setSort; split <;> rfl
  simp only [sortPolicies] at hr
  split at hr
  · rename_i sorted hs
    rw [hall] at hs
    exact Or.inl ((arraySort_perm _ _ _ hs).mem_iff.mp hr)
  · rw [htab] at hr
    exact Or.inr hr

/-- In a reachable state the rows of the table, the items of `allPolicies` and the
selected ids all come from the collections loaded so far. -/
theorem reachable_from_loaded (h : Host) (idText : JSVal → JSString) (seen : List Item)
    (s : State) (hr : Reachable h idText seen s)
    (hid : ∀ p ∈ seen, JSVal.str (idText (p.get "id")) = p.get "id") :
    (∀ r ∈ s.policiesTableBody, r ∈ seen) ∧ (∀ r ∈ s.allPolicies, r ∈ seen) ∧
    ∀ m ∈ s.selectedPolicyIds, ∃ p ∈ seen, p.get "id" = m := by
  induction hr with
  | start => simp [State.initial]
  | refresh seen s load _ ih =>
    obtain ⟨h1, h2, h3⟩ := ih (fun p hp => hid p (List.mem_append_left _ hp))
    cases load with
    | loaded policies =>
      refine ⟨fun r hr => List.mem_append_right _ hr,
        fun r hr => List.mem_append_right _ hr, ?_⟩
      intro m hm
      obtain ⟨p, hp, hpm⟩ := h3 m hm
      exact ⟨p, List.mem_append_left _ hp, hpm⟩
    | refused e =>
      refine ⟨fun r hr => by simp [refreshPolicies] at hr,
        fun r hr => List.mem_append_left _ (h2 r hr), ?_⟩
      intro m hm
      obtain ⟨p, hp, hpm⟩ := h3 m hm
      exact ⟨p, List.mem_append_left _ hp, hpm⟩
    | threw e =>
      refine ⟨fun r hr => by simp [refreshPolicies] at hr,
        fun r hr => List.mem_append_left _ (h2 r hr), ?_⟩
      intro m hm
      obtain ⟨p, hp, hpm⟩ := h3 m hm
      exact ⟨p, List.mem_append_left _ hp, hpm⟩
  | sort seen s column _ ih =>
    obtain ⟨h1, h2, h3⟩ := ih hid
    have hst := sortPolicies_frame h column s
    have hall : (setSort column s).allPolicies = s.allPolicies := by
      unfold setSort; split <;> rfl
    have hselect : (setSort column s).selectedPolicyIds = s.selectedPolicyIds := by
      unfold setSort; split <;> rfl
    refine ⟨?_, ?_, ?_⟩
    · intro r hr
      rcases sortPolicies_rows h column s r hr with hr1 | hr1
      · exact h2 r hr1
      · exact h1 r hr1
    · rw [hst.2.2.1, hall]
      exact h2
    · rw [hst.2.2.2, hselect]
      exact h3
  | toggle seen s row _ hrow ih =>
    obtain ⟨h1, h2, h3⟩ := ih hid
    obtain ⟨ha, ht⟩ := togglePolicySelection_rows (.str (idText (row.get "id"))) s
    refine ⟨by rw [ht]; exact h1, by rw [ha]; exact h2, ?_⟩
    intro m hm
    rcases (mem_togglePolicySelection _ m s).mp hm with ⟨rfl, _⟩ | ⟨_, hm1⟩
    · exact ⟨row, h1 row hrow, (hid row (h1 row hrow)).symm⟩
    · exact h3 m hm1
  | toggleAll seen s checked _ ih =>
    obtain ⟨h1, h2, _⟩ := ih hid
    refine ⟨h1, h2, ?_⟩
    intro m hm
    obtain ⟨row, hrow, hm1⟩ := mem_toggleSelectAll idText checked s m hm
    exact ⟨row, h1 row hrow, by rw [← hid row (h1 row hrow)]; exact hm1⟩
  | bulkDelete seen s σ backend confirmAnswer w _ ih =>
    obtain ⟨h1, h2, h3⟩ := ih hid
    rcases bulkDeletePolicies_state backend confirmAnswer s w with hs | hs
    · rw [hs]
      exact ⟨h1, h2, h3⟩
    · rw [hs]
      exact ⟨h1, h2, fun m hm => by simp at hm⟩

/-- The state with the stale selection is reachable, the two loads being those of
`p1`, `p2`, `p3` and of `p2`, `p3`. -/
theorem staleState_reachable :
    Reachable refHost plainIdText (tiedItems ++ tiedItems.drop 1) staleState :=
  Reachable.refresh tiedItems tickedState (.loaded (tiedItems.drop 1))
    (Reachable.toggle tiedItems loadedState mfaPolicy
      (Reachable.refresh [] State.initial (.loaded tiedItems) Reachable.start)
      (by decide))

/-- C22: in every state reached from page load through `refreshPolicies`,
`sortPolicies`, clicks on the checkboxes of rendered rows, `toggleSelectAll` and
`bulkDeletePolicies`, every member of `selectedPolicyIds` is the id of an item of
one of the collections loaded so far, the ids being strings that the attribute
`data-policy-id` gives back unchanged. -/
theorem selection_within_loaded (h : Host) (idText : JSVal → JSString) (seen : List Item)
    (s : State) (hr : Reachable h idText seen s)
    (hid : ∀ p ∈ seen, JSVal.str (idText (p.get "id")) = p.get "id") :
    SelectionWithin seen s :=
  (reachable_from_loaded h idText seen s hr hid).2.2

/-- C22, counterexample: the policies `p1`, `p2`, `p3` are loaded, the checkbox of
`p1` is ticked, and a reload brings `p2`, `p3` only; `p1` is still selected and is
the id of no item of `allPolicies`. -/
theorem selection_invariant_counterexample :
    (∃ seen, Reachable refHost plainIdText seen staleState) ∧
    staleState.selectedPolicyIds = [.str (js "p1")] ∧
    column "id" staleState.allPolicies = [.str (js "p2"), .str (js "p3")] ∧
    ¬ SelectionWithin staleState.allPolicies staleState :=
  ⟨⟨_, staleState_reachable⟩, by decide, by decide, by decide⟩

/-- C22, witness: in the state of the counterexample the selected `p1` is the id of
an item of the first collection loaded. -/
theorem selection_within_loaded_witness :
    (∀ p ∈ tiedItems ++ tiedItems.drop 1,
      JSVal.str (plainIdText (p.get "id")) = p.get "id") ∧
    SelectionWithin (tiedItems ++ tiedItems.drop 1) staleState :=
  ⟨by decide,
    selection_within_loaded refHost plainIdText (tiedItems ++ tiedItems.drop 1) staleState
      staleState_reachable (by decide)⟩

end CAPolicyManager
